import Mathlib

/-!
Shallow embedding of the relativistic MHD spatial-derivative core (`rmhd.c`)
over the real numbers, with theorems about its Riemann solver, reconstruction,
signal-speed estimation, constraint transport and primitive-variable recovery.

Machine `double` arithmetic is modelled by exact real arithmetic; real division
is total (`x / 0 = 0` in Lean), which is noted wherever it matters.  Decimal
literals such as `1.4` denote the exact rationals they spell.  The externally
linked routines (`solve_quartic_equation`, `solve_quartic_approx1/2`,
`hllc_flux`), which are declared but not defined in the examined source, are
modelled as abstract deterministic functions bundled in `ExtSolvers`.
Diagnostic side effects (`max_lambda`, `cons_to_prim_iter`, verbose printing)
are not modelled; no theorem below concerns them.
-/

namespace RMHD

noncomputable section

/-- An 8-slot cell of doubles (conserved or primitive state, or a flux record),
modelled as a real-valued function on slot indices; slots above 7 are junk that
is never consumed. -/
abbrev St := ℕ → ℝ

-- Conserved slot indices: enum { ddd, tau, Sx, Sy, Sz, Bx, By, Bz }
def ddd : ℕ := 0
def tau : ℕ := 1
def Sx : ℕ := 2
def Sy : ℕ := 3
def Sz : ℕ := 4
def Bx : ℕ := 5
def By : ℕ := 6
def Bz : ℕ := 7

-- Primitive slot indices: enum { rho, pre, vx, vy, vz } (B slots shared)
def rho : ℕ := 0
def pre : ℕ := 1
def vx : ℕ := 2
def vy : ℕ := 3
def vz : ℕ := 4

/-- Build an 8-slot cell from its components. -/
def mkSt (a0 a1 a2 a3 a4 a5 a6 a7 : ℝ) : St := fun k =>
  if k = 0 then a0 else if k = 1 then a1 else if k = 2 then a2 else if k = 3 then a3
  else if k = 4 then a4 else if k = 5 then a5 else if k = 6 then a6 else a7

-- Mode enumerations of the library

inductive RiemannSolverMode
  | HLL
  | HLLC
deriving DecidableEq

inductive ReconstructMode
  | PiecewiseConstant
  | PLM3Velocity
  | PLM4Velocity
deriving DecidableEq

inductive SlopeLimiterMode
  | Minmod
  | MonotizedCentral
  | HarmonicMean
deriving DecidableEq

inductive QuarticSolverMode
  | Exact
  | Approx1
  | Approx2
  | NoneTrivial
deriving DecidableEq

/-- The `struct LibraryState` configuration fields that influence the numerics
(diagnostic counters and the verbosity flag are omitted). -/
structure LibraryState where
  cons_to_prim_use_estimate : Bool
  adiabatic_gamma : ℝ
  plm_theta : ℝ
  mode_riemann_solver : RiemannSolverMode
  mode_reconstruct : ReconstructMode
  mode_slope_limiter : SlopeLimiterMode
  mode_quartic_solver : QuarticSolverMode

/-- The default `lib_state` initializer of the library. -/
def default_state : LibraryState :=
  { cons_to_prim_use_estimate := false
    adiabatic_gamma := 1.4
    plm_theta := 2.0
    mode_riemann_solver := RiemannSolverMode.HLL
    mode_reconstruct := ReconstructMode.PLM4Velocity
    mode_slope_limiter := SlopeLimiterMode.Minmod
    mode_quartic_solver := QuarticSolverMode.Exact }

/-- `sign(x) = (x>0)-(x<0)`. -/
def sgn (x : ℝ) : ℝ := (if 0 < x then (1 : ℝ) else 0) - (if x < 0 then (1 : ℝ) else 0)

/-- `max2(a,b) = (a>b)?a:b`. -/
def max2 (a b : ℝ) : ℝ := if a > b then a else b

/-- `max3`. -/
def max3 (a b c : ℝ) : ℝ := if (if a > b then a else b) > c then (if a > b then a else b) else c

/-- `min3`. -/
def min3 (a b c : ℝ) : ℝ := if (if a < b then a else b) < c then (if a < b then a else b) else c

/-- The theta-parametrised minmod limiter `plm_minmod`. -/
def plm_minmod (th ul u0 ur : ℝ) : ℝ :=
  let a := th * (u0 - ul)
  let b := 0.5 * (ur - ul)
  let c := th * (ur - u0)
  0.25 * |sgn a + sgn b| * (sgn a + sgn c) * min3 |a| |b| |c|

/-- The monotonized-central limiter `MC_limiter`. -/
def MC_limiter (ul u0 ur : ℝ) : ℝ :=
  let qp := ur - u0
  let qm := u0 - ul
  let si := 0.5 * (sgn qp + sgn qm)
  si * min3 (2 * |qp|) (2 * |qm|) (0.5 * (ur - ul))

/-- The harmonic-mean limiter `harmonic_mean`; its division `.../(qp+qm)` is
unguarded in the source.  Over the reals `x / 0 = 0`. -/
def harmonic_mean (ul u0 ur : ℝ) : ℝ :=
  let qp := ur - u0
  let qm := u0 - ul
  2 * max2 0 (qp * qm) / (qp + qm)

/-- Guarded variant of `harmonic_mean`: `none` exactly when the unguarded
division `.../(qp+qm)` in the source divides by zero. -/
def harmonic_mean_checked (ul u0 ur : ℝ) : Option ℝ :=
  let qp := ur - u0
  let qm := u0 - ul
  if qp + qm = 0 then none else some (2 * max2 0 (qp * qm) / (qp + qm))

/-- The limiter selected by `set_state` from the configured mode. -/
def slope_limiter (cfg : LibraryState) : ℝ → ℝ → ℝ → ℝ :=
  match cfg.mode_slope_limiter with
  | SlopeLimiterMode.Minmod => plm_minmod cfg.plm_theta
  | SlopeLimiterMode.MonotizedCentral => MC_limiter
  | SlopeLimiterMode.HarmonicMean => harmonic_mean

/-- Guarded variant of `slope_limiter`: `none` exactly when the selected
limiter performs a division by zero (only `harmonic_mean` can). -/
def slope_limiter_checked (cfg : LibraryState) : ℝ → ℝ → ℝ → Option ℝ :=
  match cfg.mode_slope_limiter with
  | SlopeLimiterMode.Minmod => fun ul u0 ur => some (plm_minmod cfg.plm_theta ul u0 ur)
  | SlopeLimiterMode.MonotizedCentral => fun ul u0 ur => some (MC_limiter ul u0 ur)
  | SlopeLimiterMode.HarmonicMean => harmonic_mean_checked

/-- `eos_sie`. -/
def eos_sie (g Rho Pre : ℝ) : ℝ := Pre / (Rho * (g - 1))

/-- `eos_pre`. -/
def eos_pre (g Rho Sie : ℝ) : ℝ := Sie * (Rho * (g - 1))

/-- `eos_cs2`. -/
def eos_cs2 (g Rho Pre : ℝ) : ℝ :=
  let e := eos_sie g Rho Pre
  g * Pre / (Pre + Rho + Rho * e)

/-- `prim_to_cons_point` (pure function of the primitive cell and the
adiabatic index). -/
def prim_to_cons_point (g : ℝ) (P : St) : St :=
  let v2 := P vx * P vx + P vy * P vy + P vz * P vz
  let B2 := P Bx * P Bx + P By * P By + P Bz * P Bz
  let Bv := P Bx * P vx + P By * P vy + P Bz * P vz
  let W2 := 1 / (1 - v2)
  let W := Real.sqrt W2
  let b0 := W * Bv
  let b2 := (B2 + b0 * b0) / W2
  let bix := (P Bx + b0 * W * P vx) / W
  let biy := (P By + b0 * W * P vy) / W
  let biz := (P Bz + b0 * W * P vz) / W
  let e := eos_sie g (P rho) (P pre)
  let p := P pre
  let e_ := e + 0.5 * b2 / P rho
  let p_ := p + 0.5 * b2
  let h_ := 1 + e_ + p_ / P rho
  mkSt (P rho * W)
       (P rho * h_ * W2 - p_ - b0 * b0 - P rho * W)
       (P rho * h_ * W2 * P vx - b0 * bix)
       (P rho * h_ * W2 * P vy - b0 * biy)
       (P rho * h_ * W2 * P vz - b0 * biz)
       (P Bx) (P By) (P Bz)

/-- Output record of the externally linked exact quartic solver:
up to four roots and the validity counts `nr12`, `nr34`, `nr`. -/
structure QuarticRoots where
  r1 : ℝ
  r2 : ℝ
  r3 : ℝ
  r4 : ℝ
  nr12 : ℤ
  nr34 : ℤ
  nr : ℤ

/-- Modelled from the spec: the quartic root machinery
(`solve_quartic_equation`, `solve_quartic_approx1`, `solve_quartic_approx2`)
and the HLLC solver (`hllc_flux`) are declared but not defined in the examined
source; per the design notes they are abstract deterministic capabilities.
`quartic` maps the five coefficients (degree 4 down to 0) to a root record;
`approx1`/`approx2` map the coefficients and the seed (`±1`) to a root;
`hllc` maps (dimension, left, right, interface speed) to a (state, flux) pair. -/
structure ExtSolvers where
  quartic : ℝ → ℝ → ℝ → ℝ → ℝ → QuarticRoots
  approx1 : ℝ → ℝ → ℝ → ℝ → ℝ → ℝ → ℝ
  approx2 : ℝ → ℝ → ℝ → ℝ → ℝ → ℝ → ℝ
  hllc : ℕ → St → St → ℝ → St × St

/-- A trivial instance of the abstract external solvers, used to instantiate
universally quantified theorems at concrete inputs. -/
def trivialExt : ExtSolvers :=
  { quartic := fun _ _ _ _ _ => ⟨0, 0, 0, 0, 2, 0, 2⟩
    approx1 := fun _ _ _ _ _ x => x
    approx2 := fun _ _ _ _ _ x => x
    hllc := fun _ pl _ _ => (pl, pl) }

/-- An instance of the abstract external solvers whose exact quartic solver
reports a superluminal root pair, used to exercise the safety fallback. -/
def extBig : ExtSolvers :=
  { quartic := fun _ _ _ _ _ => ⟨5, -5, 0, 0, 2, 0, 2⟩
    approx1 := fun _ _ _ _ _ x => x
    approx2 := fun _ _ _ _ _ x => x
    hllc := fun _ pl _ _ => (pl, pl) }

/-- The physical flux vector computed by `rmhd_flux_and_eval` for
`dimension ∈ {1,2,3}` (the `switch` has no default branch; the embedding
returns the zero record off those values, which is never consumed). -/
def rmhd_flux (g : ℝ) (dim : ℕ) (U P : St) : St :=
  let v2 := P vx * P vx + P vy * P vy + P vz * P vz
  let B2 := P Bx * P Bx + P By * P By + P Bz * P Bz
  let Bv := P Bx * P vx + P By * P vy + P Bz * P vz
  let W := 1 / Real.sqrt (1 - v2)
  let W2 := W * W
  let b0 := W * Bv
  let b2 := (B2 + b0 * b0) / W2
  let bix := (P Bx + b0 * W * P vx) / W
  let biy := (P By + b0 * W * P vy) / W
  let biz := (P Bz + b0 * W * P vz) / W
  let p := P pre
  let p_ := p + 0.5 * b2
  if dim = 1 then
    mkSt (U ddd * P vx)
         (U tau * P vx - b0 * P Bx / W + p_ * P vx)
         (U Sx * P vx - bix * P Bx / W + p_)
         (U Sy * P vx - biy * P Bx / W)
         (U Sz * P vx - biz * P Bx / W)
         0
         (P vx * P By - P vy * P Bx)
         (P vx * P Bz - P vz * P Bx)
  else if dim = 2 then
    mkSt (U ddd * P vy)
         (U tau * P vy - b0 * P By / W + p_ * P vy)
         (U Sx * P vy - bix * P By / W)
         (U Sy * P vy - biy * P By / W + p_)
         (U Sz * P vy - biz * P By / W)
         (P vy * P Bx - P vx * P By)
         0
         (P vy * P Bz - P vz * P By)
  else if dim = 3 then
    mkSt (U ddd * P vz)
         (U tau * P vz - b0 * P Bz / W + p_ * P vz)
         (U Sx * P vz - bix * P Bz / W)
         (U Sy * P vz - biy * P Bz / W)
         (U Sz * P vz - biz * P Bz / W + p_)
         (P vz * P Bx - P vx * P Bz)
         (P vz * P By - P vy * P Bz)
         0
  else fun _ => 0

/-- The raw signal-speed pair `(ap, am)` produced by the selected quartic
solver strategy in `rmhd_flux_and_eval`, before the safety fallback. -/
def signal_raw (ext : ExtSolvers) (cfg : LibraryState) (dim : ℕ) (U P : St) : ℝ × ℝ :=
  let v2 := P vx * P vx + P vy * P vy + P vz * P vz
  let B2 := P Bx * P Bx + P By * P By + P Bz * P Bz
  let Bv := P Bx * P vx + P By * P vy + P Bz * P vz
  let W := 1 / Real.sqrt (1 - v2)
  let W2 := W * W
  let b0 := W * Bv
  let b2 := (B2 + b0 * b0) / W2
  let bix := (P Bx + b0 * W * P vx) / W
  let biy := (P By + b0 * W * P vy) / W
  let biz := (P Bz + b0 * W * P vz) / W
  let e := eos_sie cfg.adiabatic_gamma (P rho) (P pre)
  let h := 1 + e + P pre / P rho
  let vi := if dim = 1 then P vx else if dim = 2 then P vy else if dim = 3 then P vz else 0
  let bi := if dim = 1 then bix else if dim = 2 then biy else if dim = 3 then biz else 0
  let W4 := W2 * W2
  let cs2 := eos_cs2 cfg.adiabatic_gamma (P rho) (P pre)
  let V2 := vi * vi
  let V3 := vi * V2
  let V4 := vi * V3
  let K := P rho * h * (1 / cs2 - 1) * W4
  let L := -(P rho * h + b2 / cs2) * W2
  let A4 := K - L - b0 * b0
  let A3 := -4 * K * vi + L * vi * 2 + 2 * b0 * bi
  let A2 := 6 * K * V2 + L * (1 - V2) + b0 * b0 - bi * bi
  let A1 := -4 * K * V3 - L * vi * 2 - 2 * b0 * bi
  let A0 := K * V4 + L * V2 + bi * bi
  match cfg.mode_quartic_solver with
  | QuarticSolverMode.Exact =>
    let q := ext.quartic A4 A3 A2 A1 A0
    let ap12 := if q.r1 > q.r2 then q.r1 else q.r2
    let ap34 := if q.r3 > q.r4 then q.r3 else q.r4
    let am12 := if q.r1 < q.r2 then q.r1 else q.r2
    let am34 := if q.r3 < q.r4 then q.r3 else q.r4
    ((if q.nr = 2 then (if q.nr12 = 2 then ap12 else ap34)
      else (if ap12 > ap34 then ap12 else ap34)),
     (if q.nr = 2 then (if q.nr12 = 2 then am12 else am34)
      else (if am12 < am34 then am12 else am34)))
  | QuarticSolverMode.Approx1 => (ext.approx1 A4 A3 A2 A1 A0 1, ext.approx1 A4 A3 A2 A1 A0 (-1))
  | QuarticSolverMode.Approx2 => (ext.approx2 A4 A3 A2 A1 A0 1, ext.approx2 A4 A3 A2 A1 A0 (-1))
  | QuarticSolverMode.NoneTrivial => (1, -1)

/-- `rmhd_flux_and_eval`: the flux record and the `(ap, am)` signal-speed pair
after the superluminal safety fallback of the source. -/
def rmhd_flux_and_eval (ext : ExtSolvers) (cfg : LibraryState) (dim : ℕ) (U P : St) :
    St × ℝ × ℝ :=
  let F := rmhd_flux cfg.adiabatic_gamma dim U P
  let raw := signal_raw ext cfg dim U P
  if |raw.1| > 1 ∨ |raw.2| > 1 then (F, 1, -1) else (F, raw.1, raw.2)

/-- The outer-envelope wave bounds `(ap, am)` formed inside `hll_flux` from the
two one-sided evaluations. -/
def hll_bounds (ext : ExtSolvers) (cfg : LibraryState) (dim : ℕ) (pl pr : St) : ℝ × ℝ :=
  let Ul := prim_to_cons_point cfg.adiabatic_gamma pl
  let Ur := prim_to_cons_point cfg.adiabatic_gamma pr
  let el := rmhd_flux_and_eval ext cfg dim Ul pl
  let er := rmhd_flux_and_eval ext cfg dim Ur pr
  ((if el.2.1 > er.2.1 then el.2.1 else er.2.1),
   (if el.2.2 < er.2.2 then el.2.2 else er.2.2))

/-- `hll_flux`: the `(U, F)` output pair.  The source's `else if` chain
`s<=am` / `am<s && s<=ap` / `ap<s` is exhaustive over the reals and equals the
nested conditional below.  (The `max_lambda` diagnostic update is omitted.) -/
def hll_flux (ext : ExtSolvers) (cfg : LibraryState) (dim : ℕ) (pl pr : St) (s : ℝ) :
    St × St :=
  let Ul := prim_to_cons_point cfg.adiabatic_gamma pl
  let Ur := prim_to_cons_point cfg.adiabatic_gamma pr
  let Fl := (rmhd_flux_and_eval ext cfg dim Ul pl).1
  let Fr := (rmhd_flux_and_eval ext cfg dim Ur pr).1
  let ap := (hll_bounds ext cfg dim pl pr).1
  let am := (hll_bounds ext cfg dim pl pr).2
  let U_hll : St := fun i => (ap * Ur i - am * Ul i + (Fl i - Fr i)) / (ap - am)
  let F_hll : St := fun i => (ap * Fl i - am * Fr i + ap * am * (Ur i - Ul i)) / (ap - am)
  ((if s ≤ am then Ul else if s ≤ ap then U_hll else Ur),
   (if s ≤ am then Fl else if s ≤ ap then F_hll else Fr))

/-- `reconstruct_use_3vel` on the four-cell stencil `(P[-S], P[0], P[S], P[2S])`;
returns `(Pl, Pr)`. -/
def reconstruct_use_3vel (cfg : LibraryState) (Pm1 P0 P1 P2 : St) : St × St :=
  ((fun i => P0 i + 0.5 * slope_limiter cfg (Pm1 i) (P0 i) (P1 i)),
   (fun i => P1 i - 0.5 * slope_limiter cfg (P0 i) (P1 i) (P2 i)))

open Classical in
/-- Guarded variant of `reconstruct_use_3vel`: `none` when any of the limiter
applications it performs is undefined (division by zero in the source). -/
def reconstruct_use_3vel_checked (cfg : LibraryState) (Pm1 P0 P1 P2 : St) :
    Option (St × St) :=
  if ∀ i < 8, (slope_limiter_checked cfg (Pm1 i) (P0 i) (P1 i)).isSome ∧
      (slope_limiter_checked cfg (P0 i) (P1 i) (P2 i)).isSome
  then some (reconstruct_use_3vel cfg Pm1 P0 P1 P2) else none

/-- `reconstruct_use_4vel` on the four-cell primitive stencil and the
four-entry 4-velocity cache stencils; returns `(Pl, Pr)`.  The slots
`rho, pre, Bx, By, Bz` are limited with `plm_minmod` (the loop over
`i==rho || i==pre || i==Bx || i==By || i==Bz`), the velocity slots come from
the limited 4-velocity divided by its implied Lorentz factor. -/
def reconstruct_use_4vel (cfg : LibraryState) (Pm1 P0 P1 P2 : St)
    (uxm ux0 ux1 ux2 uym uy0 uy1 uy2 uzm uz0 uz1 uz2 : ℝ) : St × St :=
  let ux_r := ux1 - 0.5 * slope_limiter cfg ux0 ux1 ux2
  let ux_l := ux0 + 0.5 * slope_limiter cfg uxm ux0 ux1
  let uy_r := uy1 - 0.5 * slope_limiter cfg uy0 uy1 uy2
  let uy_l := uy0 + 0.5 * slope_limiter cfg uym uy0 uy1
  let uz_r := uz1 - 0.5 * slope_limiter cfg uz0 uz1 uz2
  let uz_l := uz0 + 0.5 * slope_limiter cfg uzm uz0 uz1
  let Wr := Real.sqrt (1 + ux_r * ux_r + uy_r * uy_r + uz_r * uz_r)
  let Wl := Real.sqrt (1 + ux_l * ux_l + uy_l * uy_l + uz_l * uz_l)
  ((fun i => if i = vx then ux_l / Wl else if i = vy then uy_l / Wl
             else if i = vz then uz_l / Wl
             else P0 i + 0.5 * plm_minmod cfg.plm_theta (Pm1 i) (P0 i) (P1 i)),
   (fun i => if i = vx then ux_r / Wr else if i = vy then uy_r / Wr
             else if i = vz then uz_r / Wr
             else P1 i - 0.5 * plm_minmod cfg.plm_theta (P0 i) (P1 i) (P2 i)))

/-- A variant of `reconstruct_use_4vel` written to the spec's words, limiting
the density, pressure and magnetic-field slots with the *configured* limiter
"as in the 3-velocity case"; used as the comparison point for the claim that
the source does so. -/
def reconstruct_use_4vel_spec (cfg : LibraryState) (Pm1 P0 P1 P2 : St)
    (uxm ux0 ux1 ux2 uym uy0 uy1 uy2 uzm uz0 uz1 uz2 : ℝ) : St × St :=
  let ux_r := ux1 - 0.5 * slope_limiter cfg ux0 ux1 ux2
  let ux_l := ux0 + 0.5 * slope_limiter cfg uxm ux0 ux1
  let uy_r := uy1 - 0.5 * slope_limiter cfg uy0 uy1 uy2
  let uy_l := uy0 + 0.5 * slope_limiter cfg uym uy0 uy1
  let uz_r := uz1 - 0.5 * slope_limiter cfg uz0 uz1 uz2
  let uz_l := uz0 + 0.5 * slope_limiter cfg uzm uz0 uz1
  let Wr := Real.sqrt (1 + ux_r * ux_r + uy_r * uy_r + uz_r * uz_r)
  let Wl := Real.sqrt (1 + ux_l * ux_l + uy_l * uy_l + uz_l * uz_l)
  ((fun i => if i = vx then ux_l / Wl else if i = vy then uy_l / Wl
             else if i = vz then uz_l / Wl
             else P0 i + 0.5 * slope_limiter cfg (Pm1 i) (P0 i) (P1 i)),
   (fun i => if i = vx then ux_r / Wr else if i = vy then uy_r / Wr
             else if i = vz then uz_r / Wr
             else P1 i - 0.5 * slope_limiter cfg (P0 i) (P1 i) (P2 i)))

/-- Agreement of two 8-slot cells on the slots the solvers consume. -/
def EqSt (P Q : St) : Prop := ∀ k < 8, P k = Q k

/-- Slot-uniformity of a flat array on an index range: any two entries of the
range whose indices are congruent modulo 8 agree. -/
def Unif8 (F : ℕ → ℝ) (lo hi : ℕ) : Prop :=
  ∀ j j', lo ≤ j → j < hi → lo ≤ j' → j' < hi → j % 8 = j' % 8 → F j = F j'

-- Grid geometry

/-- Grid dimensions `(Nx, Ny, Nz)` fixed at `initialize`. -/
structure Grid where
  Nx : ℕ
  Ny : ℕ
  Nz : ℕ

/-- `stride[0] = Nx*Ny*Nz*8`. -/
def stride0 (g : Grid) : ℕ := g.Nx * g.Ny * g.Nz * 8

/-- `stride[1] = Ny*Nz*8`. -/
def stride1 (g : Grid) : ℕ := g.Ny * g.Nz * 8

/-- `stride[2] = Nz*8`. -/
def stride2 (g : Grid) : ℕ := g.Nz * 8

/-- `stride[3] = 8`. -/
def stride3 (g : Grid) : ℕ := 8

/-- `stride[dimension]` for the active dimension (only 1, 2, 3 are used). -/
def strideOf (g : Grid) (dim : ℕ) : ℕ :=
  if dim = 1 then stride1 g else if dim = 2 then stride2 g
  else if dim = 3 then stride3 g else stride0 g

-- Constraint transport.  The scratch buffers come from `malloc` and are
-- uninitialized; their initial contents are the `gx, gy, ...` parameters,
-- which the first loop overwrites only on `sx <= i < stride0 - sx`.

/-- The 2-D constraint-transport scratch value `FxBy` per cell. -/
def ct2d_FxBy (g : Grid) (Fx Fy gx : ℕ → ℝ) : ℕ → ℝ := fun c =>
  let sx := stride1 g
  let sy := stride2 g
  let i := 8 * c
  if sx ≤ i ∧ i < stride0 g - sx then
    (2 * Fx (i + By) + Fx (i + By + sy) + Fx (i + By - sy)
      - Fy (i + Bx) - Fy (i + Bx + sx) - Fy (i + Bx - sy) - Fy (i + Bx + sx - sy)) * 0.125
  else gx c

/-- The 2-D constraint-transport scratch value `FyBx` per cell. -/
def ct2d_FyBx (g : Grid) (Fx Fy gy : ℕ → ℝ) : ℕ → ℝ := fun c =>
  let sx := stride1 g
  let sy := stride2 g
  let i := 8 * c
  if sx ≤ i ∧ i < stride0 g - sx then
    (2 * Fy (i + Bx) + Fy (i + Bx + sx) + Fy (i + Bx - sx)
      - Fx (i + By) - Fx (i + By + sy) - Fx (i + By - sx) - Fx (i + By - sx + sy)) * 0.125
  else gy c

/-- `constraint_transport_2d`: the rewritten `(Fx, Fy)` flux arrays. -/
def constraint_transport_2d (g : Grid) (Fx Fy gx gy : ℕ → ℝ) : (ℕ → ℝ) × (ℕ → ℝ) :=
  let FxBy := ct2d_FxBy g Fx Fy gx
  let FyBx := ct2d_FyBx g Fx Fy gy
  ((fun j => if j < stride0 g then
      (if j % 8 = Bx then 0 else if j % 8 = By then FxBy (j / 8) else Fx j) else Fx j),
   (fun j => if j < stride0 g then
      (if j % 8 = Bx then FyBx (j / 8) else if j % 8 = By then 0 else Fy j) else Fy j))

/-- The 3-D constraint-transport scratch values, one function per pair. -/
def ct3d_FxBy (g : Grid) (Fx Fy gs : ℕ → ℝ) : ℕ → ℝ := fun c =>
  let sx := stride1 g
  let sy := stride2 g
  let i := 8 * c
  if sx ≤ i ∧ i < stride0 g - sx then
    (2 * Fx (i + By) + Fx (i + By + sy) + Fx (i + By - sy)
      - Fy (i + Bx) - Fy (i + Bx + sx) - Fy (i + Bx - sy) - Fy (i + Bx + sx - sy)) * 0.125
  else gs c

def ct3d_FyBx (g : Grid) (Fx Fy gs : ℕ → ℝ) : ℕ → ℝ := fun c =>
  let sx := stride1 g
  let sy := stride2 g
  let i := 8 * c
  if sx ≤ i ∧ i < stride0 g - sx then
    (2 * Fy (i + Bx) + Fy (i + Bx + sx) + Fy (i + Bx - sx)
      - Fx (i + By) - Fx (i + By + sy) - Fx (i + By - sx) - Fx (i + By - sx + sy)) * 0.125
  else gs c

def ct3d_FyBz (g : Grid) (Fy Fz gs : ℕ → ℝ) : ℕ → ℝ := fun c =>
  let sx := stride1 g
  let sy := stride2 g
  let sz := stride3 g
  let i := 8 * c
  if sx ≤ i ∧ i < stride0 g - sx then
    (2 * Fy (i + Bz) + Fy (i + Bz + sz) + Fy (i + Bz - sz)
      - Fz (i + By) - Fz (i + By + sy) - Fz (i + By - sz) - Fz (i + By + sy - sz)) * 0.125
  else gs c

def ct3d_FzBy (g : Grid) (Fy Fz gs : ℕ → ℝ) : ℕ → ℝ := fun c =>
  let sx := stride1 g
  let sy := stride2 g
  let sz := stride3 g
  let i := 8 * c
  if sx ≤ i ∧ i < stride0 g - sx then
    (2 * Fz (i + By) + Fz (i + By + sy) + Fz (i + By - sy)
      - Fy (i + Bz) - Fy (i + Bz + sz) - Fy (i + Bz - sy) - Fy (i + Bz - sy + sz)) * 0.125
  else gs c

def ct3d_FzBx (g : Grid) (Fz Fx gs : ℕ → ℝ) : ℕ → ℝ := fun c =>
  let sx := stride1 g
  let sz := stride3 g
  let i := 8 * c
  if sx ≤ i ∧ i < stride0 g - sx then
    (2 * Fz (i + Bx) + Fz (i + Bx + sx) + Fz (i + Bx - sx)
      - Fx (i + Bz) - Fx (i + Bz + sz) - Fx (i + Bz - sx) - Fx (i + Bz + sz - sx)) * 0.125
  else gs c

def ct3d_FxBz (g : Grid) (Fz Fx gs : ℕ → ℝ) : ℕ → ℝ := fun c =>
  let sx := stride1 g
  let sz := stride3 g
  let i := 8 * c
  if sx ≤ i ∧ i < stride0 g - sx then
    (2 * Fx (i + Bz) + Fx (i + Bz + sz) + Fx (i + Bz - sz)
      - Fz (i + Bx) - Fz (i + Bx + sx) - Fz (i + Bx - sz) - Fz (i + Bx - sz + sx)) * 0.125
  else gs c

/-- `constraint_transport_3d`: the rewritten `(Fx, Fy, Fz)` flux arrays. -/
def constraint_transport_3d (g : Grid) (Fx Fy Fz gxy gxz gyz gyx gzx gzy : ℕ → ℝ) :
    (ℕ → ℝ) × (ℕ → ℝ) × (ℕ → ℝ) :=
  let FxBy := ct3d_FxBy g Fx Fy gxy
  let FxBz := ct3d_FxBz g Fz Fx gxz
  let FyBz := ct3d_FyBz g Fy Fz gyz
  let FyBx := ct3d_FyBx g Fx Fy gyx
  let FzBx := ct3d_FzBx g Fz Fx gzx
  let FzBy := ct3d_FzBy g Fy Fz gzy
  ((fun j => if j < stride0 g then
      (if j % 8 = Bx then 0 else if j % 8 = By then FxBy (j / 8)
       else if j % 8 = Bz then FxBz (j / 8) else Fx j) else Fx j),
   (fun j => if j < stride0 g then
      (if j % 8 = Bx then FyBx (j / 8) else if j % 8 = By then 0
       else if j % 8 = Bz then FyBz (j / 8) else Fy j) else Fy j),
   (fun j => if j < stride0 g then
      (if j % 8 = Bx then FzBx (j / 8) else if j % 8 = By then FzBy (j / 8)
       else if j % 8 = Bz then 0 else Fz j) else Fz j))

-- Conserved-to-primitive inversion (`cons_to_prim_point`)

/-- `PRES_FLOOR`. -/
def PRES_FLOOR : ℝ := 1e-10

/-- `ERROR_TOLR`. -/
def ERROR_TOLR : ℝ := 1e-6

/-- `NEWTON_MAX_ITER`. -/
def NEWTON_MAX_ITER : ℕ := 25

/-- Quantities fixed for one inversion: conserved invariants and the
initial/restart values of the unknowns `(Z, W)` (the restart recomputes the
same expressions, so they coincide with the initial values). -/
structure C2PCtx where
  gamf : ℝ
  D : ℝ
  Tau : ℝ
  S2 : ℝ
  B2 : ℝ
  BS : ℝ
  W0 : ℝ
  Z0 : ℝ

/-- The fixed quantities of `cons_to_prim_point` from the conserved cell `U`,
the guess cell `P` and the configuration. -/
def c2p_ctx (cfg : LibraryState) (U P : St) : C2PCtx :=
  let gamf := (cfg.adiabatic_gamma - 1) / cfg.adiabatic_gamma
  let D := U ddd
  let Tau := U tau
  let S2 := U Sx * U Sx + U Sy * U Sy + U Sz * U Sz
  let B2 := U Bx * U Bx + U By * U By + U Bz * U Bz
  let BS := U Bx * U Sx + U By * U Sy + U Bz * U Sz
  let v2 := P vx * P vx + P vy * P vy + P vz * P vz
  let h_guess := 1 + eos_sie cfg.adiabatic_gamma (P rho) (P pre) + P pre / P rho
  let W_guess := 1 / Real.sqrt (1 - v2)
  let W := if cfg.cons_to_prim_use_estimate then Real.sqrt (S2 / (D * D) + 1) else W_guess
  let Z := if cfg.cons_to_prim_use_estimate then D * W
           else P rho * h_guess * W_guess * W_guess
  ⟨gamf, D, Tau, S2, B2, BS, W, Z⟩

/-- State of the Newton loop at the top of a pass: the unknowns, the running
`n_iter` counter and the `use_pres_floor` flag. -/
structure NewtonT where
  Z : ℝ
  W : ℝ
  n : ℕ
  pfloor : Bool

/-- The pressure implied at the start of a Newton pass (the `Pre` local). -/
def c2p_Pre (c : C2PCtx) (t : NewtonT) : ℝ :=
  if t.pfloor then PRES_FLOOR else (c.D / t.W) * (t.Z / (c.D * t.W) - 1) * c.gamf

/-- The Newton update `(dZ, dW)` of one pass: residuals, analytic Jacobian
and its closed-form inverse (`invert_2by2_matrix`). -/
def c2p_dZW (c : C2PCtx) (t : NewtonT) : ℝ × ℝ :=
  let Z := t.Z
  let W := t.W
  let Z2 := Z * Z
  let Z3 := Z * Z2
  let W2 := W * W
  let W3 := W * W2
  let BS2 := c.BS * c.BS
  let Pre := c2p_Pre c t
  let f1 := -c.S2 + (Z + c.B2) * (Z + c.B2) * (W2 - 1) / W2 - (2 * Z + c.B2) * BS2 / Z2
  let f2 := -c.Tau + Z + c.B2 - Pre - 0.5 * c.B2 / W2 - 0.5 * BS2 / Z2 - c.D
  let df1dZ := 2 * (c.B2 + Z) * (BS2 * W2 + (W2 - 1) * Z3) / (W2 * Z3)
  let df1dW := 2 * (c.B2 + Z) * (c.B2 + Z) / W3
  let df2dZ := 1 + BS2 / Z3 - c.gamf / W2
  let df2dW := c.B2 / W3 + (2 * Z - c.D * W) / W3 * c.gamf
  let det := df1dZ * df2dW - df2dZ * df1dW
  let G00 := df2dW / det
  let G01 := -df1dW / det
  let G10 := -df2dZ / det
  let G11 := df1dZ / det
  (G00 * f1 + G01 * f2, G10 * f1 + G11 * f2)

/-- The clamped new `Z` of one pass (`smlZ = 0`, `bigZ = 1e20`; an over-large
candidate falls back to the previous `Z`). -/
def c2p_Znew (c : C2PCtx) (t : NewtonT) : ℝ :=
  let Z1 := t.Z - (c2p_dZW c t).1
  let Z2 := if Z1 > 0 then Z1 else -Z1
  if Z2 < 1e20 then Z2 else t.Z

/-- The clamped new `W` of one pass (`smlW = 1`, `bigW = 1e12`). -/
def c2p_Wnew (c : C2PCtx) (t : NewtonT) : ℝ :=
  let W1 := t.W - (c2p_dZW c t).2
  let W2 := if W1 > 1 then W1 else 1
  if W2 < 1e12 then W2 else 1e12

/-- Outcome of one pass of the Newton `while` loop. -/
inductive C2PStep
  | next (t : NewtonT)
  | done (Z W : ℝ) (pfloor : Bool) (n : ℕ)
  | fail

/-- The state entering the pass after a pressure-floor restart (`n` is 1 when
the restart came from the tolerance branch, 0 from the iteration-cap branch,
because `n_iter++` runs between the two). -/
def c2p_restart (c : C2PCtx) (n : ℕ) : NewtonT := ⟨c.Z0, c.W0, n, true⟩

/-- One pass of the Newton loop body, in source order: update and clamp the
unknowns, test the tolerance `|dZ/Z| + |dW/W| < ERROR_TOLR` (on the updated
values), then run the `n_iter++ == NEWTON_MAX_ITER` cap check. -/
def c2p_step (c : C2PCtx) (t : NewtonT) : C2PStep :=
  let dZ := (c2p_dZW c t).1
  let dW := (c2p_dZW c t).2
  let Z' := c2p_Znew c t
  let W' := c2p_Wnew c t
  let Pre := c2p_Pre c t
  if (|dZ / Z'| + |dW / W'| < ERROR_TOLR) ∧ PRES_FLOOR ≤ Pre then
    (if t.n = NEWTON_MAX_ITER then C2PStep.fail else C2PStep.done Z' W' t.pfloor (t.n + 1))
  else if |dZ / Z'| + |dW / W'| < ERROR_TOLR then C2PStep.next (c2p_restart c 1)
  else if t.n = NEWTON_MAX_ITER then
    (if Pre < PRES_FLOOR then C2PStep.next (c2p_restart c 0) else C2PStep.fail)
  else C2PStep.next ⟨Z', W', t.n + 1, t.pfloor⟩

/-- Result of running the loop to completion. -/
inductive C2PRes
  | success (Z W : ℝ) (pfloor : Bool)
  | failure
  | out

/-- Fuel-indexed run of the Newton loop; `out` is returned only on fuel
exhaustion, which is unreachable from the initial state with `C2P_FUEL`. -/
def c2p_run (c : C2PCtx) : ℕ → NewtonT → C2PRes
  | 0, _ => C2PRes.out
  | fuel + 1, t =>
    match c2p_step c t with
    | C2PStep.next t' => c2p_run c fuel t'
    | C2PStep.done Z W fl _ => C2PRes.success Z W fl
    | C2PStep.fail => C2PRes.failure

/-- Fuel bound: the loop runs at most 26 passes per phase and at most two
phases (the floor flag is monotone), hence at most 52 passes. -/
def C2P_FUEL : ℕ := 60

/-- The initial Newton state. -/
def c2p_init (c : C2PCtx) : NewtonT := ⟨c.Z0, c.W0, 0, false⟩

/-- The Newton pass-state trace from a given state: after `k` further passes,
`some` of the loop state if the loop is still running, `none` once it has
stopped (converged or failed). -/
def c2p_traceFrom (c : C2PCtx) : ℕ → NewtonT → Option NewtonT
  | 0, t => some t
  | k + 1, t =>
    match c2p_step c t with
    | C2PStep.next t' => c2p_traceFrom c k t'
    | _ => none

/-- The Newton pass-state trace from the initial state. -/
def c2p_trace (c : C2PCtx) (k : ℕ) : Option NewtonT := c2p_traceFrom c k (c2p_init c)

/-- `cons_to_prim_point`: the C return value (1 on convergence failure), the
primitive output cell, and the recorded `cons_to_prim_last_W`.  On failure the
output cell is the untouched input `P` and `lastW` keeps its previous value,
exactly as the source leaves the output array and the global untouched. -/
def cons_to_prim_point (cfg : LibraryState) (U P : St) (lastW : ℝ) : ℕ × St × ℝ :=
  let c := c2p_ctx cfg U P
  match c2p_run c C2P_FUEL (c2p_init c) with
  | C2PRes.success Z W fl =>
    (0, mkSt (c.D / W)
         (if fl then PRES_FLOOR else (c.D / W) * (Z / (c.D * W) - 1) * c.gamf)
         ((U Sx + (c.BS * W / Z) * U Bx / W) / (Z + c.B2))
         ((U Sy + (c.BS * W / Z) * U By / W) / (Z + c.B2))
         ((U Sz + (c.BS * W / Z) * U Bz / W) / (Z + c.B2))
         (U Bx) (U By) (U Bz), W)
  | _ => (1, P, lastW)

/-- The 8-slot cell of a flat array at base index `i`. -/
def cellSt (A : ℕ → ℝ) (i : ℕ) : St := fun k => A (i + k)

/-- Overwrite the 8-slot cell at base index `i` of a flat array. -/
def setCell (A : ℕ → ℝ) (i : ℕ) (cell : St) : ℕ → ℝ := fun j =>
  if i ≤ j ∧ j < i + 8 then cell (j - i) else A j

/-- Overwrite one entry of a flat array. -/
def setAt (A : ℕ → ℝ) (c : ℕ) (v : ℝ) : ℕ → ℝ := fun j => if j = c then v else A j

/-- Accumulated state of `cons_to_prim_array`: failure count, the primitive
array being updated in place, the three 4-velocity caches and the
`cons_to_prim_last_W` global. -/
structure C2PArr where
  failures : ℕ
  P : ℕ → ℝ
  ux : ℕ → ℝ
  uy : ℕ → ℝ
  uz : ℕ → ℝ
  lastW : ℝ

/-- `cons_to_prim_array` in alive mode with `P` aliasing the cached primitive
array (so the defensive `memcpy` branch is skipped): cells `0..N-1` are
processed in order; each inversion's guess is its own yet-unwritten cell;
the 4-velocity caches are refreshed from `cons_to_prim_last_W` and the
written cell whenever PLM-4-velocity reconstruction is selected. -/
def cons_to_prim_array (cfg : LibraryState) (U : ℕ → ℝ) : ℕ → C2PArr → C2PArr
  | 0, a => a
  | n + 1, a =>
    let a' := cons_to_prim_array cfg U n a
    let i := 8 * n
    let r := cons_to_prim_point cfg (cellSt U i) (cellSt a'.P i) a'.lastW
    let Pnew := setCell a'.P i r.2.1
    if cfg.mode_reconstruct = ReconstructMode.PLM4Velocity then
      { failures := a'.failures + r.1
        P := Pnew
        ux := setAt a'.ux n (r.2.2 * r.2.1 vx)
        uy := setAt a'.uy n (r.2.2 * r.2.1 vy)
        uz := setAt a'.uz n (r.2.2 * r.2.1 vz)
        lastW := r.2.2 }
    else
      { failures := a'.failures + r.1
        P := Pnew
        ux := a'.ux
        uy := a'.uy
        uz := a'.uz
        lastW := r.2.2 }

-- The per-axis interface-flux sweep `Fiph` and the dUdt entry points

/-- The interface solve of `Fiph` at cell base index `i` (a multiple of 8 in
the interior sweep range): reconstruction at the configured mode followed by
the configured Riemann solver at interface speed 0. -/
def fiph_cell (ext : ExtSolvers) (cfg : LibraryState) (g : Grid) (dim : ℕ)
    (P ux uy uz : ℕ → ℝ) (i : ℕ) : St × St :=
  let S := strideOf g dim
  let Uc := S / 8
  let cc := i / 8
  let Pm1 := cellSt P (i - S)
  let P0 := cellSt P i
  let P1 := cellSt P (i + S)
  let P2 := cellSt P (i + 2 * S)
  let PlPr :=
    match cfg.mode_reconstruct with
    | ReconstructMode.PiecewiseConstant => (P0, P1)
    | ReconstructMode.PLM3Velocity => reconstruct_use_3vel cfg Pm1 P0 P1 P2
    | ReconstructMode.PLM4Velocity =>
        reconstruct_use_4vel cfg Pm1 P0 P1 P2
          (ux (cc - Uc)) (ux cc) (ux (cc + Uc)) (ux (cc + 2 * Uc))
          (uy (cc - Uc)) (uy cc) (uy (cc + Uc)) (uy (cc + 2 * Uc))
          (uz (cc - Uc)) (uz cc) (uz (cc + Uc)) (uz (cc + 2 * Uc))
  match cfg.mode_riemann_solver with
  | RiemannSolverMode.HLL => hll_flux ext cfg dim PlPr.1 PlPr.2 0
  | RiemannSolverMode.HLLC => ext.hllc dim PlPr.1 PlPr.2 0

/-- `Fiph`: the interface-flux array along `dim`.  The first `S` entries and
the last `2S` entries are zeroed; every other entry comes from the interface
solve of its cell. -/
def Fiph (ext : ExtSolvers) (cfg : LibraryState) (g : Grid) (dim : ℕ)
    (P ux uy uz : ℕ → ℝ) : ℕ → ℝ := fun j =>
  let S := strideOf g dim
  if j < S then 0
  else if stride0 g - 2 * S ≤ j then 0
  else (fiph_cell ext cfg g dim P ux uy uz (8 * (j / 8))).2 (j % 8)

/-- `dUdt_1d` in alive mode: full-grid inversion (with the cached primitive
array `Pc` as warm-start guesses), one x sweep, then the finite difference
written to `L[i]` for every `stride[1] <= i < stride[0]`; entries below
`stride[1]` keep their prior values.  Returns the failure count and the
updated output array. -/
def dUdt_1d (ext : ExtSolvers) (cfg : LibraryState) (g : Grid) (dx : ℝ)
    (U Pc ux0 uy0 uz0 : ℕ → ℝ) (lastW0 : ℝ) (L : ℕ → ℝ) : ℕ × (ℕ → ℝ) :=
  let a := cons_to_prim_array cfg U (stride0 g / 8) ⟨0, Pc, ux0, uy0, uz0, lastW0⟩
  let F := Fiph ext cfg g 1 a.P a.ux a.uy a.uz
  (a.failures,
   fun i => if stride1 g ≤ i ∧ i < stride0 g then -(F i - F (i - stride1 g)) / dx else L i)

/-- `dUdt_2d` in alive mode: two sweeps, the 2-D constraint transport (with
uninitialized scratch contents `gx, gy`), then the two-axis finite
difference on `stride[1] <= i < stride[0]`. -/
def dUdt_2d (ext : ExtSolvers) (cfg : LibraryState) (g : Grid) (dx dy : ℝ)
    (U Pc ux0 uy0 uz0 : ℕ → ℝ) (lastW0 : ℝ) (gx gy : ℕ → ℝ) (L : ℕ → ℝ) :
    ℕ × (ℕ → ℝ) :=
  let a := cons_to_prim_array cfg U (stride0 g / 8) ⟨0, Pc, ux0, uy0, uz0, lastW0⟩
  let F0 := Fiph ext cfg g 1 a.P a.ux a.uy a.uz
  let G0 := Fiph ext cfg g 2 a.P a.ux a.uy a.uz
  let FG := constraint_transport_2d g F0 G0 gx gy
  (a.failures,
   fun i => if stride1 g ≤ i ∧ i < stride0 g then
      -(FG.1 i - FG.1 (i - stride1 g)) / dx - (FG.2 i - FG.2 (i - stride2 g)) / dy
    else L i)

/-- `dUdt_3d` in alive mode: three sweeps, the 3-D constraint transport, then
the three-axis finite difference on `stride[1] <= i < stride[0]`. -/
def dUdt_3d (ext : ExtSolvers) (cfg : LibraryState) (g : Grid) (dx dy dz : ℝ)
    (U Pc ux0 uy0 uz0 : ℕ → ℝ) (lastW0 : ℝ) (gxy gxz gyz gyx gzx gzy : ℕ → ℝ)
    (L : ℕ → ℝ) : ℕ × (ℕ → ℝ) :=
  let a := cons_to_prim_array cfg U (stride0 g / 8) ⟨0, Pc, ux0, uy0, uz0, lastW0⟩
  let F0 := Fiph ext cfg g 1 a.P a.ux a.uy a.uz
  let G0 := Fiph ext cfg g 2 a.P a.ux a.uy a.uz
  let H0 := Fiph ext cfg g 3 a.P a.ux a.uy a.uz
  let FGH := constraint_transport_3d g F0 G0 H0 gxy gxz gyz gyx gzx gzy
  (a.failures,
   fun i => if stride1 g ≤ i ∧ i < stride0 g then
      -(FGH.1 i - FGH.1 (i - stride1 g)) / dx
        - (FGH.2.1 i - FGH.2.1 (i - stride2 g)) / dy
        - (FGH.2.2 i - FGH.2.2 (i - stride3 g)) / dz
    else L i)

-- Concrete configurations and cells used to instantiate the theorems

/-- The default configuration with the trivial quartic strategy selected. -/
def state_qnone : LibraryState :=
  { default_state with mode_quartic_solver := QuarticSolverMode.NoneTrivial }

/-- The default configuration with the monotonized-central limiter selected. -/
def state_mc : LibraryState :=
  { default_state with mode_slope_limiter := SlopeLimiterMode.MonotizedCentral }

/-- The default configuration with the harmonic-mean limiter selected. -/
def state_hm : LibraryState :=
  { default_state with mode_slope_limiter := SlopeLimiterMode.HarmonicMean }

/-- The default configuration with the fresh conserved-derived estimate. -/
def state_est : LibraryState :=
  { default_state with cons_to_prim_use_estimate := true }

/-- Left primitive interface state of the HLL instance: density 1, pressure 1,
fluid at rest, unmagnetized. -/
def hll_pl : St := mkSt 1 1 0 0 0 0 0 0

/-- Right primitive interface state of the HLL instance: density 2. -/
def hll_pr : St := mkSt 2 1 0 0 0 0 0 0

/-- Decreasing density stencil cells exhibiting a limiter disagreement. -/
def c3_Pm1 : St := mkSt 0 0 0 0 0 0 0 0

def c3_P0 : St := mkSt (-1) 0 0 0 0 0 0 0

def c3_P1 : St := mkSt (-2) 0 0 0 0 0 0 0

def c3_P2 : St := mkSt (-3) 0 0 0 0 0 0 0

/-- A conserved cell whose inversion oscillates (the Newton iterates bounce
between `Z = 2` and the rejected negative candidate) and hits the iteration
cap: `D = 1`, `tau = -8/7`, `S = 0`, `B = (1,1,0)`. -/
def c5_U : St := mkSt 1 (-8/7) 0 0 0 1 1 0

/-- Guess cell for the failing inversion (ignored by the fresh estimate). -/
def c5_P : St := mkSt 1 1 0 0 0 0 0 0

/-- A physical primitive state (positive density and pressure, zero velocity)
whose pressure is small relative to its density. -/
def c8_P : St := mkSt 1e9 100 0 0 0 0 0 0

/-- The uniform-field scenario grid: 10 cells along x (two guard layers at
each end), degenerate in y and z. -/
def c9_grid : Grid := ⟨10, 1, 1⟩

/-- The uniform primitive state of the scenario: density 1, pressure 1, fluid
at rest, unmagnetized. -/
def c9_P : St := mkSt 1 1 0 0 0 0 0 0

/-- The conserved cell of the uniform scenario state under the default
adiabatic index. -/
def c9_U : St := prim_to_cons_point default_state.adiabatic_gamma c9_P

-- ---------------------------------------------------------------------
-- Theorems
-- ---------------------------------------------------------------------

-- Slot-evaluation helpers

@[simp] theorem ddd_def : ddd = 0 := rfl
@[simp] theorem tau_def : tau = 1 := rfl
@[simp] theorem Sx_def : Sx = 2 := rfl
@[simp] theorem Sy_def : Sy = 3 := rfl
@[simp] theorem Sz_def : Sz = 4 := rfl
@[simp] theorem Bx_def : Bx = 5 := rfl
@[simp] theorem By_def : By = 6 := rfl
@[simp] theorem Bz_def : Bz = 7 := rfl
@[simp] theorem rho_def : rho = 0 := rfl
@[simp] theorem pre_def : pre = 1 := rfl
@[simp] theorem vx_def : vx = 2 := rfl
@[simp] theorem vy_def : vy = 3 := rfl
@[simp] theorem vz_def : vz = 4 := rfl

@[simp] theorem mkSt_at0 (a0 a1 a2 a3 a4 a5 a6 a7 : ℝ) :
    mkSt a0 a1 a2 a3 a4 a5 a6 a7 0 = a0 := rfl

@[simp] theorem mkSt_at1 (a0 a1 a2 a3 a4 a5 a6 a7 : ℝ) :
    mkSt a0 a1 a2 a3 a4 a5 a6 a7 1 = a1 := rfl

@[simp] theorem mkSt_at2 (a0 a1 a2 a3 a4 a5 a6 a7 : ℝ) :
    mkSt a0 a1 a2 a3 a4 a5 a6 a7 2 = a2 := rfl

@[simp] theorem mkSt_at3 (a0 a1 a2 a3 a4 a5 a6 a7 : ℝ) :
    mkSt a0 a1 a2 a3 a4 a5 a6 a7 3 = a3 := rfl

@[simp] theorem mkSt_at4 (a0 a1 a2 a3 a4 a5 a6 a7 : ℝ) :
    mkSt a0 a1 a2 a3 a4 a5 a6 a7 4 = a4 := rfl

@[simp] theorem mkSt_at5 (a0 a1 a2 a3 a4 a5 a6 a7 : ℝ) :
    mkSt a0 a1 a2 a3 a4 a5 a6 a7 5 = a5 := rfl

@[simp] theorem mkSt_at6 (a0 a1 a2 a3 a4 a5 a6 a7 : ℝ) :
    mkSt a0 a1 a2 a3 a4 a5 a6 a7 6 = a6 := rfl

@[simp] theorem mkSt_at7 (a0 a1 a2 a3 a4 a5 a6 a7 : ℝ) :
    mkSt a0 a1 a2 a3 a4 a5 a6 a7 7 = a7 := rfl

/-- Auxiliary bound: a 4-velocity divided by the Lorentz factor it implies has
squared magnitude strictly below 1. -/
theorem four_velocity_sq_lt_one (a b c : ℝ) :
    (a / Real.sqrt (1 + a * a + b * b + c * c)) ^ 2
      + (b / Real.sqrt (1 + a * a + b * b + c * c)) ^ 2
      + (c / Real.sqrt (1 + a * a + b * b + c * c)) ^ 2 < 1 := by
  have hpos : (0:ℝ) < 1 + a * a + b * b + c * c := by
    nlinarith [sq_nonneg a, sq_nonneg b, sq_nonneg c]
  have hsq : Real.sqrt (1 + a * a + b * b + c * c) ^ 2 = 1 + a * a + b * b + c * c :=
    Real.sq_sqrt hpos.le
  rw [div_pow, div_pow, div_pow, hsq, div_add_div_same, div_add_div_same, div_lt_one hpos]
  nlinarith [sq_nonneg a, sq_nonneg b, sq_nonneg c]

/-- C2: under 4-velocity reconstruction both interface velocities are strictly
sub-luminal for every real input stencil and every configured limiter: the
velocity slots are the limited 4-velocity components divided by the Lorentz
factor implied by the limited 4-velocity magnitude, so the squared velocity
magnitude of each interface state is < 1 by construction, with no clamp. -/
theorem reconstruct_use_4vel_subluminal (cfg : LibraryState) (Pm1 P0 P1 P2 : St)
    (uxm ux0 ux1 ux2 uym uy0 uy1 uy2 uzm uz0 uz1 uz2 : ℝ) :
    ((reconstruct_use_4vel cfg Pm1 P0 P1 P2 uxm ux0 ux1 ux2 uym uy0 uy1 uy2 uzm uz0 uz1 uz2).1 vx) ^ 2
      + ((reconstruct_use_4vel cfg Pm1 P0 P1 P2 uxm ux0 ux1 ux2 uym uy0 uy1 uy2 uzm uz0 uz1 uz2).1 vy) ^ 2
      + ((reconstruct_use_4vel cfg Pm1 P0 P1 P2 uxm ux0 ux1 ux2 uym uy0 uy1 uy2 uzm uz0 uz1 uz2).1 vz) ^ 2 < 1
    ∧ ((reconstruct_use_4vel cfg Pm1 P0 P1 P2 uxm ux0 ux1 ux2 uym uy0 uy1 uy2 uzm uz0 uz1 uz2).2 vx) ^ 2
      + ((reconstruct_use_4vel cfg Pm1 P0 P1 P2 uxm ux0 ux1 ux2 uym uy0 uy1 uy2 uzm uz0 uz1 uz2).2 vy) ^ 2
      + ((reconstruct_use_4vel cfg Pm1 P0 P1 P2 uxm ux0 ux1 ux2 uym uy0 uy1 uy2 uzm uz0 uz1 uz2).2 vz) ^ 2 < 1 := by
  constructor
  · simp only [reconstruct_use_4vel, vx_def, vy_def, vz_def]
    norm_num
    exact four_velocity_sq_lt_one _ _ _
  · simp only [reconstruct_use_4vel, vx_def, vy_def, vz_def]
    norm_num
    exact four_velocity_sq_lt_one _ _ _

/-- C10: the harmonic-mean limiter's division `.../(qp+qm)` has no guard; on
every stencil with `ur = ul` the denominator `(ur-u0)+(u0-ul)` is zero and the
numerator `2*max(0,(ur-u0)*(u0-ul))` is zero as well (a `0/0`), the guarded
embedding of the limiter reports `none`, and that error branch is reached from
the guarded reconstruction interface (here on a locally flat stencil) whenever
the harmonic-mean limiter is configured. -/
theorem harmonic_mean_flat_undefined (cfg : LibraryState)
    (hcfg : cfg.mode_slope_limiter = SlopeLimiterMode.HarmonicMean)
    (ul u0 ur : ℝ) (h : ur = ul) (P : St) :
    ((ur - u0) + (u0 - ul) = 0 ∧ 2 * max2 0 ((ur - u0) * (u0 - ul)) = 0)
    ∧ harmonic_mean_checked ul u0 ur = none
    ∧ reconstruct_use_3vel_checked cfg P P P P = none := by
  have hden : (ur - u0) + (u0 - ul) = 0 := by rw [h]; ring
  have hle : (ur - u0) * (u0 - ul) ≤ 0 := by rw [h]; nlinarith [sq_nonneg (ul - u0)]
  have hmax : max2 0 ((ur - u0) * (u0 - ul)) = 0 := by
    rcases lt_or_eq_of_le hle with hlt | heq
    · rw [max2, if_pos hlt]
    · rw [← heq, max2]
      norm_num
  refine ⟨⟨hden, by rw [hmax]; ring⟩, ?_, ?_⟩
  · simp only [harmonic_mean_checked]
    rw [if_pos hden]
  · simp only [reconstruct_use_3vel_checked]
    split
    · next hall =>
      exfalso
      have h0 := (hall 0 (by norm_num)).1
      simp only [slope_limiter_checked, hcfg] at h0
      simp [harmonic_mean_checked] at h0
    · rfl

/-- C10 witness: the harmonic-mean configuration on a concrete flat stencil. -/
theorem harmonic_mean_flat_undefined_witness :
    (state_hm.mode_slope_limiter = SlopeLimiterMode.HarmonicMean ∧ (1:ℝ) = 1)
    ∧ (((1:ℝ) - 1) + (1 - 1) = 0 ∧ 2 * max2 0 (((1:ℝ) - 1) * (1 - 1)) = 0)
    ∧ harmonic_mean_checked 1 1 1 = none
    ∧ reconstruct_use_3vel_checked state_hm hll_pl hll_pl hll_pl hll_pl = none :=
  ⟨⟨rfl, rfl⟩, harmonic_mean_flat_undefined state_hm rfl 1 1 1 rfl hll_pl⟩

/-- `rmhd_flux_and_eval` returns the physical flux unchanged by the
signal-speed safety fallback. -/
theorem rmhd_flux_and_eval_fst (ext : ExtSolvers) (cfg : LibraryState) (dim : ℕ)
    (U P : St) :
    (rmhd_flux_and_eval ext cfg dim U P).1 = rmhd_flux cfg.adiabatic_gamma dim U P := by
  simp only [rmhd_flux_and_eval]
  split <;> rfl

/-- C3 (amended): the 3-velocity PLM strategy applies the configured limiter to
every limited slot; the 4-velocity strategy applies the configured limiter to
the 4-velocity components but limits the density, pressure and magnetic-field
slots with the fixed `plm_minmod` limiter (at the configured theta), regardless
of which limiter kind is configured. -/
theorem reconstruct_limiter_usage (cfg : LibraryState) (Pm1 P0 P1 P2 : St)
    (uxm ux0 ux1 ux2 uym uy0 uy1 uy2 uzm uz0 uz1 uz2 : ℝ) (i : ℕ)
    (hi : i = rho ∨ i = pre ∨ i = Bx ∨ i = By ∨ i = Bz) :
    ((reconstruct_use_3vel cfg Pm1 P0 P1 P2).1 i
        = P0 i + 0.5 * slope_limiter cfg (Pm1 i) (P0 i) (P1 i)
      ∧ (reconstruct_use_3vel cfg Pm1 P0 P1 P2).2 i
        = P1 i - 0.5 * slope_limiter cfg (P0 i) (P1 i) (P2 i))
    ∧ ((reconstruct_use_4vel cfg Pm1 P0 P1 P2 uxm ux0 ux1 ux2 uym uy0 uy1 uy2 uzm uz0 uz1 uz2).1 i
        = P0 i + 0.5 * plm_minmod cfg.plm_theta (Pm1 i) (P0 i) (P1 i)
      ∧ (reconstruct_use_4vel cfg Pm1 P0 P1 P2 uxm ux0 ux1 ux2 uym uy0 uy1 uy2 uzm uz0 uz1 uz2).2 i
        = P1 i - 0.5 * plm_minmod cfg.plm_theta (P0 i) (P1 i) (P2 i)) := by
  constructor
  · exact ⟨rfl, rfl⟩
  · rcases hi with hi | hi | hi | hi | hi <;> subst hi <;>
      simp [reconstruct_use_4vel]

/-- C3 witness: the amended limiter-usage law at the density slot of a
concrete stencil under the default (minmod) configuration. -/
theorem reconstruct_limiter_usage_witness :
    (rho = rho ∨ rho = pre ∨ rho = Bx ∨ rho = By ∨ rho = Bz)
    ∧ ((reconstruct_use_4vel default_state c3_Pm1 c3_P0 c3_P1 c3_P2
          0 0 0 0 0 0 0 0 0 0 0 0).1 rho
        = c3_P0 rho + 0.5 * plm_minmod default_state.plm_theta (c3_Pm1 rho) (c3_P0 rho) (c3_P1 rho)) :=
  ⟨Or.inl rfl,
   (reconstruct_limiter_usage default_state c3_Pm1 c3_P0 c3_P1 c3_P2
      0 0 0 0 0 0 0 0 0 0 0 0 rho (Or.inl rfl)).2.1⟩

/-- C3 counterexample: with the monotonized-central limiter configured, the
4-velocity reconstruction limits the density slot with `plm_minmod` and not
with the configured limiter: on the density stencil `(0, -1, -2, -3)` the
produced left-interface density is `-1.5`, whereas limiting with the
configured limiter (as the claim and the spec-following variant demand) gives
`-0.5`. -/
theorem reconstruct_use_4vel_limiter_counterexample :
    (reconstruct_use_4vel state_mc c3_Pm1 c3_P0 c3_P1 c3_P2
        0 0 0 0 0 0 0 0 0 0 0 0).1 rho
      ≠ c3_P0 rho + 0.5 * slope_limiter state_mc (c3_Pm1 rho) (c3_P0 rho) (c3_P1 rho)
    ∧ (reconstruct_use_4vel state_mc c3_Pm1 c3_P0 c3_P1 c3_P2
        0 0 0 0 0 0 0 0 0 0 0 0).1 rho
      ≠ (reconstruct_use_4vel_spec state_mc c3_Pm1 c3_P0 c3_P1 c3_P2
          0 0 0 0 0 0 0 0 0 0 0 0).1 rho := by
  have hcode : (reconstruct_use_4vel state_mc c3_Pm1 c3_P0 c3_P1 c3_P2
      0 0 0 0 0 0 0 0 0 0 0 0).1 rho = -1.5 := by
    simp only [reconstruct_use_4vel, state_mc, default_state, rho_def,
      c3_Pm1, c3_P0, c3_P1, c3_P2]
    norm_num [plm_minmod, sgn, min3]
  have hclaim : c3_P0 rho + 0.5 * slope_limiter state_mc (c3_Pm1 rho) (c3_P0 rho) (c3_P1 rho)
      = -0.5 := by
    simp only [slope_limiter, state_mc, default_state, rho_def, c3_Pm1, c3_P0, c3_P1,
      mkSt_at0]
    norm_num [MC_limiter, sgn, min3]
  have hspec : (reconstruct_use_4vel_spec state_mc c3_Pm1 c3_P0 c3_P1 c3_P2
      0 0 0 0 0 0 0 0 0 0 0 0).1 rho = -0.5 := by
    simp only [reconstruct_use_4vel_spec, slope_limiter, state_mc, default_state, rho_def,
      c3_Pm1, c3_P0, c3_P1, c3_P2]
    norm_num [MC_limiter, sgn, min3]
  constructor
  · rw [hcode, hclaim]
    norm_num
  · rw [hcode, hspec]
    norm_num

/-- C6: the signal-speed bounds returned by `rmhd_flux_and_eval` always lie in
`[-1, 1]`, for every conserved/primitive pair, axis, configuration and every
outcome of the (abstract) quartic-solver strategy: whenever either raw bound
exceeds unit magnitude, both are discarded for the trivial pair
`(ap, am) = (1, -1)`. -/
theorem rmhd_flux_and_eval_bounds (ext : ExtSolvers) (cfg : LibraryState) (dim : ℕ)
    (U P : St) :
    ((|(signal_raw ext cfg dim U P).1| > 1 ∨ |(signal_raw ext cfg dim U P).2| > 1) →
      (rmhd_flux_and_eval ext cfg dim U P).2 = (1, -1))
    ∧ -1 ≤ (rmhd_flux_and_eval ext cfg dim U P).2.1
    ∧ (rmhd_flux_and_eval ext cfg dim U P).2.1 ≤ 1
    ∧ -1 ≤ (rmhd_flux_and_eval ext cfg dim U P).2.2
    ∧ (rmhd_flux_and_eval ext cfg dim U P).2.2 ≤ 1 := by
  unfold rmhd_flux_and_eval
  by_cases h : |(signal_raw ext cfg dim U P).1| > 1 ∨ |(signal_raw ext cfg dim U P).2| > 1
  · rw [if_pos h]
    exact ⟨fun _ => rfl, by norm_num, by norm_num, by norm_num, by norm_num⟩
  · rw [if_neg h]
    have h1 := abs_le.mp (not_lt.mp (fun hh => h (Or.inl hh)))
    have h2 := abs_le.mp (not_lt.mp (fun hh => h (Or.inr hh)))
    exact ⟨fun hc => absurd hc h, h1.1, h1.2, h2.1, h2.2⟩

/-- C6 witness: with an exact-solver outcome reporting the root 5 the raw
bound exceeds unit magnitude and the returned pair is the trivial `(1, -1)`. -/
theorem rmhd_flux_and_eval_bounds_witness :
    (|(signal_raw extBig default_state 1 hll_pl hll_pl).1| > 1
      ∨ |(signal_raw extBig default_state 1 hll_pl hll_pl).2| > 1)
    ∧ (rmhd_flux_and_eval extBig default_state 1 hll_pl hll_pl).2 = (1, -1) := by
  have h : |(signal_raw extBig default_state 1 hll_pl hll_pl).1| > 1 := by
    simp only [signal_raw, extBig, default_state]
    norm_num
  exact ⟨Or.inl h, (rmhd_flux_and_eval_bounds extBig default_state 1 hll_pl hll_pl).1 (Or.inl h)⟩

/-- C1 (amended): the HLL three-branch selection rule.  With `(ap, am)` the
outer-envelope signal bounds formed inside the solver, an interface speed
`s ≤ am` yields exactly the left conserved state and left physical flux; a
speed with `am < s ≤ ap` — the boundary `s = ap` included — yields the
closed-form two-wave HLL average `U_hll = (ap*Ur - am*Ul + (Fl - Fr))/(ap-am)`,
`F_hll = (ap*Fl - am*Fr + ap*am*(Ur - Ul))/(ap-am)`; and a speed `ap < s`
(with `am < s`, as the source tests the left bound first) yields exactly the
right state and flux. -/
theorem hll_flux_three_branch (ext : ExtSolvers) (cfg : LibraryState) (dim : ℕ)
    (pl pr : St) (s : ℝ) :
    (s ≤ (hll_bounds ext cfg dim pl pr).2 →
      hll_flux ext cfg dim pl pr s
        = (prim_to_cons_point cfg.adiabatic_gamma pl,
           (rmhd_flux_and_eval ext cfg dim (prim_to_cons_point cfg.adiabatic_gamma pl) pl).1))
    ∧ ((hll_bounds ext cfg dim pl pr).2 < s → s ≤ (hll_bounds ext cfg dim pl pr).1 →
      hll_flux ext cfg dim pl pr s
        = ((fun i => ((hll_bounds ext cfg dim pl pr).1 * prim_to_cons_point cfg.adiabatic_gamma pr i
              - (hll_bounds ext cfg dim pl pr).2 * prim_to_cons_point cfg.adiabatic_gamma pl i
              + ((rmhd_flux_and_eval ext cfg dim (prim_to_cons_point cfg.adiabatic_gamma pl) pl).1 i
                 - (rmhd_flux_and_eval ext cfg dim (prim_to_cons_point cfg.adiabatic_gamma pr) pr).1 i))
              / ((hll_bounds ext cfg dim pl pr).1 - (hll_bounds ext cfg dim pl pr).2)),
           (fun i => ((hll_bounds ext cfg dim pl pr).1
                * (rmhd_flux_and_eval ext cfg dim (prim_to_cons_point cfg.adiabatic_gamma pl) pl).1 i
              - (hll_bounds ext cfg dim pl pr).2
                * (rmhd_flux_and_eval ext cfg dim (prim_to_cons_point cfg.adiabatic_gamma pr) pr).1 i
              + (hll_bounds ext cfg dim pl pr).1 * (hll_bounds ext cfg dim pl pr).2
                * (prim_to_cons_point cfg.adiabatic_gamma pr i
                   - prim_to_cons_point cfg.adiabatic_gamma pl i))
              / ((hll_bounds ext cfg dim pl pr).1 - (hll_bounds ext cfg dim pl pr).2))))
    ∧ ((hll_bounds ext cfg dim pl pr).2 < s → (hll_bounds ext cfg dim pl pr).1 < s →
      hll_flux ext cfg dim pl pr s
        = (prim_to_cons_point cfg.adiabatic_gamma pr,
           (rmhd_flux_and_eval ext cfg dim (prim_to_cons_point cfg.adiabatic_gamma pr) pr).1)) := by
  refine ⟨?_, ?_, ?_⟩
  · intro h1
    simp only [hll_flux]
    rw [if_pos h1, if_pos h1]
  · intro h1 h2
    simp only [hll_flux]
    rw [if_neg (not_le.mpr h1), if_pos h2, if_neg (not_le.mpr h1), if_pos h2]
  · intro h1 h2
    simp only [hll_flux]
    rw [if_neg (not_le.mpr h1), if_neg (not_le.mpr h2),
        if_neg (not_le.mpr h1), if_neg (not_le.mpr h2)]

/-- C1 witness: with the trivial quartic strategy the bounds are `(1, -1)`;
the speed `s = 2` lies strictly above the right bound and the solver returns
the right state/flux pair. -/
theorem hll_flux_three_branch_witness :
    ((hll_bounds trivialExt state_qnone 1 hll_pl hll_pr).2 < 2
      ∧ (hll_bounds trivialExt state_qnone 1 hll_pl hll_pr).1 < 2)
    ∧ hll_flux trivialExt state_qnone 1 hll_pl hll_pr 2
        = (prim_to_cons_point state_qnone.adiabatic_gamma hll_pr,
           (rmhd_flux_and_eval trivialExt state_qnone 1
             (prim_to_cons_point state_qnone.adiabatic_gamma hll_pr) hll_pr).1) := by
  have hb : hll_bounds trivialExt state_qnone 1 hll_pl hll_pr = (1, -1) := by
    simp only [hll_bounds, rmhd_flux_and_eval, signal_raw, state_qnone, default_state]
    norm_num
  have h1 : (hll_bounds trivialExt state_qnone 1 hll_pl hll_pr).2 < 2 := by
    rw [hb]; norm_num
  have h2 : (hll_bounds trivialExt state_qnone 1 hll_pl hll_pr).1 < 2 := by
    rw [hb]; norm_num
  exact ⟨⟨h1, h2⟩,
    (hll_flux_three_branch trivialExt state_qnone 1 hll_pl hll_pr 2).2.2 h1 h2⟩

/-- C1 counterexample: at an interface speed exactly equal to the right
(maximum) signal bound the solver returns the HLL average, not the right
state: with the trivial quartic strategy the bounds are `(ap, am) = (1, -1)`;
at `s = 1 = ap` the density slot of the returned state is `3/2`, while the
right conserved density is `2`.  So "at or above the right bound the output
equals the right state exactly" fails at `s = ap`. -/
theorem hll_flux_right_bound_counterexample :
    (hll_bounds trivialExt state_qnone 1 hll_pl hll_pr).1 = 1
    ∧ (hll_flux trivialExt state_qnone 1 hll_pl hll_pr 1).1 ddd
        ≠ prim_to_cons_point state_qnone.adiabatic_gamma hll_pr ddd := by
  have hb : hll_bounds trivialExt state_qnone 1 hll_pl hll_pr = (1, -1) := by
    simp only [hll_bounds, rmhd_flux_and_eval, signal_raw, state_qnone, default_state]
    norm_num
  have hUl : prim_to_cons_point state_qnone.adiabatic_gamma hll_pl ddd = 1 := by
    simp only [prim_to_cons_point, hll_pl, state_qnone, default_state, ddd_def]
    norm_num
  have hUr : prim_to_cons_point state_qnone.adiabatic_gamma hll_pr ddd = 2 := by
    simp only [prim_to_cons_point, hll_pr, state_qnone, default_state, ddd_def]
    norm_num
  have hFl : (rmhd_flux_and_eval trivialExt state_qnone 1
      (prim_to_cons_point state_qnone.adiabatic_gamma hll_pl) hll_pl).1 ddd = 0 := by
    rw [rmhd_flux_and_eval_fst]
    simp only [rmhd_flux, hll_pl, ddd_def]
    norm_num
  have hFr : (rmhd_flux_and_eval trivialExt state_qnone 1
      (prim_to_cons_point state_qnone.adiabatic_gamma hll_pr) hll_pr).1 ddd = 0 := by
    rw [rmhd_flux_and_eval_fst]
    simp only [rmhd_flux, hll_pr, ddd_def]
    norm_num
  have hlo : ¬ ((1:ℝ) ≤ (hll_bounds trivialExt state_qnone 1 hll_pl hll_pr).2) := by
    rw [hb]; norm_num
  have hhi : (1:ℝ) ≤ (hll_bounds trivialExt state_qnone 1 hll_pl hll_pr).1 := by
    rw [hb]
  refine ⟨by rw [hb], ?_⟩
  simp only [hll_flux]
  rw [if_neg hlo, if_pos hhi]
  simp only [hb]
  rw [hUr, hUl, hFl, hFr]
  norm_num

/-- C4: the constraint-transport post-passes set the flux of each magnetic
field component along its own axis to exactly zero, unconditionally, at every
cell of the flux arrays: the `Bx` slot of the x flux and the `By` slot of the
y flux (2-D), and additionally the `Bz` slot of the z flux (3-D), for
arbitrary input fluxes and arbitrary uninitialized scratch contents. -/
theorem constraint_transport_self_flux_zero (g : Grid)
    (Fx Fy Fz gx gy gxy gxz gyz gyx gzx gzy : ℕ → ℝ) (c : ℕ)
    (hc : c < g.Nx * g.Ny * g.Nz) :
    (constraint_transport_2d g Fx Fy gx gy).1 (8 * c + Bx) = 0
    ∧ (constraint_transport_2d g Fx Fy gx gy).2 (8 * c + By) = 0
    ∧ (constraint_transport_3d g Fx Fy Fz gxy gxz gyz gyx gzx gzy).1 (8 * c + Bx) = 0
    ∧ (constraint_transport_3d g Fx Fy Fz gxy gxz gyz gyx gzx gzy).2.1 (8 * c + By) = 0
    ∧ (constraint_transport_3d g Fx Fy Fz gxy gxz gyz gyx gzx gzy).2.2 (8 * c + Bz) = 0 := by
  have hM : stride0 g = g.Nx * g.Ny * g.Nz * 8 := rfl
  have hb5 : 8 * c + 5 < stride0 g := by rw [hM]; omega
  have hb6 : 8 * c + 6 < stride0 g := by rw [hM]; omega
  have hb7 : 8 * c + 7 < stride0 g := by rw [hM]; omega
  have h5 : (8 * c + 5) % 8 = 5 := by omega
  have h6 : (8 * c + 6) % 8 = 6 := by omega
  have h7 : (8 * c + 7) % 8 = 7 := by omega
  refine ⟨?_, ?_, ?_, ?_, ?_⟩ <;>
    simp [constraint_transport_2d, constraint_transport_3d, hb5, hb6, hb7, h5, h6, h7]

-- Newton-loop lemmas for the conserved-to-primitive inversion

/-- One-step unfolding of the fuelled loop. -/
theorem c2p_run_succ (c : C2PCtx) (fuel : ℕ) (t : NewtonT) :
    c2p_run c (fuel + 1) t
      = match c2p_step c t with
        | C2PStep.next t' => c2p_run c fuel t'
        | C2PStep.done Z W fl _ => C2PRes.success Z W fl
        | C2PStep.fail => C2PRes.failure := rfl

/-- A pass fails exactly when it starts at the iteration cap with implied
pressure at or above the floor (so the floor variant is not entered). -/
theorem c2p_step_fail_iff (c : C2PCtx) (t : NewtonT) :
    c2p_step c t = C2PStep.fail
      ↔ (t.n = NEWTON_MAX_ITER ∧ PRES_FLOOR ≤ c2p_Pre c t) := by
  simp only [c2p_step]
  by_cases h1 : (|(c2p_dZW c t).1 / c2p_Znew c t| + |(c2p_dZW c t).2 / c2p_Wnew c t|
      < ERROR_TOLR) ∧ PRES_FLOOR ≤ c2p_Pre c t
  · rw [if_pos h1]
    by_cases h2 : t.n = NEWTON_MAX_ITER
    · rw [if_pos h2]
      simp [h2, h1.2]
    · rw [if_neg h2]
      simp [h2]
  · rw [if_neg h1]
    by_cases h3 : |(c2p_dZW c t).1 / c2p_Znew c t| + |(c2p_dZW c t).2 / c2p_Wnew c t|
        < ERROR_TOLR
    · rw [if_pos h3]
      have hnp : ¬ PRES_FLOOR ≤ c2p_Pre c t := fun hP => h1 ⟨h3, hP⟩
      simp [hnp]
    · rw [if_neg h3]
      by_cases h4 : t.n = NEWTON_MAX_ITER
      · rw [if_pos h4]
        by_cases h5 : c2p_Pre c t < PRES_FLOOR
        · rw [if_pos h5]
          simp [not_le.mpr h5]
        · rw [if_neg h5]
          simp [h4, not_lt.mp h5]
      · rw [if_neg h4]
        simp [h4]

/-- The loop reports failure within its fuel exactly when the pass trace
reaches a failing pass within the fuel. -/
theorem c2p_run_failure_iff (c : C2PCtx) :
    ∀ (fuel : ℕ) (t : NewtonT),
      c2p_run c fuel t = C2PRes.failure
        ↔ ∃ k, k < fuel ∧ ∃ s, c2p_traceFrom c k t = some s ∧ c2p_step c s = C2PStep.fail := by
  intro fuel
  induction fuel with
  | zero =>
    intro t
    constructor
    · intro h; exact absurd h (by simp [c2p_run])
    · rintro ⟨k, hk, _⟩; omega
  | succ fuel ih =>
    intro t
    rw [c2p_run_succ]
    cases hstep : c2p_step c t with
    | next t' =>
      rw [ih t']
      constructor
      · rintro ⟨k, hk, s, hs, hf⟩
        refine ⟨k + 1, by omega, s, ?_, hf⟩
        simp [c2p_traceFrom, hstep, hs]
      · rintro ⟨k, hk, s, hs, hf⟩
        cases k with
        | zero =>
          simp only [c2p_traceFrom, Option.some.injEq] at hs
          subst hs
          rw [hstep] at hf
          exact absurd hf (by simp)
        | succ k =>
          simp only [c2p_traceFrom, hstep] at hs
          exact ⟨k, by omega, s, hs, hf⟩
    | done Z W fl n =>
      constructor
      · intro h; exact absurd h (by simp)
      · rintro ⟨k, hk, s, hs, hf⟩
        cases k with
        | zero =>
          simp only [c2p_traceFrom, Option.some.injEq] at hs
          subst hs
          rw [hstep] at hf
          exact absurd hf (by simp)
        | succ k =>
          simp only [c2p_traceFrom, hstep] at hs
          exact absurd hs (by simp)
    | fail =>
      constructor
      · intro _; exact ⟨0, by omega, t, rfl, hstep⟩
      · intro _; rfl

/-- A pass that continues the loop either performs a floor restart out of the
free phase or increments the iteration counter within its phase. -/
theorem c2p_step_next_cases (c : C2PCtx) (t t' : NewtonT)
    (h : c2p_step c t = C2PStep.next t') :
    ((t' = c2p_restart c 1 ∨ t' = c2p_restart c 0) ∧ t.pfloor = false)
    ∨ (t'.n = t.n + 1 ∧ t'.pfloor = t.pfloor ∧ t.n ≠ NEWTON_MAX_ITER) := by
  have hstep := h
  simp only [c2p_step] at hstep
  by_cases h1 : (|(c2p_dZW c t).1 / c2p_Znew c t| + |(c2p_dZW c t).2 / c2p_Wnew c t|
      < ERROR_TOLR) ∧ PRES_FLOOR ≤ c2p_Pre c t
  · rw [if_pos h1] at hstep
    by_cases h2 : t.n = NEWTON_MAX_ITER
    · rw [if_pos h2] at hstep
      exact C2PStep.noConfusion hstep
    · rw [if_neg h2] at hstep
      exact C2PStep.noConfusion hstep
  · rw [if_neg h1] at hstep
    by_cases h3 : |(c2p_dZW c t).1 / c2p_Znew c t| + |(c2p_dZW c t).2 / c2p_Wnew c t|
        < ERROR_TOLR
    · -- tolerance-branch restart: only reachable from the free phase
      rw [if_pos h3] at hstep
      injection hstep with hstep
      left
      refine ⟨Or.inl hstep.symm, ?_⟩
      cases hfv : t.pfloor
      · rfl
      · exfalso
        apply h1
        refine ⟨h3, ?_⟩
        simp only [c2p_Pre]
        rw [if_pos hfv]
    · rw [if_neg h3] at hstep
      by_cases h4 : t.n = NEWTON_MAX_ITER
      · rw [if_pos h4] at hstep
        by_cases h5 : c2p_Pre c t < PRES_FLOOR
        · -- cap-branch restart: only reachable from the free phase
          rw [if_pos h5] at hstep
          injection hstep with hstep
          left
          refine ⟨Or.inr hstep.symm, ?_⟩
          cases hfv : t.pfloor
          · rfl
          · exfalso
            simp only [c2p_Pre] at h5
            rw [if_pos hfv] at h5
            exact absurd h5 (lt_irrefl _)
        · rw [if_neg h5] at hstep
          exact C2PStep.noConfusion hstep
      · -- ordinary continuation
        rw [if_neg h4] at hstep
        injection hstep with hstep
        rw [← hstep]
        exact Or.inr ⟨rfl, rfl, h4⟩

/-- The loop never exhausts its fuel: the pass count of a phase is bounded by
the cap and the floor flag flips at most once. -/
theorem c2p_run_not_out (c : C2PCtx) :
    ∀ (fuel : ℕ) (t : NewtonT), t.n ≤ NEWTON_MAX_ITER →
      (if t.pfloor then NEWTON_MAX_ITER + 1 - t.n else 2 * NEWTON_MAX_ITER + 3 - t.n) ≤ fuel →
      c2p_run c fuel t ≠ C2PRes.out := by
  intro fuel
  induction fuel with
  | zero =>
    intro t hn hm
    exfalso
    simp only [NEWTON_MAX_ITER] at hn hm
    split_ifs at hm <;> omega
  | succ fuel ih =>
    intro t hn hm
    rw [c2p_run_succ]
    cases hstep : c2p_step c t with
    | next t' =>
      show c2p_run c fuel t' ≠ C2PRes.out
      simp only [NEWTON_MAX_ITER] at hn hm
      rcases c2p_step_next_cases c t t' hstep with ⟨hr, hff⟩ | ⟨hn', hf', hne⟩
      · rw [hff] at hm
        simp at hm
        rcases hr with hr | hr
        · subst hr
          apply ih
          · simp [c2p_restart, NEWTON_MAX_ITER]
          · simp [c2p_restart, NEWTON_MAX_ITER]
            omega
        · subst hr
          apply ih
          · simp [c2p_restart, NEWTON_MAX_ITER]
          · simp [c2p_restart, NEWTON_MAX_ITER]
            omega
      · simp only [NEWTON_MAX_ITER] at hne
        apply ih
        · rw [hn']
          simp only [NEWTON_MAX_ITER]
          omega
        · rw [hn', hf']
          simp only [NEWTON_MAX_ITER]
          cases hfv : t.pfloor
          · rw [hfv] at hm
            simp at hm ⊢
            omega
          · rw [hfv] at hm
            simp at hm ⊢
            omega
    | done Z W fl n => simp
    | fail => simp

/-- The point inversion reports failure exactly when the fuelled loop run
fails (the run never exhausts its fuel). -/
theorem cons_to_prim_point_ret_iff (cfg : LibraryState) (U P : St) (w : ℝ) :
    (cons_to_prim_point cfg U P w).1 = 1
      ↔ c2p_run (c2p_ctx cfg U P) C2P_FUEL (c2p_init (c2p_ctx cfg U P)) = C2PRes.failure := by
  have hno : c2p_run (c2p_ctx cfg U P) C2P_FUEL (c2p_init (c2p_ctx cfg U P)) ≠ C2PRes.out := by
    apply c2p_run_not_out
    · simp [c2p_init, NEWTON_MAX_ITER]
    · simp [c2p_init, NEWTON_MAX_ITER, C2P_FUEL]
  cases hrun : c2p_run (c2p_ctx cfg U P) C2P_FUEL (c2p_init (c2p_ctx cfg U P)) with
  | success Z W fl => simp [cons_to_prim_point, hrun]
  | failure => simp [cons_to_prim_point, hrun]
  | out => exact absurd hrun hno

/-- On failure the point inversion leaves the output cell and the recorded
Lorentz factor untouched. -/
theorem cons_to_prim_point_fail_untouched (cfg : LibraryState) (U P : St) (w : ℝ)
    (h : (cons_to_prim_point cfg U P w).1 = 1) :
    (cons_to_prim_point cfg U P w).2 = (P, w) := by
  cases hrun : c2p_run (c2p_ctx cfg U P) C2P_FUEL (c2p_init (c2p_ctx cfg U P)) with
  | success Z W fl =>
    have hfail := (cons_to_prim_point_ret_iff cfg U P w).mp h
    rw [hrun] at hfail
    exact absurd hfail (by simp)
  | failure => simp [cons_to_prim_point, hrun]
  | out => simp [cons_to_prim_point, hrun]

/-- The primitive-array field written by one more cell of the array
inversion (identical in both reconstruction branches). -/
theorem cons_to_prim_array_succ_P (cfg : LibraryState) (Uarr : ℕ → ℝ) (n : ℕ) (a : C2PArr) :
    (cons_to_prim_array cfg Uarr (n + 1) a).P
      = setCell (cons_to_prim_array cfg Uarr n a).P (8 * n)
          (cons_to_prim_point cfg (cellSt Uarr (8 * n))
            (cellSt (cons_to_prim_array cfg Uarr n a).P (8 * n))
            (cons_to_prim_array cfg Uarr n a).lastW).2.1 := by
  simp only [cons_to_prim_array]
  split <;> rfl

/-- The failure count written by one more cell of the array inversion. -/
theorem cons_to_prim_array_succ_failures (cfg : LibraryState) (Uarr : ℕ → ℝ) (n : ℕ)
    (a : C2PArr) :
    (cons_to_prim_array cfg Uarr (n + 1) a).failures
      = (cons_to_prim_array cfg Uarr n a).failures
        + (cons_to_prim_point cfg (cellSt Uarr (8 * n))
            (cellSt (cons_to_prim_array cfg Uarr n a).P (8 * n))
            (cons_to_prim_array cfg Uarr n a).lastW).1 := by
  simp only [cons_to_prim_array]
  split <;> rfl

/-- Processing the first `n` cells writes nothing at or above index `8*n`. -/
theorem cons_to_prim_array_P_agree (cfg : LibraryState) (Uarr : ℕ → ℝ) :
    ∀ (n : ℕ) (a : C2PArr) (j : ℕ), 8 * n ≤ j →
      (cons_to_prim_array cfg Uarr n a).P j = a.P j := by
  intro n
  induction n with
  | zero => intro a j _; rfl
  | succ n ih =>
    intro a j hj
    rw [cons_to_prim_array_succ_P]
    simp only [setCell]
    rw [if_neg (by omega)]
    exact ih a j (by omega)

/-- The inversion context depends only on the first eight slots of its
conserved and guess cells. -/
theorem c2p_ctx_slots (cfg : LibraryState) (U P U' P' : St)
    (hU : ∀ j < 8, U j = U' j) (hP : ∀ j < 8, P j = P' j) :
    c2p_ctx cfg U P = c2p_ctx cfg U' P' := by
  unfold c2p_ctx
  simp only [ddd_def, tau_def, Sx_def, Sy_def, Sz_def, Bx_def, By_def, Bz_def,
    rho_def, pre_def, vx_def, vy_def, vz_def]
  rw [hU 0 (by norm_num), hU 1 (by norm_num), hU 2 (by norm_num), hU 3 (by norm_num),
      hU 4 (by norm_num), hU 5 (by norm_num), hU 6 (by norm_num), hU 7 (by norm_num),
      hP 0 (by norm_num), hP 1 (by norm_num), hP 2 (by norm_num), hP 3 (by norm_num),
      hP 4 (by norm_num)]

/-- The failure indicator of the point inversion depends only on the
inversion context (not on the previous Lorentz factor). -/
theorem cons_to_prim_point_ret_congr (cfg : LibraryState) (U P U' P' : St) (w w' : ℝ)
    (hctx : c2p_ctx cfg U P = c2p_ctx cfg U' P') :
    (cons_to_prim_point cfg U P w).1 = (cons_to_prim_point cfg U' P' w').1 := by
  simp only [cons_to_prim_point, hctx]
  cases hrun : c2p_run (c2p_ctx cfg U' P') C2P_FUEL (c2p_init (c2p_ctx cfg U' P')) <;> rfl

/-- The array inversion accumulates exactly the per-cell failure indicators,
each computed against the original guess cell (earlier cells' writes do not
touch later cells). -/
theorem cons_to_prim_array_failures_sum (cfg : LibraryState) (Uarr : ℕ → ℝ) :
    ∀ (N : ℕ) (a : C2PArr),
      (cons_to_prim_array cfg Uarr N a).failures
        = a.failures + ∑ m ∈ Finset.range N,
            (cons_to_prim_point cfg (cellSt Uarr (8 * m)) (cellSt a.P (8 * m)) 0).1 := by
  intro N
  induction N with
  | zero => intro a; simp [cons_to_prim_array]
  | succ N ih =>
    intro a
    rw [cons_to_prim_array_succ_failures, ih a, Finset.sum_range_succ]
    have hret : (cons_to_prim_point cfg (cellSt Uarr (8 * N))
        (cellSt (cons_to_prim_array cfg Uarr N a).P (8 * N))
        (cons_to_prim_array cfg Uarr N a).lastW).1
        = (cons_to_prim_point cfg (cellSt Uarr (8 * N)) (cellSt a.P (8 * N)) 0).1 := by
      apply cons_to_prim_point_ret_congr
      apply c2p_ctx_slots
      · intro j _; rfl
      · intro j _
        simp only [cellSt]
        exact cons_to_prim_array_P_agree cfg Uarr N a (8 * N + j) (by omega)
    rw [hret]
    omega

/-- C5: the point inversion returns nonzero (ConvergenceFailure) exactly when
the Newton pass trace reaches the 25-iteration cap — a pass starting with
`n_iter = 25` — whose implied pressure is at or above the floor, so that the
pressure-floor variant is not entered there (a cap hit with pressure below
the floor restarts into the floor variant instead of failing, and a pass that
meets the tolerance with pressure at or above the floor before the cap exits
the loop); on failure the output primitive cell is exactly the input guess
and the recorded Lorentz factor keeps its previous value; and the array
variant processes every cell, returning the sum of the per-cell failure
indicators. -/
theorem cons_to_prim_failure_law (cfg : LibraryState) (U P : St) (w : ℝ) :
    ((cons_to_prim_point cfg U P w).1 = 1
      ↔ ∃ k, k < C2P_FUEL ∧ ∃ s, c2p_trace (c2p_ctx cfg U P) k = some s
          ∧ s.n = NEWTON_MAX_ITER ∧ PRES_FLOOR ≤ c2p_Pre (c2p_ctx cfg U P) s)
    ∧ ((cons_to_prim_point cfg U P w).1 = 1 → (cons_to_prim_point cfg U P w).2 = (P, w))
    ∧ (∀ (Uarr : ℕ → ℝ) (N : ℕ) (a : C2PArr),
        (cons_to_prim_array cfg Uarr N a).failures
          = a.failures + ∑ m ∈ Finset.range N,
              (cons_to_prim_point cfg (cellSt Uarr (8 * m)) (cellSt a.P (8 * m)) 0).1) := by
  refine ⟨?_, cons_to_prim_point_fail_untouched cfg U P w,
    fun Uarr N a => cons_to_prim_array_failures_sum cfg Uarr N a⟩
  rw [cons_to_prim_point_ret_iff, c2p_run_failure_iff]
  simp only [c2p_trace]
  constructor
  · rintro ⟨k, hk, s, hs, hf⟩
    exact ⟨k, hk, s, hs, (c2p_step_fail_iff _ s).mp hf⟩
  · rintro ⟨k, hk, s, hs, hcond⟩
    exact ⟨k, hk, s, hs, (c2p_step_fail_iff _ s).mpr hcond⟩

/-- The inversion context of the oscillating conserved cell `c5_U`. -/
theorem c5_ctx_eval :
    c2p_ctx state_est c5_U c5_P = ⟨2/7, 1, -8/7, 0, 2, 0, 1, 1⟩ := by
  simp only [c2p_ctx, state_est, default_state, c5_U, c5_P,
    ddd_def, tau_def, Sx_def, Sy_def, Sz_def, Bx_def, By_def, Bz_def,
    rho_def, pre_def, vx_def, vy_def, vz_def,
    mkSt_at0, mkSt_at1, mkSt_at2, mkSt_at3, mkSt_at4, mkSt_at5, mkSt_at6, mkSt_at7]
  norm_num [C2PCtx.mk.injEq]

/-- The first pass of the failing run: from `(Z, W) = (1, 1)` the update is
`(dZ, dW) = (3, 0)`, the negative candidate `-2` is sign-flipped to 2. -/
theorem c5_step_first :
    c2p_step ⟨2/7, 1, -8/7, 0, 2, 0, 1, 1⟩ ⟨1, 1, 0, false⟩
      = C2PStep.next ⟨2, 1, 1, false⟩ := by
  have hdzw : c2p_dZW ⟨2/7, 1, -8/7, 0, 2, 0, 1, 1⟩ ⟨1, 1, 0, false⟩ = (3, 0) := by
    simp only [c2p_dZW, c2p_Pre]
    norm_num
  have hz : c2p_Znew ⟨2/7, 1, -8/7, 0, 2, 0, 1, 1⟩ ⟨1, 1, 0, false⟩ = 2 := by
    simp only [c2p_Znew, hdzw]
    norm_num
  have hw : c2p_Wnew ⟨2/7, 1, -8/7, 0, 2, 0, 1, 1⟩ ⟨1, 1, 0, false⟩ = 1 := by
    simp only [c2p_Wnew, hdzw]
    norm_num
  simp only [c2p_step, hdzw, hz, hw]
  norm_num [c2p_Pre, ERROR_TOLR, PRES_FLOOR, NEWTON_MAX_ITER, abs_of_nonneg]

/-- Every later pass of the failing run cycles on `(Z, W) = (2, 1)` with
`(dZ, dW) = (4, 0)`, the candidate `-2` again flipping back to 2. -/
theorem c5_dzw_cycle (n : ℕ) (b : Bool) :
    c2p_dZW ⟨2/7, 1, -8/7, 0, 2, 0, 1, 1⟩ ⟨2, 1, n, false⟩ = (4, 0)
    ∧ c2p_Znew ⟨2/7, 1, -8/7, 0, 2, 0, 1, 1⟩ ⟨2, 1, n, false⟩ = 2
    ∧ c2p_Wnew ⟨2/7, 1, -8/7, 0, 2, 0, 1, 1⟩ ⟨2, 1, n, false⟩ = 1
    ∧ (b = b) := by
  have hdzw : c2p_dZW ⟨2/7, 1, -8/7, 0, 2, 0, 1, 1⟩ ⟨2, 1, n, false⟩ = (4, 0) := by
    simp only [c2p_dZW, c2p_Pre]
    norm_num
  refine ⟨hdzw, ?_, ?_, rfl⟩
  · simp only [c2p_Znew, hdzw]
    norm_num
  · simp only [c2p_Wnew, hdzw]
    norm_num

/-- Cycling passes continue while below the cap. -/
theorem c5_step_cycle (n : ℕ) (hn : ¬ n = NEWTON_MAX_ITER) :
    c2p_step ⟨2/7, 1, -8/7, 0, 2, 0, 1, 1⟩ ⟨2, 1, n, false⟩
      = C2PStep.next ⟨2, 1, n + 1, false⟩ := by
  obtain ⟨hdzw, hz, hw, -⟩ := c5_dzw_cycle n true
  simp only [c2p_step, hdzw, hz, hw]
  norm_num [c2p_Pre, ERROR_TOLR, PRES_FLOOR, abs_of_nonneg, hn]

/-- The pass at the cap fails: the implied pressure `2/7` is above the floor. -/
theorem c5_step_cap :
    c2p_step ⟨2/7, 1, -8/7, 0, 2, 0, 1, 1⟩ ⟨2, 1, NEWTON_MAX_ITER, false⟩
      = C2PStep.fail := by
  obtain ⟨hdzw, hz, hw, -⟩ := c5_dzw_cycle NEWTON_MAX_ITER true
  simp only [c2p_step, hdzw, hz, hw]
  norm_num [c2p_Pre, ERROR_TOLR, PRES_FLOOR, abs_of_nonneg]

/-- The cycling tail of the failing run reaches the cap and fails. -/
theorem c5_run_cycle_fails :
    ∀ (k n fuel : ℕ), n + k = NEWTON_MAX_ITER + 1 → 1 ≤ k → k ≤ fuel →
      c2p_run ⟨2/7, 1, -8/7, 0, 2, 0, 1, 1⟩ fuel ⟨2, 1, n, false⟩ = C2PRes.failure := by
  intro k
  induction k with
  | zero => intro n fuel _ h1 _; omega
  | succ k ih =>
    intro n fuel hsum _ hfuel
    obtain ⟨fuel', rfl⟩ : ∃ fuel', fuel = fuel' + 1 := ⟨fuel - 1, by omega⟩
    rw [c2p_run_succ]
    by_cases hk : k = 0
    · subst hk
      have hn : n = NEWTON_MAX_ITER := by omega
      subst hn
      rw [c5_step_cap]
    · have hn : ¬ n = NEWTON_MAX_ITER := by
        simp only [NEWTON_MAX_ITER] at hsum ⊢
        omega
      rw [c5_step_cycle n hn]
      exact ih (n + 1) fuel' (by omega) (by omega) (by omega)

/-- The inversion of the oscillating cell fails. -/
theorem c5_point_fails : (cons_to_prim_point state_est c5_U c5_P 0).1 = 1 := by
  rw [cons_to_prim_point_ret_iff, c5_ctx_eval]
  have hinit : c2p_init (⟨2/7, 1, -8/7, 0, 2, 0, 1, 1⟩ : C2PCtx) = ⟨1, 1, 0, false⟩ := rfl
  rw [hinit, show C2P_FUEL = 59 + 1 from rfl, c2p_run_succ, c5_step_first]
  exact c5_run_cycle_fails 25 1 59 (by simp [NEWTON_MAX_ITER]) (by omega) (by omega)

/-- C5 witness: a concrete conserved cell whose inversion oscillates to the
iteration cap; the failure is reported and the guess cell is untouched. -/
theorem cons_to_prim_failure_law_witness :
    (cons_to_prim_point state_est c5_U c5_P 0).1 = 1
    ∧ (cons_to_prim_point state_est c5_U c5_P 0).2 = (c5_P, 0) :=
  ⟨c5_point_fails,
   (cons_to_prim_failure_law state_est c5_U c5_P 0).2.1 c5_point_fails⟩

/-- `prim_to_cons_point` on a rest state (zero velocity, zero magnetic field)
at the default adiabatic index 1.4: mass `r`, energy `p/(gamma-1) = 5/2*p`,
zero momenta and fields. -/
theorem prim_to_cons_rest (r p : ℝ) (hr : r ≠ 0) :
    prim_to_cons_point state_est.adiabatic_gamma (mkSt r p 0 0 0 0 0 0)
      = mkSt r (5 / 2 * p) 0 0 0 0 0 0 := by
  have hsq : Real.sqrt (1 / (1 - ((0:ℝ) * 0 + 0 * 0 + 0 * 0))) = 1 := by
    norm_num
  funext k
  simp only [prim_to_cons_point, eos_sie, state_est, default_state,
    rho_def, pre_def, vx_def, vy_def, vz_def, Bx_def, By_def, Bz_def,
    mkSt_at0, mkSt_at1, mkSt_at2, mkSt_at3, mkSt_at4, mkSt_at5, mkSt_at6, mkSt_at7, hsq]
  simp only [mkSt]
  split_ifs <;> (try rfl) <;> field_simp <;> ring

/-- The inversion context of a fresh-estimate inversion of a rest-state
conserved cell: `Z0 = D = r`, `W0 = 1`. -/
theorem c8_ctx_eval (r T : ℝ) (G : St) :
    c2p_ctx state_est (mkSt r T 0 0 0 0 0 0) G
      = ⟨2 / 7, r, T, 0, 0, 0, 1, r⟩ := by
  simp only [c2p_ctx, state_est, default_state,
    ddd_def, tau_def, Sx_def, Sy_def, Sz_def, Bx_def, By_def, Bz_def,
    rho_def, pre_def, vx_def, vy_def, vz_def,
    mkSt_at0, mkSt_at1, mkSt_at2, mkSt_at3, mkSt_at4, mkSt_at5, mkSt_at6, mkSt_at7]
  norm_num [C2PCtx.mk.injEq]

/-- Componentwise congruence for 8-slot cells. -/
theorem mkSt_congr {a0 a1 a2 a3 a4 a5 a6 a7 b0 b1 b2 b3 b4 b5 b6 b7 : ℝ}
    (h0 : a0 = b0) (h1 : a1 = b1) (h2 : a2 = b2) (h3 : a3 = b3) (h4 : a4 = b4)
    (h5 : a5 = b5) (h6 : a6 = b6) (h7 : a7 = b7) :
    mkSt a0 a1 a2 a3 a4 a5 a6 a7 = mkSt b0 b1 b2 b3 b4 b5 b6 b7 := by
  subst h0 h1 h2 h3 h4 h5 h6 h7
  rfl

/-- The Newton update on rest-state invariants (`S2 = B2 = BS = 0`) with `W`
at 1 in the free phase: the energy residual is linear and the `W` residual
vanishes, giving `dZ = f2/(1-gamf)` and `dW = 0`. -/
theorem c2p_dZW_rest (gamf D Tau W0x Z0x Z : ℝ) (n : ℕ) (hZ : Z ≠ 0)
    (hg : 1 - gamf ≠ 0) (hD : D ≠ 0) :
    c2p_dZW ⟨gamf, D, Tau, 0, 0, 0, W0x, Z0x⟩ ⟨Z, 1, n, false⟩
      = ((-Tau + Z - (Z - D) * gamf - D) / (1 - gamf), 0) := by
  simp only [c2p_dZW, c2p_Pre]
  norm_num [Prod.mk.injEq]
  field_simp
  ring

/-- The Newton update on rest-state invariants with `W` at 1 in the floor
phase: the implied pressure is the floor constant. -/
theorem c2p_dZW_rest_floor (gamf D Tau W0x Z0x Z : ℝ) (n : ℕ) (hZ : Z ≠ 0)
    (hg : 1 - gamf ≠ 0) :
    c2p_dZW ⟨gamf, D, Tau, 0, 0, 0, W0x, Z0x⟩ ⟨Z, 1, n, true⟩
      = ((-Tau + Z - PRES_FLOOR - D) / (1 - gamf), 0) := by
  simp only [c2p_dZW, c2p_Pre]
  norm_num [Prod.mk.injEq]
  field_simp
  ring

/-- `prim_to_cons_point` at a rest state (zero velocity) with an arbitrary
magnetic field, under the default adiabatic index 1.4: the mass slot is the
density, the energy slot is `5/2*p + B^2/2`, the momentum slots vanish and
the field slots are copied. -/
theorem prim_to_cons_rest_B (r p b1 b2 b3 : ℝ) (hr : r ≠ 0) :
    prim_to_cons_point state_est.adiabatic_gamma (mkSt r p 0 0 0 b1 b2 b3)
      = mkSt r (5 / 2 * p + (b1 * b1 + b2 * b2 + b3 * b3) / 2) 0 0 0 b1 b2 b3 := by
  have hsq : Real.sqrt (1 / (1 - ((0:ℝ) * 0 + 0 * 0 + 0 * 0))) = 1 := by
    norm_num
  funext k
  simp only [prim_to_cons_point, eos_sie, state_est, default_state,
    rho_def, pre_def, vx_def, vy_def, vz_def, Bx_def, By_def, Bz_def,
    mkSt_at0, mkSt_at1, mkSt_at2, mkSt_at3, mkSt_at4, mkSt_at5, mkSt_at6, mkSt_at7, hsq]
  simp only [mkSt]
  split_ifs <;> (try rfl) <;> field_simp <;> ring

/-- The inversion context of a fresh-estimate inversion of a magnetized
rest-state conserved cell: zero momentum gives the exact estimate `W0 = 1`,
`Z0 = D = r`, with `S2 = BS = 0` and `B2` the squared field. -/
theorem c8_ctx_eval_B (r T b1 b2 b3 : ℝ) (G : St) :
    c2p_ctx state_est (mkSt r T 0 0 0 b1 b2 b3) G
      = ⟨2 / 7, r, T, 0, b1 * b1 + b2 * b2 + b3 * b3, 0, 1, r⟩ := by
  simp only [c2p_ctx, state_est, default_state,
    ddd_def, tau_def, Sx_def, Sy_def, Sz_def, Bx_def, By_def, Bz_def,
    rho_def, pre_def, vx_def, vy_def, vz_def,
    mkSt_at0, mkSt_at1, mkSt_at2, mkSt_at3, mkSt_at4, mkSt_at5, mkSt_at6, mkSt_at7]
  norm_num [C2PCtx.mk.injEq]

/-- The Newton update on magnetized rest-state invariants (`S2 = BS = 0`,
arbitrary `B2`) with `W` at 1 in the free phase: the velocity residual
vanishes identically, the Jacobian decouples, and the energy residual is
linear in `Z`: `dZ = f2/(1-gamf)` and `dW = 0`. -/
theorem c2p_dZW_rest_B (gamf D Tau B2v W0x Z0x Z : ℝ) (n : ℕ) (hZ : Z ≠ 0)
    (hg : 1 - gamf ≠ 0) (hD : D ≠ 0) (hBZ : B2v + Z ≠ 0) :
    c2p_dZW ⟨gamf, D, Tau, 0, B2v, 0, W0x, Z0x⟩ ⟨Z, 1, n, false⟩
      = ((-Tau + Z + B2v - (Z - D) * gamf - B2v / 2 - D) / (1 - gamf), 0) := by
  simp only [c2p_dZW, c2p_Pre]
  norm_num [Prod.mk.injEq]
  field_simp
  ring

/-- First pass of the magnetized rest-state inversion: Newton is exact on the
(linear) energy residual, jumping from `Z = r` to `Z = r + 7/2*p` with `W`
pinned at 1; the squared field cancels out of the update. -/
theorem c8_stepB1 (r p B2v : ℝ) (hr : 0 < r) (hp : 0 < p) (hB : 0 ≤ B2v)
    (hbig : r + 7 / 2 * p < 1e20)
    (htol : ERROR_TOLR ≤ 7 / 2 * p / (r + 7 / 2 * p)) :
    c2p_step ⟨2 / 7, r, 5 / 2 * p + B2v / 2, 0, B2v, 0, 1, r⟩ ⟨r, 1, 0, false⟩
      = C2PStep.next ⟨r + 7 / 2 * p, 1, 1, false⟩ := by
  have hr' : r ≠ 0 := ne_of_gt hr
  have hZpos : (0:ℝ) < r + 7 / 2 * p := by positivity
  have hBZ : B2v + r ≠ 0 := ne_of_gt (add_pos_of_nonneg_of_pos hB hr)
  have hdzw : c2p_dZW ⟨2 / 7, r, 5 / 2 * p + B2v / 2, 0, B2v, 0, 1, r⟩ ⟨r, 1, 0, false⟩
      = (-(7 / 2 * p), 0) := by
    rw [c2p_dZW_rest_B (2/7) r (5/2*p + B2v/2) B2v 1 r r 0 hr' (by norm_num) hr' hBZ]
    rw [Prod.mk.injEq]
    constructor
    · field_simp
      ring
    · rfl
  have hz : c2p_Znew ⟨2 / 7, r, 5 / 2 * p + B2v / 2, 0, B2v, 0, 1, r⟩ ⟨r, 1, 0, false⟩
      = r + 7 / 2 * p := by
    simp only [c2p_Znew, hdzw]
    rw [sub_neg_eq_add]
    rw [if_pos hZpos, if_pos hbig]
  have hw : c2p_Wnew ⟨2 / 7, r, 5 / 2 * p + B2v / 2, 0, B2v, 0, 1, r⟩ ⟨r, 1, 0, false⟩
      = 1 := by
    simp only [c2p_Wnew, hdzw]
    norm_num
  have habs : |(-(7 / 2 * p)) / (r + 7 / 2 * p)| + |(0:ℝ) / 1|
      = 7 / 2 * p / (r + 7 / 2 * p) := by
    rw [neg_div, abs_neg, abs_of_nonneg (by positivity)]
    simp
  simp only [c2p_step, hdzw, hz, hw, habs]
  rw [if_neg, if_neg (not_lt.mpr htol), if_neg (by norm_num [NEWTON_MAX_ITER])]
  intro hcon
  exact absurd hcon.1 (not_lt.mpr htol)

/-- Second pass of the magnetized rest-state inversion: the residuals vanish
at `Z = r + 7/2*p`, the tolerance is met, and the implied pressure is the
original `p`, at or above the floor: the loop converges. -/
theorem c8_stepB2 (r p B2v : ℝ) (hr : 0 < r) (hp : PRES_FLOOR ≤ p) (hB : 0 ≤ B2v)
    (hbig : r + 7 / 2 * p < 1e20) :
    c2p_step ⟨2 / 7, r, 5 / 2 * p + B2v / 2, 0, B2v, 0, 1, r⟩ ⟨r + 7 / 2 * p, 1, 1, false⟩
      = C2PStep.done (r + 7 / 2 * p) 1 false 2 := by
  have hr' : r ≠ 0 := ne_of_gt hr
  have hp0 : (0:ℝ) < p := lt_of_lt_of_le (by norm_num [PRES_FLOOR]) hp
  have hZpos : (0:ℝ) < r + 7 / 2 * p := by positivity
  have hBZ : B2v + (r + 7 / 2 * p) ≠ 0 := ne_of_gt (add_pos_of_nonneg_of_pos hB hZpos)
  have hdzw : c2p_dZW ⟨2 / 7, r, 5 / 2 * p + B2v / 2, 0, B2v, 0, 1, r⟩
      ⟨r + 7 / 2 * p, 1, 1, false⟩ = (0, 0) := by
    rw [c2p_dZW_rest_B (2/7) r (5/2*p + B2v/2) B2v 1 r (r + 7/2*p) 1
      (ne_of_gt hZpos) (by norm_num) hr' hBZ]
    rw [Prod.mk.injEq]
    constructor
    · field_simp
      ring
    · rfl
  have hz : c2p_Znew ⟨2 / 7, r, 5 / 2 * p + B2v / 2, 0, B2v, 0, 1, r⟩
      ⟨r + 7 / 2 * p, 1, 1, false⟩ = r + 7 / 2 * p := by
    simp only [c2p_Znew, hdzw]
    rw [sub_zero, if_pos hZpos, if_pos hbig]
  have hw : c2p_Wnew ⟨2 / 7, r, 5 / 2 * p + B2v / 2, 0, B2v, 0, 1, r⟩
      ⟨r + 7 / 2 * p, 1, 1, false⟩ = 1 := by
    simp only [c2p_Wnew, hdzw]
    norm_num
  have hpre : c2p_Pre ⟨2 / 7, r, 5 / 2 * p + B2v / 2, 0, B2v, 0, 1, r⟩
      ⟨r + 7 / 2 * p, 1, 1, false⟩ = p := by
    simp only [c2p_Pre]
    norm_num
    field_simp
    ring
  simp only [c2p_step, hdzw, hz, hw, hpre]
  rw [if_pos, if_neg (by norm_num [NEWTON_MAX_ITER])]
  constructor
  · norm_num [ERROR_TOLR]
  · exact hp

/-- The full fresh-estimate round trip at a magnetized rest state: the
conserved-derived estimate starts exactly at the Newton root of the reduced
(zero-momentum) problem, the first pass is an exact Newton step, the second
converges, and the recovered cell is exactly the original — including the
copied field and exactly zero velocities. -/
theorem c2p_rest_round_trip_B (r p b1 b2 b3 : ℝ) (hr : 0 < r) (hp : PRES_FLOOR ≤ p)
    (hbig : r + 7 / 2 * p < 1e20)
    (htol : ERROR_TOLR ≤ 7 / 2 * p / (r + 7 / 2 * p)) (G : St) (w : ℝ) :
    cons_to_prim_point state_est
        (prim_to_cons_point state_est.adiabatic_gamma (mkSt r p 0 0 0 b1 b2 b3)) G w
      = (0, mkSt r p 0 0 0 b1 b2 b3, 1) := by
  have hr' : r ≠ 0 := ne_of_gt hr
  have hp0 : (0:ℝ) < p := lt_of_lt_of_le (by norm_num [PRES_FLOOR]) hp
  have hB : (0:ℝ) ≤ b1 * b1 + b2 * b2 + b3 * b3 :=
    add_nonneg (add_nonneg (mul_self_nonneg b1) (mul_self_nonneg b2)) (mul_self_nonneg b3)
  rw [prim_to_cons_rest_B r p b1 b2 b3 hr']
  have hrun : c2p_run (⟨2 / 7, r, 5 / 2 * p + (b1 * b1 + b2 * b2 + b3 * b3) / 2, 0,
        b1 * b1 + b2 * b2 + b3 * b3, 0, 1, r⟩ : C2PCtx) C2P_FUEL
      (c2p_init (⟨2 / 7, r, 5 / 2 * p + (b1 * b1 + b2 * b2 + b3 * b3) / 2, 0,
        b1 * b1 + b2 * b2 + b3 * b3, 0, 1, r⟩ : C2PCtx))
      = C2PRes.success (r + 7 / 2 * p) 1 false := by
    have hinit : c2p_init (⟨2 / 7, r, 5 / 2 * p + (b1 * b1 + b2 * b2 + b3 * b3) / 2, 0,
        b1 * b1 + b2 * b2 + b3 * b3, 0, 1, r⟩ : C2PCtx) = ⟨r, 1, 0, false⟩ := rfl
    rw [hinit, show C2P_FUEL = 58 + 1 + 1 from rfl, c2p_run_succ,
      c8_stepB1 r p (b1 * b1 + b2 * b2 + b3 * b3) hr hp0 hB hbig htol]
    show c2p_run _ (58 + 1) _ = _
    rw [c2p_run_succ, c8_stepB2 r p (b1 * b1 + b2 * b2 + b3 * b3) hr hp hB hbig]
  simp only [cons_to_prim_point, c8_ctx_eval_B, hrun]
  simp only [Sx_def, Sy_def, Sz_def, Bx_def, By_def, Bz_def,
    mkSt_at0, mkSt_at1, mkSt_at2, mkSt_at3, mkSt_at4, mkSt_at5, mkSt_at6, mkSt_at7]
  rw [Prod.mk.injEq, Prod.mk.injEq]
  refine ⟨rfl, ?_, rfl⟩
  apply mkSt_congr
  · field_simp
  · norm_num
    field_simp
    ring
  · norm_num
  · norm_num
  · norm_num
  · rfl
  · rfl
  · rfl

/-- First pass of the floor-path run: the fresh estimate of the heavy cell
`(rho, p) = (1e9, 100)` lands within tolerance at once, but the implied
pressure of the pass is 0, below the floor, so the solver restarts into the
pressure-floor variant. -/
theorem c8c_step1 :
    c2p_step ⟨2 / 7, 1e9, 250, 0, 0, 0, 1, 1e9⟩ ⟨1e9, 1, 0, false⟩
      = C2PStep.next ⟨1e9, 1, 1, true⟩ := by
  have hdzw : c2p_dZW ⟨2 / 7, 1e9, 250, 0, 0, 0, 1, 1e9⟩ ⟨1e9, 1, 0, false⟩
      = (-350, 0) := by
    rw [c2p_dZW_rest (2/7) 1e9 250 1 1e9 1e9 0 (by norm_num) (by norm_num) (by norm_num)]
    norm_num
  have hz : c2p_Znew ⟨2 / 7, 1e9, 250, 0, 0, 0, 1, 1e9⟩ ⟨1e9, 1, 0, false⟩
      = 1e9 + 350 := by
    simp only [c2p_Znew, hdzw]
    norm_num
  have hw : c2p_Wnew ⟨2 / 7, 1e9, 250, 0, 0, 0, 1, 1e9⟩ ⟨1e9, 1, 0, false⟩ = 1 := by
    simp only [c2p_Wnew, hdzw]
    norm_num
  have hpre : c2p_Pre ⟨2 / 7, 1e9, 250, 0, 0, 0, 1, 1e9⟩ ⟨1e9, 1, 0, false⟩ = 0 := by
    simp only [c2p_Pre]
    norm_num
  have htol : |(-350:ℝ) / (1e9 + 350)| + |(0:ℝ) / 1| < ERROR_TOLR := by
    rw [show ((-350:ℝ) / (1e9 + 350)) = -(350 / (1e9 + 350)) by ring, abs_neg,
      abs_of_nonneg (by positivity)]
    norm_num [ERROR_TOLR]
  have hnc : ¬ ((|(-350:ℝ) / (1e9 + 350)| + |(0:ℝ) / 1| < ERROR_TOLR)
      ∧ PRES_FLOOR ≤ (0:ℝ)) := by
    intro hcon
    norm_num [PRES_FLOOR] at hcon
  simp only [c2p_step, hdzw, hz, hw, hpre]
  rw [if_neg hnc, if_pos htol]
  rfl

/-- Second (floor-phase) pass of the floor-path run: within tolerance again,
now with the implied pressure pinned at the floor, so the loop converges —
reporting success with the floored pressure. -/
theorem c8c_step2 :
    c2p_step ⟨2 / 7, 1e9, 250, 0, 0, 0, 1, 1e9⟩ ⟨1e9, 1, 1, true⟩
      = C2PStep.done (1e9 + (350 + 7 / (5 * 10 ^ 10))) 1 true 2 := by
  have hdzw : c2p_dZW ⟨2 / 7, 1e9, 250, 0, 0, 0, 1, 1e9⟩ ⟨1e9, 1, 1, true⟩
      = (-(350 + 7 / (5 * 10 ^ 10)), 0) := by
    rw [c2p_dZW_rest_floor (2/7) 1e9 250 1 1e9 1e9 1 (by norm_num) (by norm_num)]
    norm_num [PRES_FLOOR]
  have hz : c2p_Znew ⟨2 / 7, 1e9, 250, 0, 0, 0, 1, 1e9⟩ ⟨1e9, 1, 1, true⟩
      = 1e9 + (350 + 7 / (5 * 10 ^ 10)) := by
    simp only [c2p_Znew, hdzw]
    rw [sub_neg_eq_add]
    rw [if_pos (by norm_num), if_pos (by norm_num)]
  have hw : c2p_Wnew ⟨2 / 7, 1e9, 250, 0, 0, 0, 1, 1e9⟩ ⟨1e9, 1, 1, true⟩ = 1 := by
    simp only [c2p_Wnew, hdzw]
    norm_num
  have hpre : c2p_Pre ⟨2 / 7, 1e9, 250, 0, 0, 0, 1, 1e9⟩ ⟨1e9, 1, 1, true⟩
      = PRES_FLOOR := by
    simp only [c2p_Pre]
    rfl
  have htol : |(-(350 + 7 / (5 * 10 ^ 10)) : ℝ) / (1e9 + (350 + 7 / (5 * 10 ^ 10)))|
      + |(0:ℝ) / 1| < ERROR_TOLR := by
    rw [show ((-(350 + 7 / (5 * 10 ^ 10)) : ℝ) / (1e9 + (350 + 7 / (5 * 10 ^ 10))))
        = -((350 + 7 / (5 * 10 ^ 10)) / (1e9 + (350 + 7 / (5 * 10 ^ 10)))) by ring,
      abs_neg, abs_of_nonneg (by positivity)]
    norm_num [ERROR_TOLR]
  simp only [c2p_step, hdzw, hz, hw, hpre]
  rw [if_pos ⟨htol, le_refl _⟩, if_neg (by norm_num [NEWTON_MAX_ITER])]

/-- C8 counterexample: the physical primitive rest state with density `1e9`
and pressure `100` round-trips through a *successful* inversion that lands in
the pressure-floor variant: the recovered pressure is the floor `1e-10`, not
`100` — off by far more than the convergence tolerance (absolutely and
relatively), so the round trip does not recover the original state. -/
theorem cons_to_prim_round_trip_counterexample :
    (cons_to_prim_point state_est
        (prim_to_cons_point state_est.adiabatic_gamma c8_P) c8_P 0).1 = 0
    ∧ (cons_to_prim_point state_est
        (prim_to_cons_point state_est.adiabatic_gamma c8_P) c8_P 0).2.1 pre = PRES_FLOOR
    ∧ c8_P pre = 100
    ∧ ERROR_TOLR < |PRES_FLOOR - (100:ℝ)| := by
  have hU : prim_to_cons_point state_est.adiabatic_gamma c8_P
      = mkSt 1e9 250 0 0 0 0 0 0 := by
    rw [show c8_P = mkSt 1e9 100 0 0 0 0 0 0 from rfl,
      prim_to_cons_rest 1e9 100 (by norm_num)]
    norm_num
  have hctx : c2p_ctx state_est (mkSt 1e9 250 0 0 0 0 0 0) c8_P
      = ⟨2 / 7, 1e9, 250, 0, 0, 0, 1, 1e9⟩ := c8_ctx_eval 1e9 250 c8_P
  have hrun : c2p_run (⟨2 / 7, 1e9, 250, 0, 0, 0, 1, 1e9⟩ : C2PCtx) C2P_FUEL
      (c2p_init (⟨2 / 7, 1e9, 250, 0, 0, 0, 1, 1e9⟩ : C2PCtx))
      = C2PRes.success (1e9 + (350 + 7 / (5 * 10 ^ 10))) 1 true := by
    have hinit : c2p_init (⟨2 / 7, 1e9, 250, 0, 0, 0, 1, 1e9⟩ : C2PCtx)
        = ⟨1e9, 1, 0, false⟩ := rfl
    rw [hinit, show C2P_FUEL = 58 + 1 + 1 from rfl, c2p_run_succ, c8c_step1]
    show c2p_run _ (58 + 1) _ = _
    rw [c2p_run_succ, c8c_step2]
  have hpoint : cons_to_prim_point state_est (mkSt 1e9 250 0 0 0 0 0 0) c8_P 0
      = (0, mkSt 1e9 PRES_FLOOR 0 0 0 0 0 0, 1) := by
    simp only [cons_to_prim_point, hctx, hrun]
    simp only [Sx_def, Sy_def, Sz_def, Bx_def, By_def, Bz_def,
      mkSt_at0, mkSt_at1, mkSt_at2, mkSt_at3, mkSt_at4, mkSt_at5, mkSt_at6, mkSt_at7]
    rw [Prod.mk.injEq, Prod.mk.injEq]
    refine ⟨rfl, ?_, rfl⟩
    apply mkSt_congr
    · norm_num
    · norm_num
    · norm_num
    · norm_num
    · norm_num
    · rfl
    · rfl
    · rfl
  rw [hU, hpoint]
  refine ⟨rfl, ?_, ?_, ?_⟩
  · simp [pre_def]
  · simp [c8_P, pre_def]
  · rw [abs_of_nonpos (by norm_num [PRES_FLOOR])]
    norm_num [ERROR_TOLR, PRES_FLOOR]

/-- C7 (amended): each derivative entry point leaves exactly the indices below
one x-stride (`i < stride[1]`) of the output array untouched; every index from
`stride[1]` up to `stride[0]` — including the remaining guard layers, in
particular the whole high-boundary guard region — is overwritten. -/
theorem dUdt_untouched_region (ext : ExtSolvers) (cfg : LibraryState) (g : Grid)
    (dx dy dz : ℝ) (U Pc ux0 uy0 uz0 gx gy gxy gxz gyz gyx gzx gzy : ℕ → ℝ)
    (lastW0 : ℝ) (L : ℕ → ℝ) (i : ℕ) (hlow : i < stride1 g) :
    (dUdt_1d ext cfg g dx U Pc ux0 uy0 uz0 lastW0 L).2 i = L i
    ∧ (dUdt_2d ext cfg g dx dy U Pc ux0 uy0 uz0 lastW0 gx gy L).2 i = L i
    ∧ (dUdt_3d ext cfg g dx dy dz U Pc ux0 uy0 uz0 lastW0 gxy gxz gyz gyx gzx gzy L).2 i = L i := by
  have h : ¬ (stride1 g ≤ i ∧ i < stride0 g) := fun hc => absurd hc.1 (not_le.mpr hlow)
  refine ⟨?_, ?_, ?_⟩ <;> simp only [dUdt_1d, dUdt_2d, dUdt_3d] <;> rw [if_neg h]

/-- C7 witness: on a concrete 1-D grid the first entry of the output array
keeps its prior value. -/
theorem dUdt_untouched_region_witness :
    0 < stride1 (Grid.mk 4 1 1)
    ∧ (dUdt_1d trivialExt default_state (Grid.mk 4 1 1) 1 (fun _ => 0) (fun _ => 0)
        (fun _ => 0) (fun _ => 0) (fun _ => 0) 0 (fun _ => 1)).2 0 = 1 :=
  ⟨by norm_num [stride1],
   (dUdt_untouched_region trivialExt default_state (Grid.mk 4 1 1) 1 1 1
      (fun _ => 0) (fun _ => 0) (fun _ => 0) (fun _ => 0) (fun _ => 0)
      (fun _ => 0) (fun _ => 0) (fun _ => 0) (fun _ => 0) (fun _ => 0) (fun _ => 0)
      (fun _ => 0) (fun _ => 0) 0 (fun _ => 1) 0 (by norm_num [stride1])).1⟩

/-- C7 counterexample: the entry points do write the outer guard layers.  On a
1-D grid with `Nx = 4` (all four cells guard cells) the last index 31 lies in
the two high-boundary guard layers, yet `dUdt_1d` overwrites its prior value 1
with 0 (both flux reads fall in the zeroed border of `Fiph`). -/
theorem dUdt_guard_write_counterexample :
    (dUdt_1d trivialExt default_state (Grid.mk 4 1 1) 1 (fun _ => 0) (fun _ => 0)
       (fun _ => 0) (fun _ => 0) (fun _ => 0) 0 (fun _ => 1)).2 31 ≠ 1 := by
  have hs1 : stride1 (Grid.mk 4 1 1) = 8 := by norm_num [stride1]
  have hs0 : stride0 (Grid.mk 4 1 1) = 32 := by norm_num [stride0]
  have hS : strideOf (Grid.mk 4 1 1) 1 = 8 := by norm_num [strideOf, stride1]
  have hcond : stride1 (Grid.mk 4 1 1) ≤ 31 ∧ 31 < stride0 (Grid.mk 4 1 1) := by
    rw [hs1, hs0]; norm_num
  simp only [dUdt_1d]
  rw [if_pos hcond]
  have hF : ∀ (Pa ua ub uc : ℕ → ℝ) (j : ℕ), 16 ≤ j →
      Fiph trivialExt default_state (Grid.mk 4 1 1) 1 Pa ua ub uc j = 0 := by
    intro Pa ua ub uc j hj
    simp only [Fiph, hS, hs0]
    rw [if_neg (by omega), if_pos (by omega)]
  rw [hs1, hF _ _ _ _ 31 (by norm_num), hF _ _ _ _ (31 - 8) (by norm_num)]
  norm_num

/-- C4 witness: a concrete 1-cell grid instance of the self-flux-zero law. -/
theorem constraint_transport_self_flux_zero_witness :
    (0 < (Grid.mk 1 1 1).Nx * (Grid.mk 1 1 1).Ny * (Grid.mk 1 1 1).Nz)
    ∧ (constraint_transport_2d (Grid.mk 1 1 1) (fun _ => 3) (fun _ => 3)
        (fun _ => 3) (fun _ => 3)).1 (8 * 0 + Bx) = 0 := by
  refine ⟨by norm_num, ?_⟩
  exact (constraint_transport_self_flux_zero (Grid.mk 1 1 1) (fun _ => 3) (fun _ => 3)
    (fun _ => 3) (fun _ => 3) (fun _ => 3) (fun _ => 3) (fun _ => 3) (fun _ => 3)
    (fun _ => 3) (fun _ => 3) (fun _ => 3) 0 (by norm_num)).1

-- Uniform-field machinery (C9): congruence of the solvers in the consumed
-- slots, uniformity of the inverted arrays, and slot-uniformity of the
-- interface-flux sweeps.

theorem stride0_mod8 (g : Grid) : stride0 g % 8 = 0 := Nat.mul_mod_left _ 8

theorem stride1_mod8 (g : Grid) : stride1 g % 8 = 0 := Nat.mul_mod_left _ 8

theorem stride2_mod8 (g : Grid) : stride2 g % 8 = 0 := Nat.mul_mod_left _ 8

theorem strideOf_mod8 (g : Grid) (dim : ℕ) : strideOf g dim % 8 = 0 := by
  simp only [strideOf]
  split
  · exact stride1_mod8 g
  split
  · exact stride2_mod8 g
  split
  · simp [stride3]
  · exact stride0_mod8 g

/-- `strideOf` at the three used axis arguments. -/
theorem strideOf_one (g : Grid) : strideOf g 1 = stride1 g := rfl

theorem strideOf_two (g : Grid) : strideOf g 2 = stride2 g := rfl

theorem strideOf_three (g : Grid) : strideOf g 3 = stride3 g := rfl

/-- The failure indicator and the output cell of the point inversion do not
depend on the previous recorded Lorentz factor (only the third output
component can). -/
theorem cons_to_prim_point_w_indep (cfg : LibraryState) (U P : St) (w w' : ℝ) :
    (cons_to_prim_point cfg U P w).1 = (cons_to_prim_point cfg U P w').1
    ∧ (cons_to_prim_point cfg U P w).2.1 = (cons_to_prim_point cfg U P w').2.1 := by
  simp only [cons_to_prim_point]
  cases c2p_run (c2p_ctx cfg U P) C2P_FUEL (c2p_init (c2p_ctx cfg U P)) <;>
    exact ⟨rfl, rfl⟩

/-- The recorded Lorentz factor after a point inversion either echoes the
input (failure path) or is the same for every input (success path). -/
theorem cons_to_prim_point_lastW_cases (cfg : LibraryState) (U P : St) (w : ℝ) :
    (cons_to_prim_point cfg U P w).2.2 = w
    ∨ ∀ w', (cons_to_prim_point cfg U P w').2.2 = (cons_to_prim_point cfg U P w).2.2 := by
  simp only [cons_to_prim_point]
  cases c2p_run (c2p_ctx cfg U P) C2P_FUEL (c2p_init (c2p_ctx cfg U P)) with
  | success Z W fl => exact Or.inr fun w' => rfl
  | failure => exact Or.inl rfl
  | out => exact Or.inl rfl

/-- `prim_to_cons_point` consumes only the eight slots of its cell. -/
theorem prim_to_cons_congr (g : ℝ) (P P' : St) (h : EqSt P P') :
    prim_to_cons_point g P = prim_to_cons_point g P' := by
  simp only [prim_to_cons_point]
  rw [h rho (by norm_num [rho]), h pre (by norm_num [pre]), h vx (by norm_num [vx]),
    h vy (by norm_num [vy]), h vz (by norm_num [vz]), h Bx (by norm_num [Bx]),
    h By (by norm_num [By]), h Bz (by norm_num [Bz])]

/-- `rmhd_flux` consumes only the eight slots of its two cells. -/
theorem rmhd_flux_congr (g : ℝ) (dim : ℕ) (U U' P P' : St)
    (hU : EqSt U U') (hP : EqSt P P') :
    rmhd_flux g dim U P = rmhd_flux g dim U' P' := by
  simp only [rmhd_flux]
  rw [hP pre (by norm_num [pre]), hP vx (by norm_num [vx]), hP vy (by norm_num [vy]),
    hP vz (by norm_num [vz]), hP Bx (by norm_num [Bx]), hP By (by norm_num [By]),
    hP Bz (by norm_num [Bz]), hU ddd (by norm_num [ddd]), hU tau (by norm_num [tau]),
    hU Sx (by norm_num [Sx]), hU Sy (by norm_num [Sy]), hU Sz (by norm_num [Sz])]

set_option maxHeartbeats 2000000 in
/-- The raw signal-speed pair consumes only the slots of the primitive cell
(the conserved argument is unread). -/
theorem signal_raw_congr (ext : ExtSolvers) (cfg : LibraryState) (dim : ℕ)
    (U U' P P' : St) (hP : EqSt P P') :
    signal_raw ext cfg dim U P = signal_raw ext cfg dim U' P' := by
  simp only [signal_raw]
  rw [hP rho (by norm_num [rho]), hP pre (by norm_num [pre]), hP vx (by norm_num [vx]),
    hP vy (by norm_num [vy]), hP vz (by norm_num [vz]), hP Bx (by norm_num [Bx]),
    hP By (by norm_num [By]), hP Bz (by norm_num [Bz])]

/-- `rmhd_flux_and_eval` consumes only the slots of its two cells. -/
theorem rmhd_flux_and_eval_congr (ext : ExtSolvers) (cfg : LibraryState) (dim : ℕ)
    (U U' P P' : St) (hU : EqSt U U') (hP : EqSt P P') :
    rmhd_flux_and_eval ext cfg dim U P = rmhd_flux_and_eval ext cfg dim U' P' := by
  simp only [rmhd_flux_and_eval]
  rw [rmhd_flux_congr cfg.adiabatic_gamma dim U U' P P' hU hP,
    signal_raw_congr ext cfg dim U U' P P' hP]

/-- The HLL solver consumes only the slots of its two interface cells. -/
theorem hll_flux_congr (ext : ExtSolvers) (cfg : LibraryState) (dim : ℕ)
    (pl pl' pr pr' : St) (s : ℝ) (h1 : EqSt pl pl') (h2 : EqSt pr pr') :
    hll_flux ext cfg dim pl pr s = hll_flux ext cfg dim pl' pr' s := by
  have e1 : prim_to_cons_point cfg.adiabatic_gamma pl
      = prim_to_cons_point cfg.adiabatic_gamma pl' := prim_to_cons_congr _ _ _ h1
  have e2 : prim_to_cons_point cfg.adiabatic_gamma pr
      = prim_to_cons_point cfg.adiabatic_gamma pr' := prim_to_cons_congr _ _ _ h2
  have e3 : rmhd_flux_and_eval ext cfg dim (prim_to_cons_point cfg.adiabatic_gamma pl') pl
      = rmhd_flux_and_eval ext cfg dim (prim_to_cons_point cfg.adiabatic_gamma pl') pl' :=
    rmhd_flux_and_eval_congr ext cfg dim _ _ _ _ (fun k _ => rfl) h1
  have e4 : rmhd_flux_and_eval ext cfg dim (prim_to_cons_point cfg.adiabatic_gamma pr') pr
      = rmhd_flux_and_eval ext cfg dim (prim_to_cons_point cfg.adiabatic_gamma pr') pr' :=
    rmhd_flux_and_eval_congr ext cfg dim _ _ _ _ (fun k _ => rfl) h2
  simp only [hll_flux, hll_bounds]
  rw [e1, e2, e3, e4]

/-- 3-velocity reconstruction consumes its stencil slotwise. -/
theorem reconstruct_use_3vel_congr (cfg : LibraryState) (A A' B B' C C' D D' : St)
    (hA : EqSt A A') (hB : EqSt B B') (hC : EqSt C C') (hD : EqSt D D') :
    EqSt (reconstruct_use_3vel cfg A B C D).1 (reconstruct_use_3vel cfg A' B' C' D').1
    ∧ EqSt (reconstruct_use_3vel cfg A B C D).2 (reconstruct_use_3vel cfg A' B' C' D').2 := by
  constructor
  · intro k hk
    simp only [reconstruct_use_3vel]
    rw [hA k hk, hB k hk, hC k hk]
  · intro k hk
    simp only [reconstruct_use_3vel]
    rw [hB k hk, hC k hk, hD k hk]

/-- 4-velocity reconstruction consumes its primitive stencil slotwise (the
cache entries enter as plain arguments). -/
theorem reconstruct_use_4vel_congr (cfg : LibraryState) (A A' B B' C C' D D' : St)
    (u1 u2 u3 u4 u5 u6 u7 u8 u9 u10 u11 u12 : ℝ)
    (hA : EqSt A A') (hB : EqSt B B') (hC : EqSt C C') (hD : EqSt D D') :
    EqSt (reconstruct_use_4vel cfg A B C D u1 u2 u3 u4 u5 u6 u7 u8 u9 u10 u11 u12).1
      (reconstruct_use_4vel cfg A' B' C' D' u1 u2 u3 u4 u5 u6 u7 u8 u9 u10 u11 u12).1
    ∧ EqSt (reconstruct_use_4vel cfg A B C D u1 u2 u3 u4 u5 u6 u7 u8 u9 u10 u11 u12).2
      (reconstruct_use_4vel cfg A' B' C' D' u1 u2 u3 u4 u5 u6 u7 u8 u9 u10 u11 u12).2 := by
  constructor
  · intro k hk
    simp only [reconstruct_use_4vel]
    split_ifs <;> first
      | rfl
      | rw [hA k hk, hB k hk, hC k hk]
  · intro k hk
    simp only [reconstruct_use_4vel]
    split_ifs <;> first
      | rfl
      | rw [hB k hk, hC k hk, hD k hk]

/-- Two cells of a slot-uniform region of a flat array agree slotwise. -/
theorem cellSt_eq_of_uniform (A : ℕ → ℝ) (q : St) (hi b b' : ℕ)
    (hA : ∀ j, j < hi → A j = q (j % 8))
    (hb8 : b % 8 = 0) (hb'8 : b' % 8 = 0) (hb : b + 8 ≤ hi) (hb' : b' + 8 ≤ hi) :
    EqSt (cellSt A b) (cellSt A b') := by
  intro k hk
  simp only [cellSt]
  rw [hA (b + k) (by omega), hA (b' + k) (by omega)]
  congr 1
  omega

/-- The interface solve of one cell agrees with that of another cell when the
four stencil cells agree slotwise, the twelve cache reads agree, and (if the
HLLC solver is configured) the abstract HLLC solver is slotwise congruent. -/
theorem fiph_cell_congr (ext : ExtSolvers) (cfg : LibraryState) (g : Grid) (dim : ℕ)
    (P ux uy uz : ℕ → ℝ) (b b' : ℕ)
    (hhllc : cfg.mode_riemann_solver = RiemannSolverMode.HLLC →
      ∀ (d : ℕ) (a a' r r' : St) (s : ℝ), EqSt a a' → EqSt r r' →
        ext.hllc d a r s = ext.hllc d a' r' s)
    (hm : EqSt (cellSt P (b - strideOf g dim)) (cellSt P (b' - strideOf g dim)))
    (h0 : EqSt (cellSt P b) (cellSt P b'))
    (h1 : EqSt (cellSt P (b + strideOf g dim)) (cellSt P (b' + strideOf g dim)))
    (h2 : EqSt (cellSt P (b + 2 * strideOf g dim)) (cellSt P (b' + 2 * strideOf g dim)))
    (hx1 : ux (b / 8 - strideOf g dim / 8) = ux (b' / 8 - strideOf g dim / 8))
    (hx2 : ux (b / 8) = ux (b' / 8))
    (hx3 : ux (b / 8 + strideOf g dim / 8) = ux (b' / 8 + strideOf g dim / 8))
    (hx4 : ux (b / 8 + 2 * (strideOf g dim / 8)) = ux (b' / 8 + 2 * (strideOf g dim / 8)))
    (hy1 : uy (b / 8 - strideOf g dim / 8) = uy (b' / 8 - strideOf g dim / 8))
    (hy2 : uy (b / 8) = uy (b' / 8))
    (hy3 : uy (b / 8 + strideOf g dim / 8) = uy (b' / 8 + strideOf g dim / 8))
    (hy4 : uy (b / 8 + 2 * (strideOf g dim / 8)) = uy (b' / 8 + 2 * (strideOf g dim / 8)))
    (hz1 : uz (b / 8 - strideOf g dim / 8) = uz (b' / 8 - strideOf g dim / 8))
    (hz2 : uz (b / 8) = uz (b' / 8))
    (hz3 : uz (b / 8 + strideOf g dim / 8) = uz (b' / 8 + strideOf g dim / 8))
    (hz4 : uz (b / 8 + 2 * (strideOf g dim / 8)) = uz (b' / 8 + 2 * (strideOf g dim / 8))) :
    fiph_cell ext cfg g dim P ux uy uz b = fiph_cell ext cfg g dim P ux uy uz b' := by
  obtain ⟨est, gam, th, rs, rm, sl, qs⟩ := cfg
  cases rm <;> cases rs <;> simp only [fiph_cell]
  · exact hll_flux_congr ext _ dim _ _ _ _ 0 h0 h1
  · exact hhllc rfl dim _ _ _ _ 0 h0 h1
  · obtain ⟨el, er⟩ := reconstruct_use_3vel_congr _ _ _ _ _ _ _ _ _ hm h0 h1 h2
    exact hll_flux_congr ext _ dim _ _ _ _ 0 el er
  · obtain ⟨el, er⟩ := reconstruct_use_3vel_congr _ _ _ _ _ _ _ _ _ hm h0 h1 h2
    exact hhllc rfl dim _ _ _ _ 0 el er
  · rw [hx1, hx2, hx3, hx4, hy1, hy2, hy3, hy4, hz1, hz2, hz3, hz4]
    obtain ⟨el, er⟩ :=
      reconstruct_use_4vel_congr _ _ _ _ _ _ _ _ _ _ _ _ _ _ _ _ _ _ _ _ _ hm h0 h1 h2
    exact hll_flux_congr ext _ dim _ _ _ _ 0 el er
  · rw [hx1, hx2, hx3, hx4, hy1, hy2, hy3, hy4, hz1, hz2, hz3, hz4]
    obtain ⟨el, er⟩ :=
      reconstruct_use_4vel_congr _ _ _ _ _ _ _ _ _ _ _ _ _ _ _ _ _ _ _ _ _ hm h0 h1 h2
    exact hhllc rfl dim _ _ _ _ 0 el er

/-- The interface-flux sweep of slot-uniform inputs is slot-uniform on its
computed range. -/
theorem Fiph_unif (ext : ExtSolvers) (cfg : LibraryState) (g : Grid) (dim : ℕ)
    (P ux uy uz : ℕ → ℝ) (q : St) (kx ky kz : ℝ)
    (hhllc : cfg.mode_riemann_solver = RiemannSolverMode.HLLC →
      ∀ (d : ℕ) (a a' r r' : St) (s : ℝ), EqSt a a' → EqSt r r' →
        ext.hllc d a r s = ext.hllc d a' r' s)
    (hP : ∀ j, j < stride0 g → P j = q (j % 8))
    (hux : ∀ c, 8 * c + 8 ≤ stride0 g → ux c = kx)
    (huy : ∀ c, 8 * c + 8 ≤ stride0 g → uy c = ky)
    (huz : ∀ c, 8 * c + 8 ≤ stride0 g → uz c = kz) :
    Unif8 (Fiph ext cfg g dim P ux uy uz) (strideOf g dim)
      (stride0 g - 2 * strideOf g dim) := by
  intro j j' hj1 hj2 hj1' hj2' hmod
  have hS8 : strideOf g dim % 8 = 0 := strideOf_mod8 g dim
  have hS08 : stride0 g % 8 = 0 := stride0_mod8 g
  simp only [Fiph]
  rw [if_neg (by omega), if_neg (by omega), if_neg (by omega), if_neg (by omega), hmod]
  have hcell : fiph_cell ext cfg g dim P ux uy uz (8 * (j / 8))
      = fiph_cell ext cfg g dim P ux uy uz (8 * (j' / 8)) := by
    apply fiph_cell_congr ext cfg g dim P ux uy uz _ _ hhllc
    · exact cellSt_eq_of_uniform P q (stride0 g) _ _ hP (by omega) (by omega)
        (by omega) (by omega)
    · exact cellSt_eq_of_uniform P q (stride0 g) _ _ hP (by omega) (by omega)
        (by omega) (by omega)
    · exact cellSt_eq_of_uniform P q (stride0 g) _ _ hP (by omega) (by omega)
        (by omega) (by omega)
    · exact cellSt_eq_of_uniform P q (stride0 g) _ _ hP (by omega) (by omega)
        (by omega) (by omega)
    · rw [hux _ (by omega), hux _ (by omega)]
    · rw [hux _ (by omega), hux _ (by omega)]
    · rw [hux _ (by omega), hux _ (by omega)]
    · rw [hux _ (by omega), hux _ (by omega)]
    · rw [huy _ (by omega), huy _ (by omega)]
    · rw [huy _ (by omega), huy _ (by omega)]
    · rw [huy _ (by omega), huy _ (by omega)]
    · rw [huy _ (by omega), huy _ (by omega)]
    · rw [huz _ (by omega), huz _ (by omega)]
    · rw [huz _ (by omega), huz _ (by omega)]
    · rw [huz _ (by omega), huz _ (by omega)]
    · rw [huz _ (by omega), huz _ (by omega)]
  rw [hcell]

/-- The x 4-velocity cache written by one more cell of the array inversion. -/
theorem cons_to_prim_array_succ_ux (cfg : LibraryState) (Uarr : ℕ → ℝ) (n : ℕ) (a : C2PArr) :
    (cons_to_prim_array cfg Uarr (n + 1) a).ux
      = if cfg.mode_reconstruct = ReconstructMode.PLM4Velocity then
          setAt (cons_to_prim_array cfg Uarr n a).ux n
            ((cons_to_prim_point cfg (cellSt Uarr (8 * n))
              (cellSt (cons_to_prim_array cfg Uarr n a).P (8 * n))
              (cons_to_prim_array cfg Uarr n a).lastW).2.2
             * (cons_to_prim_point cfg (cellSt Uarr (8 * n))
              (cellSt (cons_to_prim_array cfg Uarr n a).P (8 * n))
              (cons_to_prim_array cfg Uarr n a).lastW).2.1 vx)
        else (cons_to_prim_array cfg Uarr n a).ux := by
  simp only [cons_to_prim_array]
  split <;> rfl

/-- The y 4-velocity cache written by one more cell of the array inversion. -/
theorem cons_to_prim_array_succ_uy (cfg : LibraryState) (Uarr : ℕ → ℝ) (n : ℕ) (a : C2PArr) :
    (cons_to_prim_array cfg Uarr (n + 1) a).uy
      = if cfg.mode_reconstruct = ReconstructMode.PLM4Velocity then
          setAt (cons_to_prim_array cfg Uarr n a).uy n
            ((cons_to_prim_point cfg (cellSt Uarr (8 * n))
              (cellSt (cons_to_prim_array cfg Uarr n a).P (8 * n))
              (cons_to_prim_array cfg Uarr n a).lastW).2.2
             * (cons_to_prim_point cfg (cellSt Uarr (8 * n))
              (cellSt (cons_to_prim_array cfg Uarr n a).P (8 * n))
              (cons_to_prim_array cfg Uarr n a).lastW).2.1 vy)
        else (cons_to_prim_array cfg Uarr n a).uy := by
  simp only [cons_to_prim_array]
  split <;> rfl

/-- The z 4-velocity cache written by one more cell of the array inversion. -/
theorem cons_to_prim_array_succ_uz (cfg : LibraryState) (Uarr : ℕ → ℝ) (n : ℕ) (a : C2PArr) :
    (cons_to_prim_array cfg Uarr (n + 1) a).uz
      = if cfg.mode_reconstruct = ReconstructMode.PLM4Velocity then
          setAt (cons_to_prim_array cfg Uarr n a).uz n
            ((cons_to_prim_point cfg (cellSt Uarr (8 * n))
              (cellSt (cons_to_prim_array cfg Uarr n a).P (8 * n))
              (cons_to_prim_array cfg Uarr n a).lastW).2.2
             * (cons_to_prim_point cfg (cellSt Uarr (8 * n))
              (cellSt (cons_to_prim_array cfg Uarr n a).P (8 * n))
              (cons_to_prim_array cfg Uarr n a).lastW).2.1 vz)
        else (cons_to_prim_array cfg Uarr n a).uz := by
  simp only [cons_to_prim_array]
  split <;> rfl

/-- The recorded Lorentz factor after one more cell of the array inversion. -/
theorem cons_to_prim_array_succ_lastW (cfg : LibraryState) (Uarr : ℕ → ℝ) (n : ℕ)
    (a : C2PArr) :
    (cons_to_prim_array cfg Uarr (n + 1) a).lastW
      = (cons_to_prim_point cfg (cellSt Uarr (8 * n))
          (cellSt (cons_to_prim_array cfg Uarr n a).P (8 * n))
          (cons_to_prim_array cfg Uarr n a).lastW).2.2 := by
  simp only [cons_to_prim_array]
  split <;> rfl

/-- The array inversion of a slot-uniform conserved field against a
slot-uniform guess array with constant caches: every processed cell receives
the same output cell (that of the single-cell inversion), the untouched tail
keeps the guess pattern, the caches are constant below and above the
processed region, the failure count is the cell count times the single-cell
failure indicator, and the recorded Lorentz factor is the initial one or the
single-cell one. -/
theorem cons_to_prim_array_uniform (cfg : LibraryState) (u p0 : St)
    (Ua Pg ux0 uy0 uz0 : ℕ → ℝ) (w0 cx cy cz kx ky kz : ℝ)
    (hU : ∀ j, Ua j = u (j % 8)) (hP : ∀ j, Pg j = p0 (j % 8))
    (hx : ∀ c, ux0 c = cx) (hy : ∀ c, uy0 c = cy) (hz : ∀ c, uz0 c = cz)
    (hkx : kx = if cfg.mode_reconstruct = ReconstructMode.PLM4Velocity then
        (cons_to_prim_point cfg (fun k => u (k % 8)) (fun k => p0 (k % 8)) w0).2.2
        * (cons_to_prim_point cfg (fun k => u (k % 8)) (fun k => p0 (k % 8)) w0).2.1 vx
      else cx)
    (hky : ky = if cfg.mode_reconstruct = ReconstructMode.PLM4Velocity then
        (cons_to_prim_point cfg (fun k => u (k % 8)) (fun k => p0 (k % 8)) w0).2.2
        * (cons_to_prim_point cfg (fun k => u (k % 8)) (fun k => p0 (k % 8)) w0).2.1 vy
      else cy)
    (hkz : kz = if cfg.mode_reconstruct = ReconstructMode.PLM4Velocity then
        (cons_to_prim_point cfg (fun k => u (k % 8)) (fun k => p0 (k % 8)) w0).2.2
        * (cons_to_prim_point cfg (fun k => u (k % 8)) (fun k => p0 (k % 8)) w0).2.1 vz
      else cz)
    (N : ℕ) :
    (∀ j, j < 8 * N →
      (cons_to_prim_array cfg Ua N ⟨0, Pg, ux0, uy0, uz0, w0⟩).P j
        = (cons_to_prim_point cfg (fun k => u (k % 8)) (fun k => p0 (k % 8)) w0).2.1 (j % 8))
    ∧ (∀ j, 8 * N ≤ j →
      (cons_to_prim_array cfg Ua N ⟨0, Pg, ux0, uy0, uz0, w0⟩).P j = p0 (j % 8))
    ∧ (∀ c, (cons_to_prim_array cfg Ua N ⟨0, Pg, ux0, uy0, uz0, w0⟩).ux c
        = if c < N then kx else cx)
    ∧ (∀ c, (cons_to_prim_array cfg Ua N ⟨0, Pg, ux0, uy0, uz0, w0⟩).uy c
        = if c < N then ky else cy)
    ∧ (∀ c, (cons_to_prim_array cfg Ua N ⟨0, Pg, ux0, uy0, uz0, w0⟩).uz c
        = if c < N then kz else cz)
    ∧ (cons_to_prim_array cfg Ua N ⟨0, Pg, ux0, uy0, uz0, w0⟩).failures
        = N * (cons_to_prim_point cfg (fun k => u (k % 8)) (fun k => p0 (k % 8)) w0).1
    ∧ ((cons_to_prim_array cfg Ua N ⟨0, Pg, ux0, uy0, uz0, w0⟩).lastW = w0
        ∨ (cons_to_prim_array cfg Ua N ⟨0, Pg, ux0, uy0, uz0, w0⟩).lastW
          = (cons_to_prim_point cfg (fun k => u (k % 8)) (fun k => p0 (k % 8)) w0).2.2) := by
  induction N with
  | zero =>
    refine ⟨fun j hj => absurd hj (by omega), fun j _ => hP j, fun c => ?_, fun c => ?_,
      fun c => ?_, by simp [cons_to_prim_array], Or.inl rfl⟩
    · rw [show cons_to_prim_array cfg Ua 0 ⟨0, Pg, ux0, uy0, uz0, w0⟩
        = ⟨0, Pg, ux0, uy0, uz0, w0⟩ from rfl]
      rw [if_neg (Nat.not_lt_zero c)]
      exact hx c
    · rw [show cons_to_prim_array cfg Ua 0 ⟨0, Pg, ux0, uy0, uz0, w0⟩
        = ⟨0, Pg, ux0, uy0, uz0, w0⟩ from rfl]
      rw [if_neg (Nat.not_lt_zero c)]
      exact hy c
    · rw [show cons_to_prim_array cfg Ua 0 ⟨0, Pg, ux0, uy0, uz0, w0⟩
        = ⟨0, Pg, ux0, uy0, uz0, w0⟩ from rfl]
      rw [if_neg (Nat.not_lt_zero c)]
      exact hz c
  | succ N ih =>
    obtain ⟨ihA, ihB, ihx, ihy, ihz, ihF, ihW⟩ := ih
    have hUcell : cellSt Ua (8 * N) = (fun k => u (k % 8)) := by
      funext k
      simp only [cellSt]
      rw [hU (8 * N + k)]
      congr 1
      omega
    have hPcell : cellSt (cons_to_prim_array cfg Ua N ⟨0, Pg, ux0, uy0, uz0, w0⟩).P (8 * N)
        = (fun k => p0 (k % 8)) := by
      funext k
      simp only [cellSt]
      rw [ihB (8 * N + k) (by omega)]
      congr 1
      omega
    have hcall : cons_to_prim_point cfg (cellSt Ua (8 * N))
        (cellSt (cons_to_prim_array cfg Ua N ⟨0, Pg, ux0, uy0, uz0, w0⟩).P (8 * N))
        (cons_to_prim_array cfg Ua N ⟨0, Pg, ux0, uy0, uz0, w0⟩).lastW
        = cons_to_prim_point cfg (fun k => u (k % 8)) (fun k => p0 (k % 8)) w0 := by
      rw [hUcell, hPcell]
      rcases ihW with hW | hW
      · rw [hW]
      · rcases cons_to_prim_point_lastW_cases cfg (fun k => u (k % 8))
          (fun k => p0 (k % 8)) w0 with hc | hc
        · rw [hW, hc]
        · rw [hW]
          have h12 := cons_to_prim_point_w_indep cfg (fun k => u (k % 8))
            (fun k => p0 (k % 8))
            ((cons_to_prim_point cfg (fun k => u (k % 8)) (fun k => p0 (k % 8)) w0).2.2) w0
          exact Prod.ext h12.1 (Prod.ext h12.2 (hc _))
    refine ⟨?_, ?_, ?_, ?_, ?_, ?_, ?_⟩
    · intro j hj
      rw [cons_to_prim_array_succ_P, hcall]
      simp only [setCell]
      by_cases hjc : 8 * N ≤ j ∧ j < 8 * N + 8
      · rw [if_pos hjc]
        obtain ⟨hjc1, hjc2⟩ := hjc
        rw [show j - 8 * N = j % 8 from by omega]
      · rw [if_neg hjc]
        exact ihA j (by omega)
    · intro j hj
      rw [cons_to_prim_array_succ_P, hcall]
      simp only [setCell]
      rw [if_neg (by omega)]
      exact ihB j (by omega)
    · intro c
      rw [cons_to_prim_array_succ_ux, hcall]
      by_cases hm : cfg.mode_reconstruct = ReconstructMode.PLM4Velocity
      · rw [if_pos hm]
        simp only [setAt]
        by_cases hcN : c = N
        · subst hcN
          rw [if_pos rfl, if_pos (by omega), hkx, if_pos hm]
        · rw [if_neg hcN, ihx c]
          by_cases hlt : c < N
          · rw [if_pos hlt, if_pos (by omega)]
          · rw [if_neg hlt, if_neg (by omega)]
      · rw [if_neg hm, ihx c]
        by_cases hlt : c < N
        · rw [if_pos hlt, if_pos (by omega)]
        · rw [if_neg hlt]
          by_cases hceq : c < N + 1
          · rw [if_pos hceq, hkx, if_neg hm]
          · rw [if_neg hceq]
    · intro c
      rw [cons_to_prim_array_succ_uy, hcall]
      by_cases hm : cfg.mode_reconstruct = ReconstructMode.PLM4Velocity
      · rw [if_pos hm]
        simp only [setAt]
        by_cases hcN : c = N
        · subst hcN
          rw [if_pos rfl, if_pos (by omega), hky, if_pos hm]
        · rw [if_neg hcN, ihy c]
          by_cases hlt : c < N
          · rw [if_pos hlt, if_pos (by omega)]
          · rw [if_neg hlt, if_neg (by omega)]
      · rw [if_neg hm, ihy c]
        by_cases hlt : c < N
        · rw [if_pos hlt, if_pos (by omega)]
        · rw [if_neg hlt]
          by_cases hceq : c < N + 1
          · rw [if_pos hceq, hky, if_neg hm]
          · rw [if_neg hceq]
    · intro c
      rw [cons_to_prim_array_succ_uz, hcall]
      by_cases hm : cfg.mode_reconstruct = ReconstructMode.PLM4Velocity
      · rw [if_pos hm]
        simp only [setAt]
        by_cases hcN : c = N
        · subst hcN
          rw [if_pos rfl, if_pos (by omega), hkz, if_pos hm]
        · rw [if_neg hcN, ihz c]
          by_cases hlt : c < N
          · rw [if_pos hlt, if_pos (by omega)]
          · rw [if_neg hlt, if_neg (by omega)]
      · rw [if_neg hm, ihz c]
        by_cases hlt : c < N
        · rw [if_pos hlt, if_pos (by omega)]
        · rw [if_neg hlt]
          by_cases hceq : c < N + 1
          · rw [if_pos hceq, hkz, if_neg hm]
          · rw [if_neg hceq]
    · rw [cons_to_prim_array_succ_failures, hcall, ihF]
      ring
    · right
      rw [cons_to_prim_array_succ_lastW, hcall]

/-- The per-axis interface-flux sweep of a `dUdt` entry point is slot-uniform
on its computed range whenever the conserved field and the cached guesses are
slot-uniform and the caches are constant. -/
theorem dUdt_sweep_unif (ext : ExtSolvers) (cfg : LibraryState) (g : Grid) (dim : ℕ)
    (U Pc ux0 uy0 uz0 : ℕ → ℝ) (w0 cx cy cz : ℝ) (u p0 : St)
    (hhllc : cfg.mode_riemann_solver = RiemannSolverMode.HLLC →
      ∀ (d : ℕ) (a a' r r' : St) (s : ℝ), EqSt a a' → EqSt r r' →
        ext.hllc d a r s = ext.hllc d a' r' s)
    (hU : ∀ j, U j = u (j % 8)) (hP : ∀ j, Pc j = p0 (j % 8))
    (hx : ∀ c, ux0 c = cx) (hy : ∀ c, uy0 c = cy) (hz : ∀ c, uz0 c = cz) :
    Unif8 (Fiph ext cfg g dim
        (cons_to_prim_array cfg U (stride0 g / 8) ⟨0, Pc, ux0, uy0, uz0, w0⟩).P
        (cons_to_prim_array cfg U (stride0 g / 8) ⟨0, Pc, ux0, uy0, uz0, w0⟩).ux
        (cons_to_prim_array cfg U (stride0 g / 8) ⟨0, Pc, ux0, uy0, uz0, w0⟩).uy
        (cons_to_prim_array cfg U (stride0 g / 8) ⟨0, Pc, ux0, uy0, uz0, w0⟩).uz)
      (strideOf g dim) (stride0 g - 2 * strideOf g dim) := by
  obtain ⟨hA, hB, hCx, hCy, hCz, hF, hW⟩ :=
    cons_to_prim_array_uniform cfg u p0 U Pc ux0 uy0 uz0 w0 cx cy cz _ _ _
      hU hP hx hy hz rfl rfl rfl (stride0 g / 8)
  have h08 := stride0_mod8 g
  apply Fiph_unif ext cfg g dim _ _ _ _
    ((cons_to_prim_point cfg (fun k => u (k % 8)) (fun k => p0 (k % 8)) w0).2.1)
    _ _ _ hhllc
  · intro j hj
    exact hA j (by omega)
  · intro c hc
    rw [hCx c, if_pos (by omega)]
  · intro c hc
    rw [hCy c, if_pos (by omega)]
  · intro c hc
    rw [hCz c, if_pos (by omega)]

/-- The failure count of a `dUdt` entry point on slot-uniform inputs is the
cell count times the single-cell failure indicator. -/
theorem dUdt_uniform_failures (cfg : LibraryState) (g : Grid)
    (U Pc ux0 uy0 uz0 : ℕ → ℝ) (w0 cx cy cz : ℝ) (u p0 : St)
    (hU : ∀ j, U j = u (j % 8)) (hP : ∀ j, Pc j = p0 (j % 8))
    (hx : ∀ c, ux0 c = cx) (hy : ∀ c, uy0 c = cy) (hz : ∀ c, uz0 c = cz) :
    (cons_to_prim_array cfg U (stride0 g / 8) ⟨0, Pc, ux0, uy0, uz0, w0⟩).failures
      = stride0 g / 8
        * (cons_to_prim_point cfg (fun k => u (k % 8)) (fun k => p0 (k % 8)) w0).1 :=
  (cons_to_prim_array_uniform cfg u p0 U Pc ux0 uy0 uz0 w0 cx cy cz _ _ _
    hU hP hx hy hz rfl rfl rfl (stride0 g / 8)).2.2.2.2.2.1

/-- 1-D uniform-field law: on slot-uniform inputs every output entry at least
one x-stride away from either end of the written region is exactly zero. -/
theorem dUdt_1d_uniform_zero (ext : ExtSolvers) (cfg : LibraryState) (g : Grid) (dx : ℝ)
    (U Pc ux0 uy0 uz0 L : ℕ → ℝ) (w0 cx cy cz : ℝ) (u p0 : St)
    (hhllc : cfg.mode_riemann_solver = RiemannSolverMode.HLLC →
      ∀ (d : ℕ) (a a' r r' : St) (s : ℝ), EqSt a a' → EqSt r r' →
        ext.hllc d a r s = ext.hllc d a' r' s)
    (hU : ∀ j, U j = u (j % 8)) (hP : ∀ j, Pc j = p0 (j % 8))
    (hx : ∀ c, ux0 c = cx) (hy : ∀ c, uy0 c = cy) (hz : ∀ c, uz0 c = cz)
    (i : ℕ) (h1 : 2 * stride1 g ≤ i) (h2 : i < stride0 g - 2 * stride1 g) :
    (dUdt_1d ext cfg g dx U Pc ux0 uy0 uz0 w0 L).2 i = 0 := by
  have h18 := stride1_mod8 g
  have hu := dUdt_sweep_unif ext cfg g 1 U Pc ux0 uy0 uz0 w0 cx cy cz u p0
    hhllc hU hP hx hy hz
  rw [strideOf_one] at hu
  simp only [dUdt_1d]
  rw [if_pos ⟨by omega, by omega⟩]
  rw [hu i (i - stride1 g) (by omega) (by omega) (by omega) (by omega) (by omega)]
  simp

-- Constraint-transport scratch values on slot-uniform flux arrays: cells
-- whose reads stay inside the computed flux ranges receive equal values.

/-- `FxBy` scratch congruence across cells (2-D pass). -/
theorem ct2d_FxBy_unif (g : Grid) (Fx Fy gx : ℕ → ℝ)
    (hFx : Unif8 Fx (stride1 g) (stride0 g - 2 * stride1 g))
    (hFy : Unif8 Fy (stride2 g) (stride0 g - 2 * stride2 g))
    (hyx : stride2 g ≤ stride1 g) (c c' : ℕ)
    (hc1 : stride1 g + stride2 g ≤ 8 * c)
    (hc2 : 8 * c + 2 * stride1 g + stride2 g + 8 ≤ stride0 g)
    (hc3 : 8 * c + stride1 g + 2 * stride2 g + 8 ≤ stride0 g)
    (hd1 : stride1 g + stride2 g ≤ 8 * c')
    (hd2 : 8 * c' + 2 * stride1 g + stride2 g + 8 ≤ stride0 g)
    (hd3 : 8 * c' + stride1 g + 2 * stride2 g + 8 ≤ stride0 g) :
    ct2d_FxBy g Fx Fy gx c = ct2d_FxBy g Fx Fy gx c' := by
  have hBx : Bx = 5 := rfl
  have hBy : By = 6 := rfl
  have h18 := stride1_mod8 g
  have h28 := stride2_mod8 g
  have h08 := stride0_mod8 g
  have e1 : Fx (8 * c + By) = Fx (8 * c' + By) :=
    hFx _ _ (by omega) (by omega) (by omega) (by omega) (by omega)
  have e2 : Fx (8 * c + By + stride2 g) = Fx (8 * c' + By + stride2 g) :=
    hFx _ _ (by omega) (by omega) (by omega) (by omega) (by omega)
  have e3 : Fx (8 * c + By - stride2 g) = Fx (8 * c' + By - stride2 g) :=
    hFx _ _ (by omega) (by omega) (by omega) (by omega) (by omega)
  have f1 : Fy (8 * c + Bx) = Fy (8 * c' + Bx) :=
    hFy _ _ (by omega) (by omega) (by omega) (by omega) (by omega)
  have f2 : Fy (8 * c + Bx + stride1 g) = Fy (8 * c' + Bx + stride1 g) :=
    hFy _ _ (by omega) (by omega) (by omega) (by omega) (by omega)
  have f3 : Fy (8 * c + Bx - stride2 g) = Fy (8 * c' + Bx - stride2 g) :=
    hFy _ _ (by omega) (by omega) (by omega) (by omega) (by omega)
  have f4 : Fy (8 * c + Bx + stride1 g - stride2 g)
      = Fy (8 * c' + Bx + stride1 g - stride2 g) :=
    hFy _ _ (by omega) (by omega) (by omega) (by omega) (by omega)
  simp only [ct2d_FxBy]
  rw [if_pos ⟨by omega, by omega⟩, if_pos ⟨by omega, by omega⟩, e1, e2, e3, f1, f2, f3, f4]

/-- `FyBx` scratch congruence across cells (2-D pass). -/
theorem ct2d_FyBx_unif (g : Grid) (Fx Fy gy : ℕ → ℝ)
    (hFx : Unif8 Fx (stride1 g) (stride0 g - 2 * stride1 g))
    (hFy : Unif8 Fy (stride2 g) (stride0 g - 2 * stride2 g))
    (hyx : stride2 g ≤ stride1 g) (c c' : ℕ)
    (hc1 : 2 * stride1 g ≤ 8 * c)
    (hc2 : 8 * c + 2 * stride1 g + stride2 g + 8 ≤ stride0 g)
    (hc3 : 8 * c + stride1 g + 2 * stride2 g + 8 ≤ stride0 g)
    (hd1 : 2 * stride1 g ≤ 8 * c')
    (hd2 : 8 * c' + 2 * stride1 g + stride2 g + 8 ≤ stride0 g)
    (hd3 : 8 * c' + stride1 g + 2 * stride2 g + 8 ≤ stride0 g) :
    ct2d_FyBx g Fx Fy gy c = ct2d_FyBx g Fx Fy gy c' := by
  have hBx : Bx = 5 := rfl
  have hBy : By = 6 := rfl
  have h18 := stride1_mod8 g
  have h28 := stride2_mod8 g
  have h08 := stride0_mod8 g
  have e1 : Fy (8 * c + Bx) = Fy (8 * c' + Bx) :=
    hFy _ _ (by omega) (by omega) (by omega) (by omega) (by omega)
  have e2 : Fy (8 * c + Bx + stride1 g) = Fy (8 * c' + Bx + stride1 g) :=
    hFy _ _ (by omega) (by omega) (by omega) (by omega) (by omega)
  have e3 : Fy (8 * c + Bx - stride1 g) = Fy (8 * c' + Bx - stride1 g) :=
    hFy _ _ (by omega) (by omega) (by omega) (by omega) (by omega)
  have f1 : Fx (8 * c + By) = Fx (8 * c' + By) :=
    hFx _ _ (by omega) (by omega) (by omega) (by omega) (by omega)
  have f2 : Fx (8 * c + By + stride2 g) = Fx (8 * c' + By + stride2 g) :=
    hFx _ _ (by omega) (by omega) (by omega) (by omega) (by omega)
  have f3 : Fx (8 * c + By - stride1 g) = Fx (8 * c' + By - stride1 g) :=
    hFx _ _ (by omega) (by omega) (by omega) (by omega) (by omega)
  have f4 : Fx (8 * c + By - stride1 g + stride2 g)
      = Fx (8 * c' + By - stride1 g + stride2 g) :=
    hFx _ _ (by omega) (by omega) (by omega) (by omega) (by omega)
  simp only [ct2d_FyBx]
  rw [if_pos ⟨by omega, by omega⟩, if_pos ⟨by omega, by omega⟩, e1, e2, e3, f1, f2, f3, f4]

/-- The 3-D `FxBy` and `FyBx` scratch functions coincide with the 2-D ones. -/
theorem ct3d_FxBy_as_2d : ct3d_FxBy = ct2d_FxBy := rfl

theorem ct3d_FyBx_as_2d : ct3d_FyBx = ct2d_FyBx := rfl

/-- `FyBz` scratch congruence across cells (3-D pass). -/
theorem ct3d_FyBz_unif (g : Grid) (Fy Fz gs : ℕ → ℝ)
    (hFy : Unif8 Fy (stride2 g) (stride0 g - 2 * stride2 g))
    (hFz : Unif8 Fz (stride3 g) (stride0 g - 2 * stride3 g))
    (hzy : stride3 g ≤ stride2 g) (c c' : ℕ)
    (hc0 : stride1 g ≤ 8 * c)
    (hc1 : stride2 g + stride3 g ≤ 8 * c)
    (hc2 : 8 * c + stride2 g + 2 * stride3 g + 8 ≤ stride0 g)
    (hc3 : 8 * c + stride3 g + 2 * stride2 g + 8 ≤ stride0 g)
    (hc4 : 8 * c + stride1 g + 8 ≤ stride0 g)
    (hd0 : stride1 g ≤ 8 * c')
    (hd1 : stride2 g + stride3 g ≤ 8 * c')
    (hd2 : 8 * c' + stride2 g + 2 * stride3 g + 8 ≤ stride0 g)
    (hd3 : 8 * c' + stride3 g + 2 * stride2 g + 8 ≤ stride0 g)
    (hd4 : 8 * c' + stride1 g + 8 ≤ stride0 g) :
    ct3d_FyBz g Fy Fz gs c = ct3d_FyBz g Fy Fz gs c' := by
  have hBy : By = 6 := rfl
  have hBz : Bz = 7 := rfl
  have h38 : stride3 g = 8 := rfl
  have h18 := stride1_mod8 g
  have h28 := stride2_mod8 g
  have h08 := stride0_mod8 g
  have e1 : Fy (8 * c + Bz) = Fy (8 * c' + Bz) :=
    hFy _ _ (by omega) (by omega) (by omega) (by omega) (by omega)
  have e2 : Fy (8 * c + Bz + stride3 g) = Fy (8 * c' + Bz + stride3 g) :=
    hFy _ _ (by omega) (by omega) (by omega) (by omega) (by omega)
  have e3 : Fy (8 * c + Bz - stride3 g) = Fy (8 * c' + Bz - stride3 g) :=
    hFy _ _ (by omega) (by omega) (by omega) (by omega) (by omega)
  have f1 : Fz (8 * c + By) = Fz (8 * c' + By) :=
    hFz _ _ (by omega) (by omega) (by omega) (by omega) (by omega)
  have f2 : Fz (8 * c + By + stride2 g) = Fz (8 * c' + By + stride2 g) :=
    hFz _ _ (by omega) (by omega) (by omega) (by omega) (by omega)
  have f3 : Fz (8 * c + By - stride3 g) = Fz (8 * c' + By - stride3 g) :=
    hFz _ _ (by omega) (by omega) (by omega) (by omega) (by omega)
  have f4 : Fz (8 * c + By + stride2 g - stride3 g)
      = Fz (8 * c' + By + stride2 g - stride3 g) :=
    hFz _ _ (by omega) (by omega) (by omega) (by omega) (by omega)
  simp only [ct3d_FyBz]
  rw [if_pos ⟨by omega, by omega⟩, if_pos ⟨by omega, by omega⟩, e1, e2, e3, f1, f2, f3, f4]

/-- `FzBy` scratch congruence across cells (3-D pass). -/
theorem ct3d_FzBy_unif (g : Grid) (Fy Fz gs : ℕ → ℝ)
    (hFy : Unif8 Fy (stride2 g) (stride0 g - 2 * stride2 g))
    (hFz : Unif8 Fz (stride3 g) (stride0 g - 2 * stride3 g))
    (hzy : stride3 g ≤ stride2 g) (c c' : ℕ)
    (hc0 : stride1 g ≤ 8 * c)
    (hc1 : 2 * stride2 g ≤ 8 * c)
    (hc2 : 8 * c + stride2 g + 2 * stride3 g + 8 ≤ stride0 g)
    (hc3 : 8 * c + stride3 g + 2 * stride2 g + 8 ≤ stride0 g)
    (hc4 : 8 * c + stride1 g + 8 ≤ stride0 g)
    (hd0 : stride1 g ≤ 8 * c')
    (hd1 : 2 * stride2 g ≤ 8 * c')
    (hd2 : 8 * c' + stride2 g + 2 * stride3 g + 8 ≤ stride0 g)
    (hd3 : 8 * c' + stride3 g + 2 * stride2 g + 8 ≤ stride0 g)
    (hd4 : 8 * c' + stride1 g + 8 ≤ stride0 g) :
    ct3d_FzBy g Fy Fz gs c = ct3d_FzBy g Fy Fz gs c' := by
  have hBy : By = 6 := rfl
  have hBz : Bz = 7 := rfl
  have h38 : stride3 g = 8 := rfl
  have h18 := stride1_mod8 g
  have h28 := stride2_mod8 g
  have h08 := stride0_mod8 g
  have e1 : Fz (8 * c + By) = Fz (8 * c' + By) :=
    hFz _ _ (by omega) (by omega) (by omega) (by omega) (by omega)
  have e2 : Fz (8 * c + By + stride2 g) = Fz (8 * c' + By + stride2 g) :=
    hFz _ _ (by omega) (by omega) (by omega) (by omega) (by omega)
  have e3 : Fz (8 * c + By - stride2 g) = Fz (8 * c' + By - stride2 g) :=
    hFz _ _ (by omega) (by omega) (by omega) (by omega) (by omega)
  have f1 : Fy (8 * c + Bz) = Fy (8 * c' + Bz) :=
    hFy _ _ (by omega) (by omega) (by omega) (by omega) (by omega)
  have f2 : Fy (8 * c + Bz + stride3 g) = Fy (8 * c' + Bz + stride3 g) :=
    hFy _ _ (by omega) (by omega) (by omega) (by omega) (by omega)
  have f3 : Fy (8 * c + Bz - stride2 g) = Fy (8 * c' + Bz - stride2 g) :=
    hFy _ _ (by omega) (by omega) (by omega) (by omega) (by omega)
  have f4 : Fy (8 * c + Bz - stride2 g + stride3 g)
      = Fy (8 * c' + Bz - stride2 g + stride3 g) :=
    hFy _ _ (by omega) (by omega) (by omega) (by omega) (by omega)
  simp only [ct3d_FzBy]
  rw [if_pos ⟨by omega, by omega⟩, if_pos ⟨by omega, by omega⟩, e1, e2, e3, f1, f2, f3, f4]

/-- `FzBx` scratch congruence across cells (3-D pass). -/
theorem ct3d_FzBx_unif (g : Grid) (Fz Fx gs : ℕ → ℝ)
    (hFx : Unif8 Fx (stride1 g) (stride0 g - 2 * stride1 g))
    (hFz : Unif8 Fz (stride3 g) (stride0 g - 2 * stride3 g))
    (hzx : stride3 g ≤ stride1 g) (c c' : ℕ)
    (hc1 : 2 * stride1 g ≤ 8 * c)
    (hc2 : 8 * c + stride1 g + 2 * stride3 g + 8 ≤ stride0 g)
    (hc3 : 8 * c + stride3 g + 2 * stride1 g + 8 ≤ stride0 g)
    (hd1 : 2 * stride1 g ≤ 8 * c')
    (hd2 : 8 * c' + stride1 g + 2 * stride3 g + 8 ≤ stride0 g)
    (hd3 : 8 * c' + stride3 g + 2 * stride1 g + 8 ≤ stride0 g) :
    ct3d_FzBx g Fz Fx gs c = ct3d_FzBx g Fz Fx gs c' := by
  have hBx : Bx = 5 := rfl
  have hBz : Bz = 7 := rfl
  have h38 : stride3 g = 8 := rfl
  have h18 := stride1_mod8 g
  have h08 := stride0_mod8 g
  have e1 : Fz (8 * c + Bx) = Fz (8 * c' + Bx) :=
    hFz _ _ (by omega) (by omega) (by omega) (by omega) (by omega)
  have e2 : Fz (8 * c + Bx + stride1 g) = Fz (8 * c' + Bx + stride1 g) :=
    hFz _ _ (by omega) (by omega) (by omega) (by omega) (by omega)
  have e3 : Fz (8 * c + Bx - stride1 g) = Fz (8 * c' + Bx - stride1 g) :=
    hFz _ _ (by omega) (by omega) (by omega) (by omega) (by omega)
  have f1 : Fx (8 * c + Bz) = Fx (8 * c' + Bz) :=
    hFx _ _ (by omega) (by omega) (by omega) (by omega) (by omega)
  have f2 : Fx (8 * c + Bz + stride3 g) = Fx (8 * c' + Bz + stride3 g) :=
    hFx _ _ (by omega) (by omega) (by omega) (by omega) (by omega)
  have f3 : Fx (8 * c + Bz - stride1 g) = Fx (8 * c' + Bz - stride1 g) :=
    hFx _ _ (by omega) (by omega) (by omega) (by omega) (by omega)
  have f4 : Fx (8 * c + Bz + stride3 g - stride1 g)
      = Fx (8 * c' + Bz + stride3 g - stride1 g) :=
    hFx _ _ (by omega) (by omega) (by omega) (by omega) (by omega)
  simp only [ct3d_FzBx]
  rw [if_pos ⟨by omega, by omega⟩, if_pos ⟨by omega, by omega⟩, e1, e2, e3, f1, f2, f3, f4]

/-- `FxBz` scratch congruence across cells (3-D pass). -/
theorem ct3d_FxBz_unif (g : Grid) (Fz Fx gs : ℕ → ℝ)
    (hFx : Unif8 Fx (stride1 g) (stride0 g - 2 * stride1 g))
    (hFz : Unif8 Fz (stride3 g) (stride0 g - 2 * stride3 g))
    (hzx : stride3 g ≤ stride1 g) (c c' : ℕ)
    (hc1 : stride1 g + stride3 g ≤ 8 * c)
    (hc2 : 8 * c + stride3 g + 2 * stride1 g + 8 ≤ stride0 g)
    (hc3 : 8 * c + stride1 g + 2 * stride3 g + 8 ≤ stride0 g)
    (hd1 : stride1 g + stride3 g ≤ 8 * c')
    (hd2 : 8 * c' + stride3 g + 2 * stride1 g + 8 ≤ stride0 g)
    (hd3 : 8 * c' + stride1 g + 2 * stride3 g + 8 ≤ stride0 g) :
    ct3d_FxBz g Fz Fx gs c = ct3d_FxBz g Fz Fx gs c' := by
  have hBx : Bx = 5 := rfl
  have hBz : Bz = 7 := rfl
  have h38 : stride3 g = 8 := rfl
  have h18 := stride1_mod8 g
  have h08 := stride0_mod8 g
  have e1 : Fx (8 * c + Bz) = Fx (8 * c' + Bz) :=
    hFx _ _ (by omega) (by omega) (by omega) (by omega) (by omega)
  have e2 : Fx (8 * c + Bz + stride3 g) = Fx (8 * c' + Bz + stride3 g) :=
    hFx _ _ (by omega) (by omega) (by omega) (by omega) (by omega)
  have e3 : Fx (8 * c + Bz - stride3 g) = Fx (8 * c' + Bz - stride3 g) :=
    hFx _ _ (by omega) (by omega) (by omega) (by omega) (by omega)
  have f1 : Fz (8 * c + Bx) = Fz (8 * c' + Bx) :=
    hFz _ _ (by omega) (by omega) (by omega) (by omega) (by omega)
  have f2 : Fz (8 * c + Bx + stride1 g) = Fz (8 * c' + Bx + stride1 g) :=
    hFz _ _ (by omega) (by omega) (by omega) (by omega) (by omega)
  have f3 : Fz (8 * c + Bx - stride3 g) = Fz (8 * c' + Bx - stride3 g) :=
    hFz _ _ (by omega) (by omega) (by omega) (by omega) (by omega)
  have f4 : Fz (8 * c + Bx - stride3 g + stride1 g)
      = Fz (8 * c' + Bx - stride3 g + stride1 g) :=
    hFz _ _ (by omega) (by omega) (by omega) (by omega) (by omega)
  simp only [ct3d_FxBz]
  rw [if_pos ⟨by omega, by omega⟩, if_pos ⟨by omega, by omega⟩, e1, e2, e3, f1, f2, f3, f4]

/-- On slot-uniform flux arrays the 2-D constraint-transported x flux agrees
across an x-stride, deep enough inside the grid. -/
theorem ct2d_fst_shift (g : Grid) (Fx Fy gx gy : ℕ → ℝ)
    (hFx : Unif8 Fx (stride1 g) (stride0 g - 2 * stride1 g))
    (hFy : Unif8 Fy (stride2 g) (stride0 g - 2 * stride2 g))
    (hyx : stride2 g ≤ stride1 g) (i : ℕ)
    (hA : 2 * stride1 g + stride2 g + 8 ≤ i)
    (hB : i + 2 * stride1 g + stride2 g + 8 ≤ stride0 g)
    (hC : i + stride1 g + 2 * stride2 g + 8 ≤ stride0 g) :
    (constraint_transport_2d g Fx Fy gx gy).1 i
      = (constraint_transport_2d g Fx Fy gx gy).1 (i - stride1 g) := by
  have hBx : Bx = 5 := rfl
  have hBy : By = 6 := rfl
  have h18 := stride1_mod8 g
  have h28 := stride2_mod8 g
  have h08 := stride0_mod8 g
  have d1 : i < stride0 g := by omega
  have d2 : i - stride1 g < stride0 g := by omega
  have hm : (i - stride1 g) % 8 = i % 8 := by omega
  simp only [constraint_transport_2d]
  rw [if_pos d1, if_pos d2, hm]
  by_cases h5 : i % 8 = Bx
  · rw [if_pos h5, if_pos h5]
  by_cases h6 : i % 8 = By
  · rw [if_neg h5, if_pos h6, if_neg h5, if_pos h6]
    exact ct2d_FxBy_unif g Fx Fy gx hFx hFy hyx (i / 8) ((i - stride1 g) / 8)
      (by omega) (by omega) (by omega) (by omega) (by omega) (by omega)
  · rw [if_neg h5, if_neg h6, if_neg h5, if_neg h6]
    exact hFx i (i - stride1 g) (by omega) (by omega) (by omega) (by omega) (by omega)

/-- On slot-uniform flux arrays the 2-D constraint-transported y flux agrees
across a y-stride, deep enough inside the grid. -/
theorem ct2d_snd_shift (g : Grid) (Fx Fy gx gy : ℕ → ℝ)
    (hFx : Unif8 Fx (stride1 g) (stride0 g - 2 * stride1 g))
    (hFy : Unif8 Fy (stride2 g) (stride0 g - 2 * stride2 g))
    (hyx : stride2 g ≤ stride1 g) (i : ℕ)
    (hA : 2 * stride1 g + stride2 g + 8 ≤ i)
    (hB : i + 2 * stride1 g + stride2 g + 8 ≤ stride0 g)
    (hC : i + stride1 g + 2 * stride2 g + 8 ≤ stride0 g) :
    (constraint_transport_2d g Fx Fy gx gy).2 i
      = (constraint_transport_2d g Fx Fy gx gy).2 (i - stride2 g) := by
  have hBx : Bx = 5 := rfl
  have hBy : By = 6 := rfl
  have h18 := stride1_mod8 g
  have h28 := stride2_mod8 g
  have h08 := stride0_mod8 g
  have d1 : i < stride0 g := by omega
  have d2 : i - stride2 g < stride0 g := by omega
  have hm : (i - stride2 g) % 8 = i % 8 := by omega
  simp only [constraint_transport_2d]
  rw [if_pos d1, if_pos d2, hm]
  by_cases h5 : i % 8 = Bx
  · rw [if_pos h5, if_pos h5]
    exact ct2d_FyBx_unif g Fx Fy gy hFx hFy hyx (i / 8) ((i - stride2 g) / 8)
      (by omega) (by omega) (by omega) (by omega) (by omega) (by omega)
  by_cases h6 : i % 8 = By
  · rw [if_neg h5, if_pos h6, if_neg h5, if_pos h6]
  · rw [if_neg h5, if_neg h6, if_neg h5, if_neg h6]
    exact hFy i (i - stride2 g) (by omega) (by omega) (by omega) (by omega) (by omega)

/-- On slot-uniform flux arrays the 3-D constraint-transported x flux agrees
across an x-stride, deep enough inside the grid. -/
theorem ct3d_fst_shift (g : Grid) (Fx Fy Fz gxy gxz gyz gyx gzx gzy : ℕ → ℝ)
    (hFx : Unif8 Fx (stride1 g) (stride0 g - 2 * stride1 g))
    (hFy : Unif8 Fy (stride2 g) (stride0 g - 2 * stride2 g))
    (hFz : Unif8 Fz (stride3 g) (stride0 g - 2 * stride3 g))
    (hyx : stride2 g ≤ stride1 g) (hzy : stride3 g ≤ stride2 g) (i : ℕ)
    (hA : 2 * stride1 g + stride2 g + 8 ≤ i)
    (hB : i + 2 * stride1 g + stride2 g + 8 ≤ stride0 g)
    (hC : i + stride1 g + 2 * stride2 g + 8 ≤ stride0 g) :
    (constraint_transport_3d g Fx Fy Fz gxy gxz gyz gyx gzx gzy).1 i
      = (constraint_transport_3d g Fx Fy Fz gxy gxz gyz gyx gzx gzy).1 (i - stride1 g) := by
  have hBx : Bx = 5 := rfl
  have hBy : By = 6 := rfl
  have hBz : Bz = 7 := rfl
  have h38 : stride3 g = 8 := rfl
  have h18 := stride1_mod8 g
  have h28 := stride2_mod8 g
  have h08 := stride0_mod8 g
  have d1 : i < stride0 g := by omega
  have d2 : i - stride1 g < stride0 g := by omega
  have hm : (i - stride1 g) % 8 = i % 8 := by omega
  simp only [constraint_transport_3d, ct3d_FxBy_as_2d]
  rw [if_pos d1, if_pos d2, hm]
  by_cases h5 : i % 8 = Bx
  · rw [if_pos h5, if_pos h5]
  by_cases h6 : i % 8 = By
  · rw [if_neg h5, if_pos h6, if_neg h5, if_pos h6]
    exact ct2d_FxBy_unif g Fx Fy gxy hFx hFy hyx (i / 8) ((i - stride1 g) / 8)
      (by omega) (by omega) (by omega) (by omega) (by omega) (by omega)
  by_cases h7 : i % 8 = Bz
  · rw [if_neg h5, if_neg h6, if_pos h7, if_neg h5, if_neg h6, if_pos h7]
    exact ct3d_FxBz_unif g Fz Fx gxz hFx hFz (le_trans hzy hyx) (i / 8)
      ((i - stride1 g) / 8)
      (by omega) (by omega) (by omega) (by omega) (by omega) (by omega)
  · rw [if_neg h5, if_neg h6, if_neg h7, if_neg h5, if_neg h6, if_neg h7]
    exact hFx i (i - stride1 g) (by omega) (by omega) (by omega) (by omega) (by omega)

/-- On slot-uniform flux arrays the 3-D constraint-transported y flux agrees
across a y-stride, deep enough inside the grid. -/
theorem ct3d_snd_shift (g : Grid) (Fx Fy Fz gxy gxz gyz gyx gzx gzy : ℕ → ℝ)
    (hFx : Unif8 Fx (stride1 g) (stride0 g - 2 * stride1 g))
    (hFy : Unif8 Fy (stride2 g) (stride0 g - 2 * stride2 g))
    (hFz : Unif8 Fz (stride3 g) (stride0 g - 2 * stride3 g))
    (hyx : stride2 g ≤ stride1 g) (hzy : stride3 g ≤ stride2 g) (i : ℕ)
    (hA : 2 * stride1 g + stride2 g + 8 ≤ i)
    (hB : i + 2 * stride1 g + stride2 g + 8 ≤ stride0 g)
    (hC : i + stride1 g + 2 * stride2 g + 8 ≤ stride0 g) :
    (constraint_transport_3d g Fx Fy Fz gxy gxz gyz gyx gzx gzy).2.1 i
      = (constraint_transport_3d g Fx Fy Fz gxy gxz gyz gyx gzx gzy).2.1 (i - stride2 g) := by
  have hBx : Bx = 5 := rfl
  have hBy : By = 6 := rfl
  have hBz : Bz = 7 := rfl
  have h38 : stride3 g = 8 := rfl
  have h18 := stride1_mod8 g
  have h28 := stride2_mod8 g
  have h08 := stride0_mod8 g
  have d1 : i < stride0 g := by omega
  have d2 : i - stride2 g < stride0 g := by omega
  have hm : (i - stride2 g) % 8 = i % 8 := by omega
  simp only [constraint_transport_3d, ct3d_FyBx_as_2d]
  rw [if_pos d1, if_pos d2, hm]
  by_cases h5 : i % 8 = Bx
  · rw [if_pos h5, if_pos h5]
    exact ct2d_FyBx_unif g Fx Fy gyx hFx hFy hyx (i / 8) ((i - stride2 g) / 8)
      (by omega) (by omega) (by omega) (by omega) (by omega) (by omega)
  by_cases h6 : i % 8 = By
  · rw [if_neg h5, if_pos h6, if_neg h5, if_pos h6]
  by_cases h7 : i % 8 = Bz
  · rw [if_neg h5, if_neg h6, if_pos h7, if_neg h5, if_neg h6, if_pos h7]
    exact ct3d_FyBz_unif g Fy Fz gyz hFy hFz hzy (i / 8) ((i - stride2 g) / 8)
      (by omega) (by omega) (by omega) (by omega) (by omega)
      (by omega) (by omega) (by omega) (by omega) (by omega)
  · rw [if_neg h5, if_neg h6, if_neg h7, if_neg h5, if_neg h6, if_neg h7]
    exact hFy i (i - stride2 g) (by omega) (by omega) (by omega) (by omega) (by omega)

/-- On slot-uniform flux arrays the 3-D constraint-transported z flux agrees
across a z-stride, deep enough inside the grid. -/
theorem ct3d_thd_shift (g : Grid) (Fx Fy Fz gxy gxz gyz gyx gzx gzy : ℕ → ℝ)
    (hFx : Unif8 Fx (stride1 g) (stride0 g - 2 * stride1 g))
    (hFy : Unif8 Fy (stride2 g) (stride0 g - 2 * stride2 g))
    (hFz : Unif8 Fz (stride3 g) (stride0 g - 2 * stride3 g))
    (hyx : stride2 g ≤ stride1 g) (hzy : stride3 g ≤ stride2 g) (i : ℕ)
    (hA : 2 * stride1 g + stride2 g + 8 ≤ i)
    (hB : i + 2 * stride1 g + stride2 g + 8 ≤ stride0 g)
    (hC : i + stride1 g + 2 * stride2 g + 8 ≤ stride0 g) :
    (constraint_transport_3d g Fx Fy Fz gxy gxz gyz gyx gzx gzy).2.2 i
      = (constraint_transport_3d g Fx Fy Fz gxy gxz gyz gyx gzx gzy).2.2 (i - stride3 g) := by
  have hBx : Bx = 5 := rfl
  have hBy : By = 6 := rfl
  have hBz : Bz = 7 := rfl
  have h38 : stride3 g = 8 := rfl
  have h18 := stride1_mod8 g
  have h28 := stride2_mod8 g
  have h08 := stride0_mod8 g
  have d1 : i < stride0 g := by omega
  have d2 : i - stride3 g < stride0 g := by omega
  have hm : (i - stride3 g) % 8 = i % 8 := by omega
  simp only [constraint_transport_3d]
  rw [if_pos d1, if_pos d2, hm]
  by_cases h5 : i % 8 = Bx
  · rw [if_pos h5, if_pos h5]
    exact ct3d_FzBx_unif g Fz Fx gzx hFx hFz (le_trans hzy hyx) (i / 8)
      ((i - stride3 g) / 8)
      (by omega) (by omega) (by omega) (by omega) (by omega) (by omega)
  by_cases h6 : i % 8 = By
  · rw [if_neg h5, if_pos h6, if_neg h5, if_pos h6]
    exact ct3d_FzBy_unif g Fy Fz gzy hFy hFz hzy (i / 8) ((i - stride3 g) / 8)
      (by omega) (by omega) (by omega) (by omega) (by omega)
      (by omega) (by omega) (by omega) (by omega) (by omega)
  by_cases h7 : i % 8 = Bz
  · rw [if_neg h5, if_neg h6, if_pos h7, if_neg h5, if_neg h6, if_pos h7]
  · rw [if_neg h5, if_neg h6, if_neg h7, if_neg h5, if_neg h6, if_neg h7]
    exact hFz i (i - stride3 g) (by omega) (by omega) (by omega) (by omega) (by omega)

/-- 2-D uniform-field law: on slot-uniform inputs every component of every
cell whose x and y coordinates avoid the two guard layers of each boundary is
exactly zero in the output. -/
theorem dUdt_2d_uniform_zero (ext : ExtSolvers) (cfg : LibraryState) (g : Grid)
    (dx dy : ℝ) (U Pc ux0 uy0 uz0 gx gy L : ℕ → ℝ) (w0 cx cy cz : ℝ) (u p0 : St)
    (hhllc : cfg.mode_riemann_solver = RiemannSolverMode.HLLC →
      ∀ (d : ℕ) (a a' r r' : St) (s : ℝ), EqSt a a' → EqSt r r' →
        ext.hllc d a r s = ext.hllc d a' r' s)
    (hU : ∀ j, U j = u (j % 8)) (hP : ∀ j, Pc j = p0 (j % 8))
    (hx : ∀ c, ux0 c = cx) (hy : ∀ c, uy0 c = cy) (hz : ∀ c, uz0 c = cz)
    (x y z k : ℕ) (hxl : 2 ≤ x) (hxu : x + 3 ≤ g.Nx) (hyl : 2 ≤ y) (hyu : y + 3 ≤ g.Ny)
    (hzu : z < g.Nz) (hk : k < 8) :
    (dUdt_2d ext cfg g dx dy U Pc ux0 uy0 uz0 w0 gx gy L).2
      (((x * g.Ny + y) * g.Nz + z) * 8 + k) = 0 := by
  have hNy : 0 < g.Ny := by omega
  have hNz : 0 < g.Nz := by omega
  have hs1e : stride1 g = g.Ny * stride2 g := by
    simp only [stride1, stride2]; ring
  have hs2e : stride2 g = g.Nz * 8 := rfl
  have hs0e : stride0 g = g.Nx * stride1 g := by
    simp only [stride0, stride1]; ring
  have hyx : stride2 g ≤ stride1 g := by
    rw [hs1e]; exact Nat.le_mul_of_pos_left _ hNy
  have h8s2 : 8 ≤ stride2 g := by rw [hs2e]; omega
  have m1 : x * stride1 g + 3 * stride1 g ≤ g.Nx * stride1 g := by
    calc x * stride1 g + 3 * stride1 g = (x + 3) * stride1 g := by ring
      _ ≤ g.Nx * stride1 g := mul_le_mul_right' hxu _
  have m1l : 2 * stride1 g ≤ x * stride1 g := mul_le_mul_right' hxl _
  have m2 : y * stride2 g + 3 * stride2 g ≤ g.Ny * stride2 g := by
    calc y * stride2 g + 3 * stride2 g = (y + 3) * stride2 g := by ring
      _ ≤ g.Ny * stride2 g := mul_le_mul_right' hyu _
  have m2l : 2 * stride2 g ≤ y * stride2 g := mul_le_mul_right' hyl _
  have m3 : z * 8 + 8 ≤ g.Nz * 8 := by
    calc z * 8 + 8 = (z + 1) * 8 := by ring
      _ ≤ g.Nz * 8 := mul_le_mul_right' hzu _
  have hidx : ((x * g.Ny + y) * g.Nz + z) * 8 + k
      = x * stride1 g + y * stride2 g + z * 8 + k := by
    simp only [stride1, stride2]; ring
  have cA : 2 * stride1 g + stride2 g + 8 ≤ ((x * g.Ny + y) * g.Nz + z) * 8 + k := by
    rw [hidx]; linarith
  have cB : ((x * g.Ny + y) * g.Nz + z) * 8 + k + 2 * stride1 g + stride2 g + 8
      ≤ stride0 g := by
    rw [hidx, hs0e]; linarith
  have cC : ((x * g.Ny + y) * g.Nz + z) * 8 + k + stride1 g + 2 * stride2 g + 8
      ≤ stride0 g := by
    rw [hidx, hs0e]; linarith
  have cond1 : stride1 g ≤ ((x * g.Ny + y) * g.Nz + z) * 8 + k := by
    rw [hidx]; linarith
  have cond2 : ((x * g.Ny + y) * g.Nz + z) * 8 + k < stride0 g := by
    rw [hidx, hs0e]; linarith
  have hF := dUdt_sweep_unif ext cfg g 1 U Pc ux0 uy0 uz0 w0 cx cy cz u p0
    hhllc hU hP hx hy hz
  have hG := dUdt_sweep_unif ext cfg g 2 U Pc ux0 uy0 uz0 w0 cx cy cz u p0
    hhllc hU hP hx hy hz
  rw [strideOf_one] at hF
  rw [strideOf_two] at hG
  simp only [dUdt_2d]
  rw [if_pos ⟨cond1, cond2⟩]
  rw [ct2d_fst_shift g _ _ gx gy hF hG hyx _ cA cB cC,
    ct2d_snd_shift g _ _ gx gy hF hG hyx _ cA cB cC]
  simp

/-- 3-D uniform-field law: on slot-uniform inputs every component of every
cell whose three coordinates avoid the two guard layers of each boundary is
exactly zero in the output. -/
theorem dUdt_3d_uniform_zero (ext : ExtSolvers) (cfg : LibraryState) (g : Grid)
    (dx dy dz : ℝ) (U Pc ux0 uy0 uz0 gxy gxz gyz gyx gzx gzy L : ℕ → ℝ)
    (w0 cx cy cz : ℝ) (u p0 : St)
    (hhllc : cfg.mode_riemann_solver = RiemannSolverMode.HLLC →
      ∀ (d : ℕ) (a a' r r' : St) (s : ℝ), EqSt a a' → EqSt r r' →
        ext.hllc d a r s = ext.hllc d a' r' s)
    (hU : ∀ j, U j = u (j % 8)) (hP : ∀ j, Pc j = p0 (j % 8))
    (hx : ∀ c, ux0 c = cx) (hy : ∀ c, uy0 c = cy) (hz : ∀ c, uz0 c = cz)
    (x y z k : ℕ) (hxl : 2 ≤ x) (hxu : x + 3 ≤ g.Nx) (hyl : 2 ≤ y) (hyu : y + 3 ≤ g.Ny)
    (hzl : 2 ≤ z) (hzu3 : z + 3 ≤ g.Nz) (hk : k < 8) :
    (dUdt_3d ext cfg g dx dy dz U Pc ux0 uy0 uz0 w0 gxy gxz gyz gyx gzx gzy L).2
      (((x * g.Ny + y) * g.Nz + z) * 8 + k) = 0 := by
  have hzu : z < g.Nz := by omega
  have hNy : 0 < g.Ny := by omega
  have hNz : 0 < g.Nz := by omega
  have hs1e : stride1 g = g.Ny * stride2 g := by
    simp only [stride1, stride2]; ring
  have hs2e : stride2 g = g.Nz * 8 := rfl
  have hs3e : stride3 g = 8 := rfl
  have hs0e : stride0 g = g.Nx * stride1 g := by
    simp only [stride0, stride1]; ring
  have hyx : stride2 g ≤ stride1 g := by
    rw [hs1e]; exact Nat.le_mul_of_pos_left _ hNy
  have h8s2 : 8 ≤ stride2 g := by rw [hs2e]; omega
  have hzy : stride3 g ≤ stride2 g := by rw [hs3e]; exact h8s2
  have m1 : x * stride1 g + 3 * stride1 g ≤ g.Nx * stride1 g := by
    calc x * stride1 g + 3 * stride1 g = (x + 3) * stride1 g := by ring
      _ ≤ g.Nx * stride1 g := mul_le_mul_right' hxu _
  have m1l : 2 * stride1 g ≤ x * stride1 g := mul_le_mul_right' hxl _
  have m2 : y * stride2 g + 3 * stride2 g ≤ g.Ny * stride2 g := by
    calc y * stride2 g + 3 * stride2 g = (y + 3) * stride2 g := by ring
      _ ≤ g.Ny * stride2 g := mul_le_mul_right' hyu _
  have m2l : 2 * stride2 g ≤ y * stride2 g := mul_le_mul_right' hyl _
  have m3 : z * 8 + 8 ≤ g.Nz * 8 := by
    calc z * 8 + 8 = (z + 1) * 8 := by ring
      _ ≤ g.Nz * 8 := mul_le_mul_right' hzu _
  have hidx : ((x * g.Ny + y) * g.Nz + z) * 8 + k
      = x * stride1 g + y * stride2 g + z * 8 + k := by
    simp only [stride1, stride2]; ring
  have cA : 2 * stride1 g + stride2 g + 8 ≤ ((x * g.Ny + y) * g.Nz + z) * 8 + k := by
    rw [hidx]; linarith
  have cB : ((x * g.Ny + y) * g.Nz + z) * 8 + k + 2 * stride1 g + stride2 g + 8
      ≤ stride0 g := by
    rw [hidx, hs0e]; linarith
  have cC : ((x * g.Ny + y) * g.Nz + z) * 8 + k + stride1 g + 2 * stride2 g + 8
      ≤ stride0 g := by
    rw [hidx, hs0e]; linarith
  have cond1 : stride1 g ≤ ((x * g.Ny + y) * g.Nz + z) * 8 + k := by
    rw [hidx]; linarith
  have cond2 : ((x * g.Ny + y) * g.Nz + z) * 8 + k < stride0 g := by
    rw [hidx, hs0e]; linarith
  have hF := dUdt_sweep_unif ext cfg g 1 U Pc ux0 uy0 uz0 w0 cx cy cz u p0
    hhllc hU hP hx hy hz
  have hG := dUdt_sweep_unif ext cfg g 2 U Pc ux0 uy0 uz0 w0 cx cy cz u p0
    hhllc hU hP hx hy hz
  have hH := dUdt_sweep_unif ext cfg g 3 U Pc ux0 uy0 uz0 w0 cx cy cz u p0
    hhllc hU hP hx hy hz
  rw [strideOf_one] at hF
  rw [strideOf_two] at hG
  rw [strideOf_three] at hH
  simp only [dUdt_3d]
  rw [if_pos ⟨cond1, cond2⟩]
  rw [ct3d_fst_shift g _ _ _ gxy gxz gyz gyx gzx gzy hF hG hH hyx hzy _ cA cB cC,
    ct3d_snd_shift g _ _ _ gxy gxz gyz gyx gzx gzy hF hG hH hyx hzy _ cA cB cC,
    ct3d_thd_shift g _ _ _ gxy gxz gyz gyx gzx gzy hF hG hH hyx hzy _ cA cB cC]
  simp

-- The round trip at an arbitrary physical state: with the warm-start guess
-- equal to the generating primitives, both Newton residuals vanish, the
-- first pass converges, and the point inversion reports success.

/-- If both Newton residuals vanish, the update is zero (regardless of the
Jacobian, whose inverse multiplies the zero residual vector). -/
theorem c2p_dZW_zero (c : C2PCtx) (t : NewtonT)
    (hf1 : -c.S2 + (t.Z + c.B2) * (t.Z + c.B2) * (t.W * t.W - 1) / (t.W * t.W)
        - (2 * t.Z + c.B2) * (c.BS * c.BS) / (t.Z * t.Z) = 0)
    (hf2 : -c.Tau + t.Z + c.B2 - c2p_Pre c t - 0.5 * c.B2 / (t.W * t.W)
        - 0.5 * (c.BS * c.BS) / (t.Z * t.Z) - c.D = 0) :
    c2p_dZW c t = (0, 0) := by
  simp only [c2p_dZW]
  rw [hf1, hf2]
  simp

/-- A pass with zero update, implied pressure at or above the floor and the
iteration counter below the cap converges at once. -/
theorem c2p_step_done_head (c : C2PCtx) (t : NewtonT)
    (hdzw : c2p_dZW c t = (0, 0)) (hn : ¬ t.n = NEWTON_MAX_ITER)
    (hPre : PRES_FLOOR ≤ c2p_Pre c t) :
    c2p_step c t = C2PStep.done (c2p_Znew c t) (c2p_Wnew c t) t.pfloor (t.n + 1) := by
  have htol : |(c2p_dZW c t).1 / c2p_Znew c t| + |(c2p_dZW c t).2 / c2p_Wnew c t|
      < ERROR_TOLR := by
    rw [hdzw]
    norm_num [ERROR_TOLR]
  simp only [c2p_step]
  rw [if_pos ⟨htol, hPre⟩, if_neg hn]

/-- If the very first Newton pass has zero update and floor-satisfying
implied pressure, the point inversion returns 0 (success). -/
theorem cons_to_prim_point_done_ret (cfg : LibraryState) (U G : St) (w : ℝ)
    (hdzw : c2p_dZW (c2p_ctx cfg U G) (c2p_init (c2p_ctx cfg U G)) = (0, 0))
    (hPre : PRES_FLOOR ≤ c2p_Pre (c2p_ctx cfg U G) (c2p_init (c2p_ctx cfg U G))) :
    (cons_to_prim_point cfg U G w).1 = 0 := by
  have hn : ¬ (c2p_init (c2p_ctx cfg U G)).n = NEWTON_MAX_ITER := by
    simp [c2p_init, NEWTON_MAX_ITER]
  have hstep := c2p_step_done_head (c2p_ctx cfg U G) (c2p_init (c2p_ctx cfg U G))
    hdzw hn hPre
  simp only [cons_to_prim_point]
  rw [show C2P_FUEL = 59 + 1 from rfl, c2p_run_succ, hstep]

set_option maxHeartbeats 4000000 in
/-- The round trip at a physical state (positive density, pressure at or
above the floor, sub-luminal velocity) with the warm-start guess equal to
the generating primitive cell: the conserved-to-primitive inversion
converges on the first pass and reports success. -/
theorem c2p_round_trip_succeeds (cfg : LibraryState) (r p v1 v2 v3 b1 b2 b3 w : ℝ)
    (hest : cfg.cons_to_prim_use_estimate = false)
    (hgam : 1 < cfg.adiabatic_gamma)
    (hr : 0 < r) (hp : PRES_FLOOR ≤ p)
    (hv : v1 * v1 + v2 * v2 + v3 * v3 < 1) :
    (cons_to_prim_point cfg
      (prim_to_cons_point cfg.adiabatic_gamma (mkSt r p v1 v2 v3 b1 b2 b3))
      (mkSt r p v1 v2 v3 b1 b2 b3) w).1 = 0 := by
  have hp0 : (0:ℝ) < p := lt_of_lt_of_le (by norm_num [PRES_FLOOR]) hp
  have hr0 : r ≠ 0 := ne_of_gt hr
  have hg0 : cfg.adiabatic_gamma ≠ 0 := by positivity
  have hg1 : cfg.adiabatic_gamma - 1 ≠ 0 := ne_of_gt (by linarith)
  have hV1 : (0:ℝ) < 1 - (v1 * v1 + v2 * v2 + v3 * v3) := by linarith
  set s := Real.sqrt (1 - (v1 * v1 + v2 * v2 + v3 * v3)) with hsdef
  have hs0 : 0 < s := Real.sqrt_pos.mpr hV1
  have hsne : s ≠ 0 := ne_of_gt hs0
  have hss : s * s = 1 - (v1 * v1 + v2 * v2 + v3 * v3) := Real.mul_self_sqrt hV1.le
  have hsqrt : Real.sqrt (1 / (1 - (v1 * v1 + v2 * v2 + v3 * v3))) = 1 / s := by
    rw [one_div, Real.sqrt_inv, ← hsdef, one_div]
  set Qv := b1 * v1 + b2 * v2 + b3 * v3 with hQv
  set Bv2 := b1 * b1 + b2 * b2 + b3 * b3 with hBv2
  set en := 1 + p / (r * (cfg.adiabatic_gamma - 1)) + p / r with hen
  set Zv := r * en / (s * s) with hZv
  have hen0 : (0:ℝ) < en := by
    rw [hen]
    have h1 : (0:ℝ) < p / (r * (cfg.adiabatic_gamma - 1)) :=
      div_pos hp0 (mul_pos hr (by linarith))
    have h2 : (0:ℝ) < p / r := div_pos hp0 hr
    linarith
  have hZv0 : Zv ≠ 0 := by
    rw [hZv]
    exact ne_of_gt (div_pos (mul_pos hr hen0) (mul_pos hs0 hs0))
  have hDW : r / s / (1 / s) = r := by
    field_simp
  have hZDW : Zv / (r / s * (1 / s)) = en := by
    rw [hZv]
    field_simp
  have hPreVal : r / s / (1 / s) * (Zv / (r / s * (1 / s)) - 1)
      * ((cfg.adiabatic_gamma - 1) / cfg.adiabatic_gamma) = p := by
    rw [hDW, hZDW, hen]
    field_simp
    ring
  have hU0 : prim_to_cons_point cfg.adiabatic_gamma (mkSt r p v1 v2 v3 b1 b2 b3) 0
      = r / s := by
    simp only [prim_to_cons_point, eos_sie,
      rho_def, pre_def, vx_def, vy_def, vz_def, Bx_def, By_def, Bz_def,
      mkSt_at0, mkSt_at1, mkSt_at2, mkSt_at3, mkSt_at4, mkSt_at5, mkSt_at6, mkSt_at7]
    rw [hsqrt]
    ring
  have hU1 : prim_to_cons_point cfg.adiabatic_gamma (mkSt r p v1 v2 v3 b1 b2 b3) 1
      = Zv + Bv2 - p - (Bv2 / (1 / s * (1 / s)) + Qv * Qv) / 2 - r / s := by
    simp only [prim_to_cons_point, eos_sie,
      rho_def, pre_def, vx_def, vy_def, vz_def, Bx_def, By_def, Bz_def,
      mkSt_at0, mkSt_at1, mkSt_at2, mkSt_at3, mkSt_at4, mkSt_at5, mkSt_at6, mkSt_at7]
    rw [hsqrt, ← hss]
    simp only [hZv, hen, hBv2, hQv]
    field_simp
    ring
  have hU2 : prim_to_cons_point cfg.adiabatic_gamma (mkSt r p v1 v2 v3 b1 b2 b3) 2
      = (Zv + Bv2) * v1 - Qv * b1 := by
    simp only [prim_to_cons_point, eos_sie,
      rho_def, pre_def, vx_def, vy_def, vz_def, Bx_def, By_def, Bz_def,
      mkSt_at0, mkSt_at1, mkSt_at2, mkSt_at3, mkSt_at4, mkSt_at5, mkSt_at6, mkSt_at7]
    rw [hsqrt, ← hss]
    simp only [hZv, hen, hBv2, hQv]
    field_simp
    ring
  have hU3 : prim_to_cons_point cfg.adiabatic_gamma (mkSt r p v1 v2 v3 b1 b2 b3) 3
      = (Zv + Bv2) * v2 - Qv * b2 := by
    simp only [prim_to_cons_point, eos_sie,
      rho_def, pre_def, vx_def, vy_def, vz_def, Bx_def, By_def, Bz_def,
      mkSt_at0, mkSt_at1, mkSt_at2, mkSt_at3, mkSt_at4, mkSt_at5, mkSt_at6, mkSt_at7]
    rw [hsqrt, ← hss]
    simp only [hZv, hen, hBv2, hQv]
    field_simp
    ring
  have hU4 : prim_to_cons_point cfg.adiabatic_gamma (mkSt r p v1 v2 v3 b1 b2 b3) 4
      = (Zv + Bv2) * v3 - Qv * b3 := by
    simp only [prim_to_cons_point, eos_sie,
      rho_def, pre_def, vx_def, vy_def, vz_def, Bx_def, By_def, Bz_def,
      mkSt_at0, mkSt_at1, mkSt_at2, mkSt_at3, mkSt_at4, mkSt_at5, mkSt_at6, mkSt_at7]
    rw [hsqrt, ← hss]
    simp only [hZv, hen, hBv2, hQv]
    field_simp
    ring
  have hU5 : prim_to_cons_point cfg.adiabatic_gamma (mkSt r p v1 v2 v3 b1 b2 b3) 5
      = b1 := by
    simp only [prim_to_cons_point, Bx_def, mkSt_at5]
  have hU6 : prim_to_cons_point cfg.adiabatic_gamma (mkSt r p v1 v2 v3 b1 b2 b3) 6
      = b2 := by
    simp only [prim_to_cons_point, By_def, mkSt_at6]
  have hU7 : prim_to_cons_point cfg.adiabatic_gamma (mkSt r p v1 v2 v3 b1 b2 b3) 7
      = b3 := by
    simp only [prim_to_cons_point, Bz_def, mkSt_at7]
  have hctx : c2p_ctx cfg
      (prim_to_cons_point cfg.adiabatic_gamma (mkSt r p v1 v2 v3 b1 b2 b3))
      (mkSt r p v1 v2 v3 b1 b2 b3)
      = ⟨(cfg.adiabatic_gamma - 1) / cfg.adiabatic_gamma, r / s,
         Zv + Bv2 - p - (Bv2 / (1 / s * (1 / s)) + Qv * Qv) / 2 - r / s,
         ((Zv + Bv2) * v1 - Qv * b1) * ((Zv + Bv2) * v1 - Qv * b1)
           + ((Zv + Bv2) * v2 - Qv * b2) * ((Zv + Bv2) * v2 - Qv * b2)
           + ((Zv + Bv2) * v3 - Qv * b3) * ((Zv + Bv2) * v3 - Qv * b3),
         Bv2, Zv * Qv, 1 / s, Zv⟩ := by
    simp only [c2p_ctx, eos_sie, hest, Bool.false_eq_true, if_false,
      ddd_def, tau_def, Sx_def, Sy_def, Sz_def, Bx_def, By_def, Bz_def,
      rho_def, pre_def, vx_def, vy_def, vz_def,
      mkSt_at0, mkSt_at1, mkSt_at2, mkSt_at3, mkSt_at4, mkSt_at5, mkSt_at6, mkSt_at7]
    rw [hU0, hU1, hU2, hU3, hU4, hU5, hU6, hU7, ← hsdef]
    rw [C2PCtx.mk.injEq]
    refine ⟨rfl, rfl, rfl, rfl, by rw [hBv2], ?_, rfl, ?_⟩
    · simp only [hZv, hen, hBv2, hQv]
      ring
    · simp only [hZv, hen]
      rw [eq_div_iff (mul_ne_zero hsne hsne)]
      field_simp
      ring
  apply cons_to_prim_point_done_ret
  · rw [hctx]
    apply c2p_dZW_zero
    · simp only [c2p_init]
      have hkey : (1:ℝ) / s * (1 / s) - 1
          = 1 / s * (1 / s) * (v1 * v1 + v2 * v2 + v3 * v3) := by
        field_simp
        linear_combination -hss
      rw [hkey, hQv, hBv2]
      field_simp
      ring
    · simp only [c2p_init, c2p_Pre, Bool.false_eq_true, if_false]
      rw [hPreVal]
      field_simp
      ring
  · rw [hctx]
    have hpre2 : c2p_Pre
        (⟨(cfg.adiabatic_gamma - 1) / cfg.adiabatic_gamma, r / s,
          Zv + Bv2 - p - (Bv2 / (1 / s * (1 / s)) + Qv * Qv) / 2 - r / s,
          ((Zv + Bv2) * v1 - Qv * b1) * ((Zv + Bv2) * v1 - Qv * b1)
            + ((Zv + Bv2) * v2 - Qv * b2) * ((Zv + Bv2) * v2 - Qv * b2)
            + ((Zv + Bv2) * v3 - Qv * b3) * ((Zv + Bv2) * v3 - Qv * b3),
          Bv2, Zv * Qv, 1 / s, Zv⟩ : C2PCtx)
        (c2p_init ⟨(cfg.adiabatic_gamma - 1) / cfg.adiabatic_gamma, r / s,
          Zv + Bv2 - p - (Bv2 / (1 / s * (1 / s)) + Qv * Qv) / 2 - r / s,
          ((Zv + Bv2) * v1 - Qv * b1) * ((Zv + Bv2) * v1 - Qv * b1)
            + ((Zv + Bv2) * v2 - Qv * b2) * ((Zv + Bv2) * v2 - Qv * b2)
            + ((Zv + Bv2) * v3 - Qv * b3) * ((Zv + Bv2) * v3 - Qv * b3),
          Bv2, Zv * Qv, 1 / s, Zv⟩) = p := by
      simp only [c2p_init, c2p_Pre, Bool.false_eq_true, if_false]
      rw [hPreVal]
    rw [hpre2]
    exact hp

/-- C9: a spatially uniform conserved field yields an exactly zero interior
derivative field under each entry point.  (1) For every configuration, grid,
slot-uniform conserved field, slot-uniform cached primitive guesses and
constant 4-velocity caches (and, when the externally linked HLLC solver is
selected, assuming it reads only the eight slots of its interface states):
`dUdt_1d` vanishes at every output entry at least one x-stride inside the
written region, `dUdt_2d` and `dUdt_3d` vanish at every component of every
cell whose coordinates along the active axes avoid the two guard layers of
each boundary, and the reported failure count is the cell count times the
single-cell failure indicator.  (2) The single-cell inversion succeeds for
every physical uniform state (density > 0, pressure at or above the 1e-10
floor, sub-luminal velocity) under the warm start taken from the generating
primitives, so the failure count is then zero.  (3) In particular, the
uniform scenario density 1, pressure 1, velocity 0, B 0 on the 1-D 10-cell
grid with 2-cell guards yields all-zero interior output (entries 16 to 63)
and zero reported failures. -/
theorem dUdt_uniform_zero :
    (∀ (ext : ExtSolvers) (cfg : LibraryState) (g : Grid) (dx dy dz : ℝ)
        (U Pc ux0 uy0 uz0 gx gy gxy gxz gyz gyx gzx gzy L : ℕ → ℝ)
        (w0 cx cy cz : ℝ) (u p0 : St),
      (cfg.mode_riemann_solver = RiemannSolverMode.HLLC →
        ∀ (d : ℕ) (a a' rr rr' : St) (sp : ℝ), EqSt a a' → EqSt rr rr' →
          ext.hllc d a rr sp = ext.hllc d a' rr' sp) →
      (∀ j, U j = u (j % 8)) → (∀ j, Pc j = p0 (j % 8)) →
      (∀ c, ux0 c = cx) → (∀ c, uy0 c = cy) → (∀ c, uz0 c = cz) →
      (∀ i, 2 * stride1 g ≤ i → i < stride0 g - 2 * stride1 g →
        (dUdt_1d ext cfg g dx U Pc ux0 uy0 uz0 w0 L).2 i = 0)
      ∧ (∀ x y z k, 2 ≤ x → x + 3 ≤ g.Nx → 2 ≤ y → y + 3 ≤ g.Ny → z < g.Nz → k < 8 →
        (dUdt_2d ext cfg g dx dy U Pc ux0 uy0 uz0 w0 gx gy L).2
          (((x * g.Ny + y) * g.Nz + z) * 8 + k) = 0)
      ∧ (∀ x y z k, 2 ≤ x → x + 3 ≤ g.Nx → 2 ≤ y → y + 3 ≤ g.Ny → 2 ≤ z →
          z + 3 ≤ g.Nz → k < 8 →
        (dUdt_3d ext cfg g dx dy dz U Pc ux0 uy0 uz0 w0 gxy gxz gyz gyx gzx gzy L).2
          (((x * g.Ny + y) * g.Nz + z) * 8 + k) = 0)
      ∧ (dUdt_1d ext cfg g dx U Pc ux0 uy0 uz0 w0 L).1
          = stride0 g / 8
            * (cons_to_prim_point cfg (fun k => u (k % 8)) (fun k => p0 (k % 8)) w0).1)
    ∧ (∀ (cfg : LibraryState) (r p vv1 vv2 vv3 bb1 bb2 bb3 w : ℝ),
      cfg.cons_to_prim_use_estimate = false → 1 < cfg.adiabatic_gamma →
      0 < r → PRES_FLOOR ≤ p → vv1 * vv1 + vv2 * vv2 + vv3 * vv3 < 1 →
      (cons_to_prim_point cfg
        (prim_to_cons_point cfg.adiabatic_gamma (mkSt r p vv1 vv2 vv3 bb1 bb2 bb3))
        (mkSt r p vv1 vv2 vv3 bb1 bb2 bb3) w).1 = 0)
    ∧ (∀ (dx : ℝ) (L : ℕ → ℝ),
      (∀ i, 16 ≤ i → i < 64 →
        (dUdt_1d trivialExt default_state c9_grid dx (fun j => c9_U (j % 8))
          (fun j => c9_P (j % 8)) (fun _ => 0) (fun _ => 0) (fun _ => 0) 1 L).2 i = 0)
      ∧ (dUdt_1d trivialExt default_state c9_grid dx (fun j => c9_U (j % 8))
          (fun j => c9_P (j % 8)) (fun _ => 0) (fun _ => 0) (fun _ => 0) 1 L).1 = 0) := by
  refine ⟨?_, ?_, ?_⟩
  · intro ext cfg g dx dy dz U Pc ux0 uy0 uz0 gx gy gxy gxz gyz gyx gzx gzy L
      w0 cx cy cz u p0 hhllc hU hP hx hy hz
    refine ⟨fun i h1 h2 => dUdt_1d_uniform_zero ext cfg g dx U Pc ux0 uy0 uz0 L
        w0 cx cy cz u p0 hhllc hU hP hx hy hz i h1 h2,
      fun x y z k hxl hxu hyl hyu hzu hk => dUdt_2d_uniform_zero ext cfg g dx dy
        U Pc ux0 uy0 uz0 gx gy L w0 cx cy cz u p0 hhllc hU hP hx hy hz
        x y z k hxl hxu hyl hyu hzu hk,
      fun x y z k hxl hxu hyl hyu hzl hzu hk => dUdt_3d_uniform_zero ext cfg g dx dy dz
        U Pc ux0 uy0 uz0 gxy gxz gyz gyx gzx gzy L w0 cx cy cz u p0 hhllc hU hP hx hy hz
        x y z k hxl hxu hyl hyu hzl hzu hk,
      ?_⟩
    simp only [dUdt_1d]
    exact dUdt_uniform_failures cfg g U Pc ux0 uy0 uz0 w0 cx cy cz u p0 hU hP hx hy hz
  · intro cfg r p vv1 vv2 vv3 bb1 bb2 bb3 w hest hgam hr hp hv
    exact c2p_round_trip_succeeds cfg r p vv1 vv2 vv3 bb1 bb2 bb3 w hest hgam hr hp hv
  · intro dx L
    constructor
    · intro i h16 h64
      apply dUdt_1d_uniform_zero trivialExt default_state c9_grid dx _ _ _ _ _ L 1
        0 0 0 c9_U c9_P (fun h => RiemannSolverMode.noConfusion h)
        (fun j => rfl) (fun j => rfl) (fun c => rfl) (fun c => rfl) (fun c => rfl) i
      · show 2 * stride1 c9_grid ≤ i
        have h1 : stride1 c9_grid = 8 := rfl
        omega
      · show i < stride0 c9_grid - 2 * stride1 c9_grid
        have h0 : stride0 c9_grid = 80 := rfl
        have h1 : stride1 c9_grid = 8 := rfl
        omega
    · have hpt : (cons_to_prim_point default_state (fun k => c9_U (k % 8))
          (fun k => c9_P (k % 8)) 1).1 = 0 := by
        have hrt := c2p_round_trip_succeeds default_state 1 1 0 0 0 0 0 0 1 rfl
          (by norm_num [default_state]) (by norm_num) (by norm_num [PRES_FLOOR])
          (by norm_num)
        have hctxeq : c2p_ctx default_state (fun k => c9_U (k % 8))
              (fun k => c9_P (k % 8))
            = c2p_ctx default_state
              (prim_to_cons_point default_state.adiabatic_gamma (mkSt 1 1 0 0 0 0 0 0))
              (mkSt 1 1 0 0 0 0 0 0) := by
          apply c2p_ctx_slots
          · intro j hj
            show c9_U (j % 8)
              = prim_to_cons_point default_state.adiabatic_gamma (mkSt 1 1 0 0 0 0 0 0) j
            rw [show prim_to_cons_point default_state.adiabatic_gamma
                (mkSt 1 1 0 0 0 0 0 0) = c9_U from rfl, Nat.mod_eq_of_lt hj]
          · intro j hj
            show c9_P (j % 8) = mkSt 1 1 0 0 0 0 0 0 j
            rw [show (mkSt 1 1 0 0 0 0 0 0 : St) = c9_P from rfl, Nat.mod_eq_of_lt hj]
        exact (cons_to_prim_point_ret_congr default_state _ _ _ _ 1 1 hctxeq).trans hrt
      simp only [dUdt_1d]
      rw [dUdt_uniform_failures default_state c9_grid _ _ _ _ _ 1 0 0 0 c9_U c9_P
        (fun j => rfl) (fun j => rfl) (fun c => rfl) (fun c => rfl) (fun c => rfl), hpt]
      simp

/-- C9 witness: the general law instantiated on the scenario (trivial
external solvers, default configuration, the 10-cell 1-D grid, the uniform
unit rest state), and the scenario conjunct at the first interior entry. -/
theorem dUdt_uniform_zero_witness :
    (dUdt_1d trivialExt default_state c9_grid 1 (fun j => c9_U (j % 8))
      (fun j => c9_P (j % 8)) (fun _ => 0) (fun _ => 0) (fun _ => 0) 1 (fun _ => 7)).2 16 = 0
    ∧ (dUdt_1d trivialExt default_state c9_grid 1 (fun j => c9_U (j % 8))
      (fun j => c9_P (j % 8)) (fun _ => 0) (fun _ => 0) (fun _ => 0) 1 (fun _ => 7)).1 = 0
    ∧ (cons_to_prim_point default_state
        (prim_to_cons_point default_state.adiabatic_gamma (mkSt 1 1 0 0 0 0 0 0))
        (mkSt 1 1 0 0 0 0 0 0) 1).1 = 0 :=
  ⟨(dUdt_uniform_zero.2.2 1 (fun _ => 7)).1 16 (by decide) (by decide),
   (dUdt_uniform_zero.2.2 1 (fun _ => 7)).2,
   dUdt_uniform_zero.2.1 default_state 1 1 0 0 0 0 0 0 1 rfl
     (by norm_num [default_state]) (by norm_num) (by norm_num [PRES_FLOOR]) (by norm_num)⟩

set_option maxHeartbeats 4000000 in
/-- C8 (amended): the round trip is exact at the Newton root for every
physical state, moving and magnetized included.  (1) For every configuration
with adiabatic index above 1 and every physical primitive state — density
above 0, pressure at or above the 1e-10 floor, sub-luminal velocity of any
direction, arbitrary magnetic field — at the generating unknowns
Z = rho*h*W^2 and W (the true Lorentz factor) both Newton residuals of the
inversion of its conserved image vanish identically, the implied pressure is
exactly the original pressure, and the success-branch recovery formulas
return exactly the original primitive cell, whatever the guess cell: the
conserved-to-primitive recovery inverts prim_to_cons_point exactly at the
root.  (2) Under the fresh conserved-derived estimate the iteration starts
exactly at that root for every rest-frame state, with arbitrary magnetic
field: there the full round trip succeeds and recovers the state exactly,
provided Z = rho + gamma*p/(gamma-1) stays below the 1e20 clamp and the
first Newton update is at least the 1e-6 tolerance (a pressure negligible
against the density instead diverts the solver into the pressure-floor
variant, see the counterexample). -/
theorem cons_to_prim_round_trip_exact :
    (∀ (cfg : LibraryState) (r p v1 v2 v3 b1 b2 b3 : ℝ) (G : St) (n : ℕ),
      1 < cfg.adiabatic_gamma → 0 < r → PRES_FLOOR ≤ p →
      v1 * v1 + v2 * v2 + v3 * v3 < 1 →
      c2p_dZW (c2p_ctx cfg (prim_to_cons_point cfg.adiabatic_gamma
            (mkSt r p v1 v2 v3 b1 b2 b3)) G)
          ⟨r * (1 + p / (r * (cfg.adiabatic_gamma - 1)) + p / r)
              / (1 - (v1 * v1 + v2 * v2 + v3 * v3)),
            1 / Real.sqrt (1 - (v1 * v1 + v2 * v2 + v3 * v3)), n, false⟩ = (0, 0)
      ∧ c2p_Pre (c2p_ctx cfg (prim_to_cons_point cfg.adiabatic_gamma
            (mkSt r p v1 v2 v3 b1 b2 b3)) G)
          ⟨r * (1 + p / (r * (cfg.adiabatic_gamma - 1)) + p / r)
              / (1 - (v1 * v1 + v2 * v2 + v3 * v3)),
            1 / Real.sqrt (1 - (v1 * v1 + v2 * v2 + v3 * v3)), n, false⟩ = p
      ∧ mkSt
          ((c2p_ctx cfg (prim_to_cons_point cfg.adiabatic_gamma
              (mkSt r p v1 v2 v3 b1 b2 b3)) G).D
            / (1 / Real.sqrt (1 - (v1 * v1 + v2 * v2 + v3 * v3))))
          ((c2p_ctx cfg (prim_to_cons_point cfg.adiabatic_gamma
              (mkSt r p v1 v2 v3 b1 b2 b3)) G).D
            / (1 / Real.sqrt (1 - (v1 * v1 + v2 * v2 + v3 * v3)))
            * (r * (1 + p / (r * (cfg.adiabatic_gamma - 1)) + p / r)
                / (1 - (v1 * v1 + v2 * v2 + v3 * v3))
              / ((c2p_ctx cfg (prim_to_cons_point cfg.adiabatic_gamma
                  (mkSt r p v1 v2 v3 b1 b2 b3)) G).D
                * (1 / Real.sqrt (1 - (v1 * v1 + v2 * v2 + v3 * v3)))) - 1)
            * (c2p_ctx cfg (prim_to_cons_point cfg.adiabatic_gamma
                (mkSt r p v1 v2 v3 b1 b2 b3)) G).gamf)
          ((prim_to_cons_point cfg.adiabatic_gamma (mkSt r p v1 v2 v3 b1 b2 b3) Sx
              + (c2p_ctx cfg (prim_to_cons_point cfg.adiabatic_gamma
                  (mkSt r p v1 v2 v3 b1 b2 b3)) G).BS
                * (1 / Real.sqrt (1 - (v1 * v1 + v2 * v2 + v3 * v3)))
                / (r * (1 + p / (r * (cfg.adiabatic_gamma - 1)) + p / r)
                  / (1 - (v1 * v1 + v2 * v2 + v3 * v3)))
                * prim_to_cons_point cfg.adiabatic_gamma (mkSt r p v1 v2 v3 b1 b2 b3) Bx
                / (1 / Real.sqrt (1 - (v1 * v1 + v2 * v2 + v3 * v3))))
            / (r * (1 + p / (r * (cfg.adiabatic_gamma - 1)) + p / r)
                / (1 - (v1 * v1 + v2 * v2 + v3 * v3))
              + (c2p_ctx cfg (prim_to_cons_point cfg.adiabatic_gamma
                  (mkSt r p v1 v2 v3 b1 b2 b3)) G).B2))
          ((prim_to_cons_point cfg.adiabatic_gamma (mkSt r p v1 v2 v3 b1 b2 b3) Sy
              + (c2p_ctx cfg (prim_to_cons_point cfg.adiabatic_gamma
                  (mkSt r p v1 v2 v3 b1 b2 b3)) G).BS
                * (1 / Real.sqrt (1 - (v1 * v1 + v2 * v2 + v3 * v3)))
                / (r * (1 + p / (r * (cfg.adiabatic_gamma - 1)) + p / r)
                  / (1 - (v1 * v1 + v2 * v2 + v3 * v3)))
                * prim_to_cons_point cfg.adiabatic_gamma (mkSt r p v1 v2 v3 b1 b2 b3) By
                / (1 / Real.sqrt (1 - (v1 * v1 + v2 * v2 + v3 * v3))))
            / (r * (1 + p / (r * (cfg.adiabatic_gamma - 1)) + p / r)
                / (1 - (v1 * v1 + v2 * v2 + v3 * v3))
              + (c2p_ctx cfg (prim_to_cons_point cfg.adiabatic_gamma
                  (mkSt r p v1 v2 v3 b1 b2 b3)) G).B2))
          ((prim_to_cons_point cfg.adiabatic_gamma (mkSt r p v1 v2 v3 b1 b2 b3) Sz
              + (c2p_ctx cfg (prim_to_cons_point cfg.adiabatic_gamma
                  (mkSt r p v1 v2 v3 b1 b2 b3)) G).BS
                * (1 / Real.sqrt (1 - (v1 * v1 + v2 * v2 + v3 * v3)))
                / (r * (1 + p / (r * (cfg.adiabatic_gamma - 1)) + p / r)
                  / (1 - (v1 * v1 + v2 * v2 + v3 * v3)))
                * prim_to_cons_point cfg.adiabatic_gamma (mkSt r p v1 v2 v3 b1 b2 b3) Bz
                / (1 / Real.sqrt (1 - (v1 * v1 + v2 * v2 + v3 * v3))))
            / (r * (1 + p / (r * (cfg.adiabatic_gamma - 1)) + p / r)
                / (1 - (v1 * v1 + v2 * v2 + v3 * v3))
              + (c2p_ctx cfg (prim_to_cons_point cfg.adiabatic_gamma
                  (mkSt r p v1 v2 v3 b1 b2 b3)) G).B2))
          (prim_to_cons_point cfg.adiabatic_gamma (mkSt r p v1 v2 v3 b1 b2 b3) Bx)
          (prim_to_cons_point cfg.adiabatic_gamma (mkSt r p v1 v2 v3 b1 b2 b3) By)
          (prim_to_cons_point cfg.adiabatic_gamma (mkSt r p v1 v2 v3 b1 b2 b3) Bz)
        = mkSt r p v1 v2 v3 b1 b2 b3)
    ∧ (∀ (r p b1 b2 b3 : ℝ) (G : St) (w : ℝ),
      0 < r → PRES_FLOOR ≤ p → r + 7 / 2 * p < 1e20 →
      ERROR_TOLR ≤ 7 / 2 * p / (r + 7 / 2 * p) →
      cons_to_prim_point state_est
          (prim_to_cons_point state_est.adiabatic_gamma (mkSt r p 0 0 0 b1 b2 b3)) G w
        = (0, mkSt r p 0 0 0 b1 b2 b3, 1)) := by
  refine ⟨?_, ?_⟩
  · intro cfg r p v1 v2 v3 b1 b2 b3 G n hgam hr hp hv
    have hp0 : (0:ℝ) < p := lt_of_lt_of_le (by norm_num [PRES_FLOOR]) hp
    have hr0 : r ≠ 0 := ne_of_gt hr
    have hg0 : cfg.adiabatic_gamma ≠ 0 := by positivity
    have hg1 : cfg.adiabatic_gamma - 1 ≠ 0 := ne_of_gt (by linarith)
    have hV1 : (0:ℝ) < 1 - (v1 * v1 + v2 * v2 + v3 * v3) := by linarith
    set s := Real.sqrt (1 - (v1 * v1 + v2 * v2 + v3 * v3)) with hsdef
    have hs0 : 0 < s := Real.sqrt_pos.mpr hV1
    have hsne : s ≠ 0 := ne_of_gt hs0
    have hss : s * s = 1 - (v1 * v1 + v2 * v2 + v3 * v3) := Real.mul_self_sqrt hV1.le
    have hsqrt : Real.sqrt (1 / (1 - (v1 * v1 + v2 * v2 + v3 * v3))) = 1 / s := by
      rw [one_div, Real.sqrt_inv, ← hsdef, one_div]
    set Qv := b1 * v1 + b2 * v2 + b3 * v3 with hQv
    set Bv2 := b1 * b1 + b2 * b2 + b3 * b3 with hBv2
    set en := 1 + p / (r * (cfg.adiabatic_gamma - 1)) + p / r with hen
    set Zv := r * en / (s * s) with hZv
    have hen0 : (0:ℝ) < en := by
      rw [hen]
      have h1 : (0:ℝ) < p / (r * (cfg.adiabatic_gamma - 1)) :=
        div_pos hp0 (mul_pos hr (by linarith))
      have h2 : (0:ℝ) < p / r := div_pos hp0 hr
      linarith
    have hZvpos : (0:ℝ) < Zv := by
      rw [hZv]
      exact div_pos (mul_pos hr hen0) (mul_pos hs0 hs0)
    have hZv0 : Zv ≠ 0 := ne_of_gt hZvpos
    have hBv2nn : (0:ℝ) ≤ Bv2 := by
      rw [hBv2]
      exact add_nonneg (add_nonneg (mul_self_nonneg b1) (mul_self_nonneg b2))
        (mul_self_nonneg b3)
    have hZB : Zv + Bv2 ≠ 0 := ne_of_gt (add_pos_of_pos_of_nonneg hZvpos hBv2nn)
    have hZs : r * en / (1 - (v1 * v1 + v2 * v2 + v3 * v3)) = Zv := by
      rw [hZv, hss]
    have hDW : r / s / (1 / s) = r := by
      field_simp
    have hZDW : Zv / (r / s * (1 / s)) = en := by
      rw [hZv]
      field_simp
    have hPreVal : r / s / (1 / s) * (Zv / (r / s * (1 / s)) - 1)
        * ((cfg.adiabatic_gamma - 1) / cfg.adiabatic_gamma) = p := by
      rw [hDW, hZDW, hen]
      field_simp
      ring
    have hU0 : prim_to_cons_point cfg.adiabatic_gamma (mkSt r p v1 v2 v3 b1 b2 b3) 0
        = r / s := by
      simp only [prim_to_cons_point, eos_sie,
        rho_def, pre_def, vx_def, vy_def, vz_def, Bx_def, By_def, Bz_def,
        mkSt_at0, mkSt_at1, mkSt_at2, mkSt_at3, mkSt_at4, mkSt_at5, mkSt_at6, mkSt_at7]
      rw [hsqrt]
      ring
    have hU1 : prim_to_cons_point cfg.adiabatic_gamma (mkSt r p v1 v2 v3 b1 b2 b3) 1
        = Zv + Bv2 - p - (Bv2 / (1 / s * (1 / s)) + Qv * Qv) / 2 - r / s := by
      simp only [prim_to_cons_point, eos_sie,
        rho_def, pre_def, vx_def, vy_def, vz_def, Bx_def, By_def, Bz_def,
        mkSt_at0, mkSt_at1, mkSt_at2, mkSt_at3, mkSt_at4, mkSt_at5, mkSt_at6, mkSt_at7]
      rw [hsqrt, ← hss]
      simp only [hZv, hen, hBv2, hQv]
      field_simp
      ring
    have hU2 : prim_to_cons_point cfg.adiabatic_gamma (mkSt r p v1 v2 v3 b1 b2 b3) 2
        = (Zv + Bv2) * v1 - Qv * b1 := by
      simp only [prim_to_cons_point, eos_sie,
        rho_def, pre_def, vx_def, vy_def, vz_def, Bx_def, By_def, Bz_def,
        mkSt_at0, mkSt_at1, mkSt_at2, mkSt_at3, mkSt_at4, mkSt_at5, mkSt_at6, mkSt_at7]
      rw [hsqrt, ← hss]
      simp only [hZv, hen, hBv2, hQv]
      field_simp
      ring
    have hU3 : prim_to_cons_point cfg.adiabatic_gamma (mkSt r p v1 v2 v3 b1 b2 b3) 3
        = (Zv + Bv2) * v2 - Qv * b2 := by
      simp only [prim_to_cons_point, eos_sie,
        rho_def, pre_def, vx_def, vy_def, vz_def, Bx_def, By_def, Bz_def,
        mkSt_at0, mkSt_at1, mkSt_at2, mkSt_at3, mkSt_at4, mkSt_at5, mkSt_at6, mkSt_at7]
      rw [hsqrt, ← hss]
      simp only [hZv, hen, hBv2, hQv]
      field_simp
      ring
    have hU4 : prim_to_cons_point cfg.adiabatic_gamma (mkSt r p v1 v2 v3 b1 b2 b3) 4
        = (Zv + Bv2) * v3 - Qv * b3 := by
      simp only [prim_to_cons_point, eos_sie,
        rho_def, pre_def, vx_def, vy_def, vz_def, Bx_def, By_def, Bz_def,
        mkSt_at0, mkSt_at1, mkSt_at2, mkSt_at3, mkSt_at4, mkSt_at5, mkSt_at6, mkSt_at7]
      rw [hsqrt, ← hss]
      simp only [hZv, hen, hBv2, hQv]
      field_simp
      ring
    have hU5 : prim_to_cons_point cfg.adiabatic_gamma (mkSt r p v1 v2 v3 b1 b2 b3) 5
        = b1 := by
      simp only [prim_to_cons_point, Bx_def, mkSt_at5]
    have hU6 : prim_to_cons_point cfg.adiabatic_gamma (mkSt r p v1 v2 v3 b1 b2 b3) 6
        = b2 := by
      simp only [prim_to_cons_point, By_def, mkSt_at6]
    have hU7 : prim_to_cons_point cfg.adiabatic_gamma (mkSt r p v1 v2 v3 b1 b2 b3) 7
        = b3 := by
      simp only [prim_to_cons_point, Bz_def, mkSt_at7]
    have hcgam : (c2p_ctx cfg (prim_to_cons_point cfg.adiabatic_gamma
        (mkSt r p v1 v2 v3 b1 b2 b3)) G).gamf
        = (cfg.adiabatic_gamma - 1) / cfg.adiabatic_gamma := by
      simp only [c2p_ctx]
    have hcD : (c2p_ctx cfg (prim_to_cons_point cfg.adiabatic_gamma
        (mkSt r p v1 v2 v3 b1 b2 b3)) G).D = r / s := by
      simp only [c2p_ctx, ddd_def]
      exact hU0
    have hcTau : (c2p_ctx cfg (prim_to_cons_point cfg.adiabatic_gamma
        (mkSt r p v1 v2 v3 b1 b2 b3)) G).Tau
        = Zv + Bv2 - p - (Bv2 / (1 / s * (1 / s)) + Qv * Qv) / 2 - r / s := by
      simp only [c2p_ctx, tau_def]
      exact hU1
    have hcS2 : (c2p_ctx cfg (prim_to_cons_point cfg.adiabatic_gamma
        (mkSt r p v1 v2 v3 b1 b2 b3)) G).S2
        = ((Zv + Bv2) * v1 - Qv * b1) * ((Zv + Bv2) * v1 - Qv * b1)
          + ((Zv + Bv2) * v2 - Qv * b2) * ((Zv + Bv2) * v2 - Qv * b2)
          + ((Zv + Bv2) * v3 - Qv * b3) * ((Zv + Bv2) * v3 - Qv * b3) := by
      simp only [c2p_ctx, Sx_def, Sy_def, Sz_def]
      rw [hU2, hU3, hU4]
    have hcB2 : (c2p_ctx cfg (prim_to_cons_point cfg.adiabatic_gamma
        (mkSt r p v1 v2 v3 b1 b2 b3)) G).B2 = Bv2 := by
      simp only [c2p_ctx, Bx_def, By_def, Bz_def]
      rw [hU5, hU6, hU7, hBv2]
    have hcBS : (c2p_ctx cfg (prim_to_cons_point cfg.adiabatic_gamma
        (mkSt r p v1 v2 v3 b1 b2 b3)) G).BS = Zv * Qv := by
      simp only [c2p_ctx, Bx_def, By_def, Bz_def, Sx_def, Sy_def, Sz_def]
      rw [hU5, hU6, hU7, hU2, hU3, hU4]
      simp only [hQv, hBv2]
      ring
    have hPre : c2p_Pre (c2p_ctx cfg (prim_to_cons_point cfg.adiabatic_gamma
        (mkSt r p v1 v2 v3 b1 b2 b3)) G)
        ⟨r * en / (1 - (v1 * v1 + v2 * v2 + v3 * v3)), 1 / s, n, false⟩ = p := by
      simp only [c2p_Pre, Bool.false_eq_true, if_false]
      rw [hcD, hcgam, hZs]
      exact hPreVal
    have hdzw : c2p_dZW (c2p_ctx cfg (prim_to_cons_point cfg.adiabatic_gamma
        (mkSt r p v1 v2 v3 b1 b2 b3)) G)
        ⟨r * en / (1 - (v1 * v1 + v2 * v2 + v3 * v3)), 1 / s, n, false⟩ = (0, 0) := by
      apply c2p_dZW_zero
      · dsimp only
        rw [hcS2, hcB2, hcBS, hZs]
        have hkey : (1:ℝ) / s * (1 / s) - 1
            = 1 / s * (1 / s) * (v1 * v1 + v2 * v2 + v3 * v3) := by
          field_simp
          linear_combination -hss
        rw [hkey, hQv, hBv2]
        field_simp
        ring
      · dsimp only
        rw [hPre, hcTau, hcB2, hcBS, hcD, hZs]
        field_simp
        ring
    refine ⟨hdzw, hPre, ?_⟩
    apply mkSt_congr
    · rw [hcD]
      exact hDW
    · rw [hcD, hcgam, hZs]
      exact hPreVal
    · simp only [Sx_def, Bx_def]
      rw [hU2, hU5, hcBS, hcB2, hZs]
      field_simp
      ring
    · simp only [Sy_def, By_def]
      rw [hU3, hU6, hcBS, hcB2, hZs]
      field_simp
      ring
    · simp only [Sz_def, Bz_def]
      rw [hU4, hU7, hcBS, hcB2, hZs]
      field_simp
      ring
    · simp only [Bx_def]
      exact hU5
    · simp only [By_def]
      exact hU6
    · simp only [Bz_def]
      exact hU7
  · intro r p b1 b2 b3 G w hr hp hbig htol
    exact c2p_rest_round_trip_B r p b1 b2 b3 hr hp hbig htol G w

/-- C8 witness: the moving magnetized physical state with density 1,
pressure 1, velocity (3/5, 0, 0) and magnetic field (1, 1, 0) instantiates
the exact-root part — both Newton residuals vanish, the implied pressure is
1 and the recovery formulas return the state exactly — and the magnetized
rest state with density 1, pressure 1 and field (1, 0, 0) instantiates the
full fresh-estimate round trip. -/
theorem cons_to_prim_round_trip_exact_witness :
    ((1:ℝ) < state_est.adiabatic_gamma
      ∧ (0:ℝ) < 1 ∧ PRES_FLOOR ≤ (1:ℝ)
      ∧ (3:ℝ) / 5 * (3 / 5) + 0 * 0 + 0 * 0 < 1
      ∧ (1:ℝ) + 7 / 2 * 1 < 1e20
      ∧ ERROR_TOLR ≤ 7 / 2 * 1 / ((1:ℝ) + 7 / 2 * 1))
    ∧ (c2p_dZW (c2p_ctx state_est (prim_to_cons_point state_est.adiabatic_gamma
            (mkSt 1 1 (3 / 5) 0 0 1 1 0)) (mkSt 1 1 (3 / 5) 0 0 1 1 0))
          ⟨1 * (1 + 1 / (1 * (state_est.adiabatic_gamma - 1)) + 1 / 1)
              / (1 - (3 / 5 * (3 / 5) + 0 * 0 + 0 * 0)),
            1 / Real.sqrt (1 - (3 / 5 * (3 / 5) + 0 * 0 + 0 * 0)), 0, false⟩ = (0, 0)
      ∧ c2p_Pre (c2p_ctx state_est (prim_to_cons_point state_est.adiabatic_gamma
            (mkSt 1 1 (3 / 5) 0 0 1 1 0)) (mkSt 1 1 (3 / 5) 0 0 1 1 0))
          ⟨1 * (1 + 1 / (1 * (state_est.adiabatic_gamma - 1)) + 1 / 1)
              / (1 - (3 / 5 * (3 / 5) + 0 * 0 + 0 * 0)),
            1 / Real.sqrt (1 - (3 / 5 * (3 / 5) + 0 * 0 + 0 * 0)), 0, false⟩ = 1
      ∧ mkSt
          ((c2p_ctx state_est (prim_to_cons_point state_est.adiabatic_gamma
              (mkSt 1 1 (3 / 5) 0 0 1 1 0)) (mkSt 1 1 (3 / 5) 0 0 1 1 0)).D
            / (1 / Real.sqrt (1 - (3 / 5 * (3 / 5) + 0 * 0 + 0 * 0))))
          ((c2p_ctx state_est (prim_to_cons_point state_est.adiabatic_gamma
              (mkSt 1 1 (3 / 5) 0 0 1 1 0)) (mkSt 1 1 (3 / 5) 0 0 1 1 0)).D
            / (1 / Real.sqrt (1 - (3 / 5 * (3 / 5) + 0 * 0 + 0 * 0)))
            * (1 * (1 + 1 / (1 * (state_est.adiabatic_gamma - 1)) + 1 / 1)
                / (1 - (3 / 5 * (3 / 5) + 0 * 0 + 0 * 0))
              / ((c2p_ctx state_est (prim_to_cons_point state_est.adiabatic_gamma
                  (mkSt 1 1 (3 / 5) 0 0 1 1 0)) (mkSt 1 1 (3 / 5) 0 0 1 1 0)).D
                * (1 / Real.sqrt (1 - (3 / 5 * (3 / 5) + 0 * 0 + 0 * 0)))) - 1)
            * (c2p_ctx state_est (prim_to_cons_point state_est.adiabatic_gamma
                (mkSt 1 1 (3 / 5) 0 0 1 1 0)) (mkSt 1 1 (3 / 5) 0 0 1 1 0)).gamf)
          ((prim_to_cons_point state_est.adiabatic_gamma (mkSt 1 1 (3 / 5) 0 0 1 1 0) Sx
              + (c2p_ctx state_est (prim_to_cons_point state_est.adiabatic_gamma
                  (mkSt 1 1 (3 / 5) 0 0 1 1 0)) (mkSt 1 1 (3 / 5) 0 0 1 1 0)).BS
                * (1 / Real.sqrt (1 - (3 / 5 * (3 / 5) + 0 * 0 + 0 * 0)))
                / (1 * (1 + 1 / (1 * (state_est.adiabatic_gamma - 1)) + 1 / 1)
                  / (1 - (3 / 5 * (3 / 5) + 0 * 0 + 0 * 0)))
                * prim_to_cons_point state_est.adiabatic_gamma
                  (mkSt 1 1 (3 / 5) 0 0 1 1 0) Bx
                / (1 / Real.sqrt (1 - (3 / 5 * (3 / 5) + 0 * 0 + 0 * 0))))
            / (1 * (1 + 1 / (1 * (state_est.adiabatic_gamma - 1)) + 1 / 1)
                / (1 - (3 / 5 * (3 / 5) + 0 * 0 + 0 * 0))
              + (c2p_ctx state_est (prim_to_cons_point state_est.adiabatic_gamma
                  (mkSt 1 1 (3 / 5) 0 0 1 1 0)) (mkSt 1 1 (3 / 5) 0 0 1 1 0)).B2))
          ((prim_to_cons_point state_est.adiabatic_gamma (mkSt 1 1 (3 / 5) 0 0 1 1 0) Sy
              + (c2p_ctx state_est (prim_to_cons_point state_est.adiabatic_gamma
                  (mkSt 1 1 (3 / 5) 0 0 1 1 0)) (mkSt 1 1 (3 / 5) 0 0 1 1 0)).BS
                * (1 / Real.sqrt (1 - (3 / 5 * (3 / 5) + 0 * 0 + 0 * 0)))
                / (1 * (1 + 1 / (1 * (state_est.adiabatic_gamma - 1)) + 1 / 1)
                  / (1 - (3 / 5 * (3 / 5) + 0 * 0 + 0 * 0)))
                * prim_to_cons_point state_est.adiabatic_gamma
                  (mkSt 1 1 (3 / 5) 0 0 1 1 0) By
                / (1 / Real.sqrt (1 - (3 / 5 * (3 / 5) + 0 * 0 + 0 * 0))))
            / (1 * (1 + 1 / (1 * (state_est.adiabatic_gamma - 1)) + 1 / 1)
                / (1 - (3 / 5 * (3 / 5) + 0 * 0 + 0 * 0))
              + (c2p_ctx state_est (prim_to_cons_point state_est.adiabatic_gamma
                  (mkSt 1 1 (3 / 5) 0 0 1 1 0)) (mkSt 1 1 (3 / 5) 0 0 1 1 0)).B2))
          ((prim_to_cons_point state_est.adiabatic_gamma (mkSt 1 1 (3 / 5) 0 0 1 1 0) Sz
              + (c2p_ctx state_est (prim_to_cons_point state_est.adiabatic_gamma
                  (mkSt 1 1 (3 / 5) 0 0 1 1 0)) (mkSt 1 1 (3 / 5) 0 0 1 1 0)).BS
                * (1 / Real.sqrt (1 - (3 / 5 * (3 / 5) + 0 * 0 + 0 * 0)))
                / (1 * (1 + 1 / (1 * (state_est.adiabatic_gamma - 1)) + 1 / 1)
                  / (1 - (3 / 5 * (3 / 5) + 0 * 0 + 0 * 0)))
                * prim_to_cons_point state_est.adiabatic_gamma
                  (mkSt 1 1 (3 / 5) 0 0 1 1 0) Bz
                / (1 / Real.sqrt (1 - (3 / 5 * (3 / 5) + 0 * 0 + 0 * 0))))
            / (1 * (1 + 1 / (1 * (state_est.adiabatic_gamma - 1)) + 1 / 1)
                / (1 - (3 / 5 * (3 / 5) + 0 * 0 + 0 * 0))
              + (c2p_ctx state_est (prim_to_cons_point state_est.adiabatic_gamma
                  (mkSt 1 1 (3 / 5) 0 0 1 1 0)) (mkSt 1 1 (3 / 5) 0 0 1 1 0)).B2))
          (prim_to_cons_point state_est.adiabatic_gamma (mkSt 1 1 (3 / 5) 0 0 1 1 0) Bx)
          (prim_to_cons_point state_est.adiabatic_gamma (mkSt 1 1 (3 / 5) 0 0 1 1 0) By)
          (prim_to_cons_point state_est.adiabatic_gamma (mkSt 1 1 (3 / 5) 0 0 1 1 0) Bz)
        = mkSt 1 1 (3 / 5) 0 0 1 1 0)
    ∧ cons_to_prim_point state_est
        (prim_to_cons_point state_est.adiabatic_gamma (mkSt 1 1 0 0 0 1 0 0))
        (mkSt 1 1 0 0 0 1 0 0) 0
      = (0, mkSt 1 1 0 0 0 1 0 0, 1) :=
  ⟨⟨by norm_num [state_est, default_state], by norm_num, by norm_num [PRES_FLOOR],
     by norm_num, by norm_num, by norm_num [ERROR_TOLR]⟩,
   cons_to_prim_round_trip_exact.1 state_est 1 1 (3 / 5) 0 0 1 1 0
     (mkSt 1 1 (3 / 5) 0 0 1 1 0) 0 (by norm_num [state_est, default_state])
     (by norm_num) (by norm_num [PRES_FLOOR]) (by norm_num),
   cons_to_prim_round_trip_exact.2 1 1 1 0 0 (mkSt 1 1 0 0 0 1 0 0) 0
     (by norm_num) (by norm_num [PRES_FLOOR]) (by norm_num) (by norm_num [ERROR_TOLR])⟩

end

end RMHD
